import Mathlib

/-!
# Service Sentinel (`service/singleton/servicesentinel.go`)

A shallow embedding of the monitoring core of the sentinel and a verification
of its specification.

Modelling conventions
* Go maps are finite association lists read through `mapGet`; a missing key
  reads as `none` (a nil pointer for pointer-valued maps, the zero value
  through `mapGetD` for value maps). A pointer held in a map is modelled by the
  value it points to, a write through the pointer by a map write.
* A Go panic (nil dereference, index out of range, explicit `panic(err)`) is
  the result `none` of an operation.
* `int` is a 64-bit two's complement integer (`wrapInt`), `uint64` is a natural
  number modulo `2^64` (`wrapU64`). The ring cursor and the window counters never
  exceed the length of a slice, so their increments are written without reduction
  (the cursor through `wrapInt`).
* `float32` delays are exact rationals.
* Instants are integers, in nanoseconds.
* The operations run one at a time (the locks are not modelled); the store and the
  notifier never fail; log lines are not part of the state and are left out, except
  for the panic a log line can raise.
-/

namespace Nezha

/-! ## Go maps -/

/-- Go map with `uint64` keys: an association list, the first entry of a key wins. -/
abbrev GoMap (α : Type) := List (Nat × α)

/-- Map read `m[k]`; `none` when the key is absent. -/
def mapGet {α : Type} : GoMap α → Nat → Option α
  | [], _ => none
  | (k', v) :: t, k => if k' = k then some v else mapGet t k

/-- Map read `m[k]` of a value map: the zero value `d` when the key is absent. -/
def mapGetD {α : Type} (m : GoMap α) (k : Nat) (d : α) : α :=
  (mapGet m k).getD d

/-- Builtin `delete(m, k)`. -/
def mapDelete {α : Type} (m : GoMap α) (k : Nat) : GoMap α :=
  m.filter (fun e => decide (e.1 ≠ k))

/-- Map write `m[k] = v`: overwrites the entry of `k`, or adds one. -/
def mapSet {α : Type} : GoMap α → Nat → α → GoMap α
  | [], k, v => [(k, v)]
  | (k', v') :: t, k, v => if k' = k then (k, v) :: t else (k', v') :: mapSet t k v

/-- Keys visited by `for k := range m`, each key once. -/
def mapKeys {α : Type} (m : GoMap α) : List Nat :=
  (m.map Prod.fst).dedup

/-! ## Machine integers -/

/-- Result of an `int` operation: reduction to 64-bit two's complement. -/
def wrapInt (x : Int) : Int := (x + 2 ^ 63) % 2 ^ 64 - 2 ^ 63

/-- Result of a `uint64` operation or conversion: reduction modulo `2^64`. -/
def wrapU64 (x : Int) : Nat := (x % 2 ^ 64).toNat

/-! ## Status codec -/

/-- Constant `_CurrentStatusSize`. -/
def _CurrentStatusSize : Nat := 30

def StatusNoData : Int := 1
def StatusGood : Int := 2
def StatusLowAvailability : Int := 3
def StatusDown : Int := 4

/-- Generic `GetStatusCode[T float32 | uint64]`; `T` is instantiated with `ℕ`
(`uint64`) and `ℚ` (`float32`). -/
def GetStatusCode {T : Type} [LinearOrderedSemiring T] (percent : T) : Int :=
  if percent = 0 then StatusNoData
  else if percent > 95 then StatusGood
  else if percent > 80 then StatusLowAvailability
  else StatusDown

/-! ## Data model -/

/-- Instant of the zero `time.Time` (0001-01-01 00:00:00 UTC), in nanoseconds
relative to the Unix epoch. -/
def zeroTime : Int := -62135596800000000000

/-- Nanoseconds in an hour (`time.Hour`). -/
def hourNs : Int := 3600000000000

/-- Calendar shift `t.AddDate(0, 0, d)` in a location without a clock change
between the two instants: `d` days of 24 hours. -/
def addDays (t : Int) (d : Int) : Int := t + d * (24 * hourNs)

/-- Modelled from the spec: `model.Monitor` is declared outside this file; these are
the fields the sentinel reads, `CronSpec` standing for the result of `CronSpec()`. -/
structure Monitor where
  ID : Nat
  Name : String
  Target : String
  CronSpec : String
  CronJobID : Int
  Notify : Bool
  LatencyNotify : Bool
  MinLatency : ℚ
  MaxLatency : ℚ
  NotificationTag : String
deriving DecidableEq

/-- Modelled from the spec: `model.MonitorHistory` is declared outside this file.
`CreatedAt` is an instant in nanoseconds. -/
structure MonitorHistory where
  MonitorID : Nat
  CreatedAt : Int
  Successful : Bool
  Delay : ℚ
  Data : String
deriving DecidableEq

/-- Zero value of `model.MonitorHistory`, the content of a fresh ring slot. -/
def MonitorHistory.zero : MonitorHistory :=
  { MonitorID := 0, CreatedAt := zeroTime, Successful := false, Delay := 0, Data := "" }

/-- Modelled from the spec: `pb.TaskResult` is declared outside this file; it carries
`id`, `delay`, `successful` and `data`. -/
structure TaskResult where
  Id : Nat
  Delay : ℚ
  Successful : Bool
  Data : String
deriving DecidableEq

structure ReportData where
  Data : TaskResult
  Reporter : Nat
deriving DecidableEq

/-- Modelled from the spec: `model.PB2MonitorHistory` is declared outside this file; it
copies the four fields of the task result. -/
def PB2MonitorHistory (r : TaskResult) : MonitorHistory :=
  { MonitorID := r.Id, CreatedAt := zeroTime, Successful := r.Successful,
    Delay := r.Delay, Data := r.Data }

/-- Struct `_TodayStatsOfMonitor`. -/
structure TodayStatsOfMonitor where
  Up : Int
  Down : Int
  Delay : ℚ
deriving DecidableEq

/-- Zero value `&_TodayStatsOfMonitor{}`. -/
def TodayStatsOfMonitor.zero : TodayStatsOfMonitor := { Up := 0, Down := 0, Delay := 0 }

/-- Go array type `[30]T`: exactly thirty elements. -/
structure Array30 (α : Type) where
  vals : List α
  size : vals.length = 30
deriving DecidableEq

/-- Array literal with thirty copies of `x`. -/
def Array30.fill {α : Type} (x : α) : Array30 α :=
  { vals := List.replicate 30 x, size := List.length_replicate 30 x }

/-- Element read `a[i]` (`d` is never returned for `i < 30`). -/
def Array30.get {α : Type} (a : Array30 α) (i : Nat) (d : α) : α := a.vals.getD i d

/-- Element write `a[i] = x`. -/
def Array30.set {α : Type} (a : Array30 α) (i : Nat) (x : α) : Array30 α :=
  { vals := a.vals.set i x, size := by rw [List.length_set]; exact a.size }

/-- Modelled from the spec: `model.ServiceItemResponse` is declared outside this file.
The `Monitor` pointer is held as the value it points to. -/
structure ServiceItemResponse where
  Monitor : Monitor
  CurrentUp : Nat
  CurrentDown : Nat
  TotalUp : Nat
  TotalDown : Nat
  Delay : Array30 ℚ
  Up : Array30 Int
  Down : Array30 Int
deriving DecidableEq

/-- Literal built by `loadMonitorHistory` and `OnMonitorUpdate` for a new monitor. -/
def ServiceItemResponse.fresh (m : Nezha.Monitor) : ServiceItemResponse :=
  { Monitor := m, CurrentUp := 0, CurrentDown := 0, TotalUp := 0, TotalDown := 0,
    Delay := Array30.fill 0, Up := Array30.fill 0, Down := Array30.fill 0 }

/-- Struct `ServiceSentinel` without its channels and locks. -/
structure ServiceSentinel where
  serviceStatusToday : GoMap TodayStatsOfMonitor
  serviceCurrentStatusIndex : GoMap Int
  serviceCurrentStatusData : GoMap (List MonitorHistory)
  serviceResponseDataStoreCurrentUp : GoMap Nat
  serviceResponseDataStoreCurrentDown : GoMap Nat
  lastStatus : GoMap Int
  sslCertCache : GoMap String
  monitors : GoMap Monitor
  monthlyStatus : GoMap ServiceItemResponse
deriving DecidableEq

/-- Sentinel with empty maps, as allocated by `NewServiceSentinel`. -/
def ServiceSentinel.empty : ServiceSentinel :=
  { serviceStatusToday := [], serviceCurrentStatusIndex := [],
    serviceCurrentStatusData := [], serviceResponseDataStoreCurrentUp := [],
    serviceResponseDataStoreCurrentDown := [], lastStatus := [], sslCertCache := [],
    monitors := [], monthlyStatus := [] }

/-! ## External collaborators -/

/-- Job registered with the scheduler. -/
inductive CronJob where
  | dispatch (task : Monitor)
  | refreshMonthlyServiceStatus
deriving DecidableEq

/-- Modelled from the spec: the scheduler `Cron` is an external capability
`AddFunc(spec, fn) → (job_id, err)` / `Remove(job_id)`; its state is the last
issued id and the registered jobs. -/
structure CronState where
  nextID : Int
  entries : List (Int × CronJob)
deriving DecidableEq

/-- Modelled from the spec: `Cron.AddFunc`. A spec the scheduler refuses (`accepts spec`
is false) yields an error (`none`) and registers nothing; otherwise the job gets the
next id. The job may read the id it is given. -/
def CronState.AddFunc (accepts : String → Bool) (c : CronState) (spec : String)
    (job : Int → CronJob) : Option (Int × CronState) :=
  if accepts spec then
    some (c.nextID + 1,
      { nextID := c.nextID + 1, entries := c.entries ++ [(c.nextID + 1, job (c.nextID + 1))] })
  else none

/-- Modelled from the spec: `Cron.Remove`. -/
def CronState.Remove (c : CronState) (id : Int) : CronState :=
  { c with entries := c.entries.filter (fun e => decide (e.1 ≠ id)) }

/-- Modelled from the spec: the store `DB` is an external ORM; its state is the monitor
table and the history table. -/
structure Database where
  monitors : List Monitor
  history : List MonitorHistory
deriving DecidableEq

/-- Modelled from the spec: `DB.Save(&monitor)` upserts the row with the monitor's id. -/
def Database.Save (db : Database) (m : Monitor) : Database :=
  { db with monitors :=
      if db.monitors.any (fun x => decide (x.ID = m.ID)) then
        db.monitors.map (fun x => if x.ID = m.ID then m else x)
      else db.monitors ++ [m] }

/-- Modelled from the spec: `DB.Create(&history)` inserts one row. -/
def Database.Create (db : Database) (h : MonitorHistory) : Database :=
  { db with history := db.history ++ [h] }

/-- Message of the SSL step before it is rendered. -/
inductive SslMessage where
  | error (data : String)
  | expiring (expires : Int)
  | changed (oldCert : String) (expiresOld : Int) (newCert : String) (expiresNew : Int)
deriving DecidableEq

/-- Call of `SendNotification(tag, message, true)`, the message kept in structured form. -/
inductive Notification where
  | latencyAbove (tag name : String) (delay max : ℚ)
  | latencyBelow (tag name : String) (delay min : ℚ)
  | status (tag : String) (stateCode : Int) (name : String)
  | ssl (tag name : String) (msg : SslMessage)
deriving DecidableEq

/-- Sentinel together with the process-wide collaborators it acts on. `servers` is
modelled from the spec: the server list `ServerList` maps a reporter id to the server's
metadata, of which the worker reads the name. -/
structure World where
  ss : ServiceSentinel
  cron : CronState
  db : Database
  sent : List Notification
  servers : GoMap String
deriving DecidableEq

/-! ## Control flow -/

/-- Sequential loop over `xs` threading the state; a panic in the body ends it. -/
def loopM {σ α : Type} (body : σ → α → Option σ) : List α → σ → Option σ
  | [], s => some s
  | x :: xs, s =>
    match body s x with
    | none => none
    | some s' => loopM body xs s'

/-! ## Strings -/

/-- Pieces of a character list between the occurrences of `sep`. -/
def splitChars (sep : Char) : List Char → List (List Char)
  | [] => [[]]
  | c :: cs =>
    if c = sep then [] :: splitChars sep cs
    else
      match splitChars sep cs with
      | [] => [[c]]
      | h :: t => (c :: h) :: t

/-- Library call `strings.Split(s, sep)` for a one-character separator. -/
def splitOn (s : String) (sep : Char) : List String :=
  (splitChars sep s.data).map String.mk

/-- Library call `strings.HasPrefix(s, p)`. -/
def startsWith (s p : String) : Bool := p.data.isPrefixOf s.data

/-- Library call `strings.HasSuffix(s, p)`. -/
def endsWith (s p : String) : Bool := p.data.isSuffixOf s.data

/-- Literal that opens the data of a failed TLS probe. -/
def sslErrorMark : String := "SSL证书错误："

/-! ## Daily roll and read-out -/

/-- Body of the first loop of `LoadStats` for the registry key `k`. -/
def LoadStats.refreshDay (ss : ServiceSentinel) (k : Nat) : Option ServiceSentinel :=
  match mapGet ss.monthlyStatus k, mapGet ss.monitors k, mapGet ss.serviceStatusToday k with
  | some r, some m, some v =>
    let totalUp := wrapU64 ((wrapU64 ((r.TotalUp : Int) - wrapU64 (r.Up.get 29 0)) : Int) + wrapU64 v.Up)
    let totalDown :=
      wrapU64 ((wrapU64 ((r.TotalDown : Int) - wrapU64 (r.Down.get 29 0)) : Int) + wrapU64 v.Down)
    let r1 : ServiceItemResponse :=
      { r with Monitor := m, TotalUp := totalUp, TotalDown := totalDown,
               Up := r.Up.set 29 v.Up, Down := r.Down.set 29 v.Down,
               Delay := r.Delay.set 29 v.Delay }
    some { ss with monthlyStatus := mapSet ss.monthlyStatus k r1 }
  | _, _, _ => none

/-- Body of the second loop of `LoadStats`. -/
def LoadStats.copyDown (ss : ServiceSentinel) (k : Nat) : Option ServiceSentinel :=
  match mapGet ss.monthlyStatus k with
  | some r =>
    let r1 : ServiceItemResponse :=
      { r with CurrentDown := mapGetD ss.serviceResponseDataStoreCurrentDown k 0 }
    some { ss with monthlyStatus := mapSet ss.monthlyStatus k r1 }
  | none => none

/-- Body of the third loop of `LoadStats`. -/
def LoadStats.copyUp (ss : ServiceSentinel) (k : Nat) : Option ServiceSentinel :=
  match mapGet ss.monthlyStatus k with
  | some r =>
    let r1 : ServiceItemResponse :=
      { r with CurrentUp := mapGetD ss.serviceResponseDataStoreCurrentUp k 0 }
    some { ss with monthlyStatus := mapSet ss.monthlyStatus k r1 }
  | none => none

/-- Method `LoadStats`; the returned mapping is `monthlyStatus` of the result. -/
def LoadStats (ss : ServiceSentinel) : Option ServiceSentinel :=
  match loopM LoadStats.refreshDay (mapKeys ss.monitors) ss with
  | none => none
  | some ss1 =>
    match loopM LoadStats.copyDown (mapKeys ss1.serviceResponseDataStoreCurrentDown) ss1 with
    | none => none
    | some ss2 => loopM LoadStats.copyUp (mapKeys ss2.serviceResponseDataStoreCurrentUp) ss2

/-- Iteration `i` of the inner loop of `refreshMonthlyServiceStatus`. -/
def refreshMonthlyServiceStatus.shift (v : ServiceItemResponse) (i : Nat) :
    ServiceItemResponse :=
  let v1 :=
    if i = 0 then
      { v with TotalDown := wrapU64 ((v.TotalDown : Int) - wrapU64 (v.Down.get i 0)),
               TotalUp := wrapU64 ((v.TotalUp : Int) - wrapU64 (v.Up.get i 0)) }
    else v
  { v1 with Up := v1.Up.set i (v1.Up.get (i + 1) 0),
            Down := v1.Down.set i (v1.Down.get (i + 1) 0),
            Delay := v1.Delay.set i (v1.Delay.get (i + 1) 0) }

/-- Body of the outer loop of `refreshMonthlyServiceStatus` for the key `k`. -/
def refreshMonthlyServiceStatus.roll (ss : ServiceSentinel) (k : Nat) : Option ServiceSentinel :=
  match mapGet ss.monthlyStatus k with
  | none => none
  | some v =>
    let v1 := (List.range (30 - 1)).foldl refreshMonthlyServiceStatus.shift v
    let v2 := { v1 with Up := v1.Up.set 29 0, Down := v1.Down.set 29 0, Delay := v1.Delay.set 29 0 }
    match mapGet ss.serviceStatusToday k with
    | none => none
    | some _ =>
      some { ss with
        monthlyStatus := mapSet ss.monthlyStatus k v2,
        serviceResponseDataStoreCurrentUp := mapSet ss.serviceResponseDataStoreCurrentUp k 0,
        serviceResponseDataStoreCurrentDown := mapSet ss.serviceResponseDataStoreCurrentDown k 0,
        serviceStatusToday := mapSet ss.serviceStatusToday k { Up := 0, Down := 0, Delay := 0 } }

/-- Method `refreshMonthlyServiceStatus` (the Daily Roll). -/
def refreshMonthlyServiceStatus (ss : ServiceSentinel) : Option ServiceSentinel :=
  match LoadStats ss with
  | none => none
  | some ss1 => loopM refreshMonthlyServiceStatus.roll (mapKeys ss1.monthlyStatus) ss1

/-- Method `Monitors`: the registry values in iteration order, stably sorted by id. -/
def Monitors (ss : ServiceSentinel) : List Monitor :=
  ((mapKeys ss.monitors).filterMap (mapGet ss.monitors)).insertionSort
    (fun a b => a.ID ≤ b.ID)

/-! ## Registry -/

/-- Go `error` returned by `OnMonitorUpdate`. -/
inductive Error where
  | scheduleRejected
deriving DecidableEq

/-- Initialisation of the per-monitor data of a new monitor in `OnMonitorUpdate`. -/
def OnMonitorUpdate.init (ss : ServiceSentinel) (m : Monitor) : ServiceSentinel :=
  { ss with
    monthlyStatus := mapSet ss.monthlyStatus m.ID (ServiceItemResponse.fresh m),
    serviceCurrentStatusData := mapSet ss.serviceCurrentStatusData m.ID
      (List.replicate _CurrentStatusSize MonitorHistory.zero),
    serviceStatusToday := mapSet ss.serviceStatusToday m.ID TodayStatsOfMonitor.zero }

/-- Method `OnMonitorUpdate`: the returned error (`none` is `nil`) and the state after
the call. The registered closure reads `m` after `CronJobID` is assigned. -/
def OnMonitorUpdate (accepts : String → Bool) (w : World) (m : Monitor) :
    Option Error × World :=
  match w.cron.AddFunc accepts m.CronSpec (fun id => CronJob.dispatch { m with CronJobID := id }) with
  | none => (some Error.scheduleRejected, w)
  | some (id, cron1) =>
    let m1 : Monitor := { m with CronJobID := id }
    match mapGet w.ss.monitors m.ID with
    | some old =>
      (none, { w with cron := cron1.Remove old.CronJobID,
                      ss := { w.ss with monitors := mapSet w.ss.monitors m.ID m1 } })
    | none =>
      (none, { w with cron := cron1,
                      ss := { OnMonitorUpdate.init w.ss m1 with
                              monitors := mapSet w.ss.monitors m.ID m1 } })

/-- The map deletions of `OnMonitorDelete`. -/
def OnMonitorDelete.purge (ss : ServiceSentinel) (id : Nat) : ServiceSentinel :=
  { serviceCurrentStatusIndex := mapDelete ss.serviceCurrentStatusIndex id,
    serviceCurrentStatusData := mapDelete ss.serviceCurrentStatusData id,
    lastStatus := mapDelete ss.lastStatus id,
    serviceResponseDataStoreCurrentUp := mapDelete ss.serviceResponseDataStoreCurrentUp id,
    serviceResponseDataStoreCurrentDown := mapDelete ss.serviceResponseDataStoreCurrentDown id,
    sslCertCache := mapDelete ss.sslCertCache id,
    serviceStatusToday := mapDelete ss.serviceStatusToday id,
    monitors := mapDelete ss.monitors id,
    monthlyStatus := mapDelete ss.monthlyStatus id }

/-- Method `OnMonitorDelete`; `none` is the nil dereference of `ss.monitors[id].CronJobID`
for an id that is not registered. -/
def OnMonitorDelete (w : World) (id : Nat) : Option World :=
  match mapGet w.ss.monitors id with
  | none => none
  | some m => some { w with cron := w.cron.Remove m.CronJobID, ss := OnMonitorDelete.purge w.ss id }

/-! ## Ingestion worker -/

/-- Loop of the worker over the ring: the numbers of populated slots that are
successful and that are not. -/
def scanCurrent (ring : List MonitorHistory) : Nat × Nat :=
  ring.foldl
    (fun acc h =>
      if h.MonitorID > 0 then
        if h.Successful then (acc.1 + 1, acc.2) else (acc.1, acc.2 + 1)
      else acc)
    (0, 0)

/-- Availability percentage of the short window. -/
def upPercent (up down : Nat) : Nat :=
  if down + up > 0 then up * 100 / (down + up) else 0

/-- Latency alerts of one report for the monitor `m`. -/
def latencyAlerts (m : Monitor) (mh : MonitorHistory) : List Notification :=
  if mh.Delay > 0 then
    if m.LatencyNotify then
      (if mh.Delay > m.MaxLatency then
        [Notification.latencyAbove m.NotificationTag m.Name mh.Delay m.MaxLatency] else []) ++
      (if mh.Delay < m.MinLatency then
        [Notification.latencyBelow m.NotificationTag m.Name mh.Delay m.MinLatency] else [])
    else []
  else []

/-- Status alert of one report: the new `lastStatus` map and the notifications sent. -/
def statusAlert (m : Monitor) (lastStatus : GoMap Int) (id : Nat) (stateCode : Int) :
    GoMap Int × List Notification :=
  if stateCode = StatusDown ∨ stateCode ≠ mapGetD lastStatus id 0 then
    let isNeedSendNotification :=
      (decide (mapGetD lastStatus id 0 ≠ 0) || decide (stateCode = StatusDown)) && m.Notify
    (mapSet lastStatus id stateCode,
      if isNeedSendNotification then
        [Notification.status m.NotificationTag stateCode m.Name] else [])
  else (lastStatus, [])

/-- SSL step of one report: the new certificate cache and `errMsg` (`none` is the
empty string). `parseTime` is `time.Parse` with the layout
`"2006-01-02 15:04:05 -0700 MST"` (`none` is a parse error, which leaves the zero
time), `now` is `time.Now()`. -/
def sslStep (parseTime : String → Option Int) (now : Int) (cache : GoMap String) (id : Nat)
    (data : String) : GoMap String × Option SslMessage :=
  if startsWith data sslErrorMark then
    if !endsWith data "timeout" && !endsWith data "EOF" && !endsWith data "timed out" then
      (cache, some (SslMessage.error data))
    else (cache, none)
  else
    let newCert := splitOn data '|'
    if newCert.length > 1 then
      let cache1 := if mapGetD cache id "" = "" then mapSet cache id data else cache
      let expiresNew := (parseTime (newCert.getD 1 "")).getD zeroTime
      let errMsg1 :=
        if expiresNew < addDays now 7 then some (SslMessage.expiring expiresNew) else none
      let oldCert := splitOn (mapGetD cache1 id "") '|'
      let expiresOld :=
        if oldCert.length > 1 then (parseTime (oldCert.getD 1 "")).getD zeroTime else zeroTime
      if oldCert.getD 0 "" ≠ newCert.getD 0 "" ∧ expiresNew ≠ expiresOld then
        (mapSet cache1 id data,
          some (SslMessage.changed (oldCert.getD 0 "") expiresOld (newCert.getD 0 "") expiresNew))
      else (cache1, errMsg1)
    else (cache, none)

/-- Today's counters after the report `mh`: the running mean and `Up++`, or `Down++`. -/
def recordToday (t : TodayStatsOfMonitor) (mh : MonitorHistory) : TodayStatsOfMonitor :=
  if mh.Successful then
    { t with Delay := (t.Delay * (t.Up : ℚ) + mh.Delay) / ((wrapInt (t.Up + 1) : Int) : ℚ),
             Up := wrapInt (t.Up + 1) }
  else { t with Down := wrapInt (t.Down + 1) }

/-- State code derived from the short window `ring`. -/
def windowState (ring : List MonitorHistory) : Int :=
  GetStatusCode (upPercent (scanCurrent ring).1 (scanCurrent ring).2)

/-- History row written by the persistence flush. -/
def flushRow (mh : MonitorHistory) (t1 : TodayStatsOfMonitor) (stateCode : Int) :
    MonitorHistory :=
  { MonitorID := mh.MonitorID, CreatedAt := zeroTime, Delay := t1.Delay,
    Successful := decide (stateCode = StatusGood), Data := mh.Data }

/-- Iteration of the loop of `worker` for an accepted report once the ring write at
`idx` is known to be in bounds: `m` is the registered monitor, `t` its today counters,
`ring` its ring. -/
def workerCommit (parseTime : String → Option Int) (now : Int) (w : World) (m : Monitor)
    (t : TodayStatsOfMonitor) (ring : List MonitorHistory) (idx : Int) (mh : MonitorHistory) :
    World :=
  let t1 := recordToday t mh
  let ring1 := ring.set idx.toNat mh
  let idx1 := wrapInt (idx + 1)
  let cur := scanCurrent ring1
  let stateCode := windowState ring1
  let flush : Bool := decide (idx1 = (_CurrentStatusSize : Int))
  let db1 := if flush then w.db.Create (flushRow mh t1 stateCode) else w.db
  let status := statusAlert m w.ss.lastStatus mh.MonitorID stateCode
  let ssl := sslStep parseTime now w.ss.sslCertCache mh.MonitorID mh.Data
  let sslAlert :=
    if ssl.2.isSome && m.Notify then
      [Notification.ssl m.NotificationTag m.Name (ssl.2.getD (SslMessage.error ""))]
    else []
  { ss :=
      { w.ss with
        serviceStatusToday := mapSet w.ss.serviceStatusToday mh.MonitorID t1,
        serviceCurrentStatusData := mapSet w.ss.serviceCurrentStatusData mh.MonitorID ring1,
        serviceCurrentStatusIndex :=
          mapSet w.ss.serviceCurrentStatusIndex mh.MonitorID (if flush then 0 else idx1),
        serviceResponseDataStoreCurrentUp :=
          mapSet w.ss.serviceResponseDataStoreCurrentUp mh.MonitorID cur.1,
        serviceResponseDataStoreCurrentDown :=
          mapSet w.ss.serviceResponseDataStoreCurrentDown mh.MonitorID cur.2,
        lastStatus := status.1,
        sslCertCache := ssl.1 },
    cron := w.cron,
    db := db1,
    sent := w.sent ++ latencyAlerts m mh ++ status.2 ++ sslAlert,
    servers := w.servers }

/-- One iteration of the loop of `worker`: the report `r` taken from the channel at
time `now`. A report for an unknown monitor is dropped; a missing today entry, a failed
report whose reporter is not in the server list (the incident log line reads
`ServerList[r.Reporter].Name`) or a ring index out of range panics. -/
def workerStep (parseTime : String → Option Int) (now : Int) (w : World) (r : ReportData) :
    Option World :=
  match mapGet w.ss.monitors r.Data.Id with
  | none => some w
  | some m =>
    if m.ID = 0 then some w
    else
      let mh := PB2MonitorHistory r.Data
      match mapGet w.ss.serviceStatusToday mh.MonitorID with
      | none => none
      | some t =>
        if mh.Successful = false ∧ mapGet w.servers r.Reporter = none then none
        else
          let ring := mapGetD w.ss.serviceCurrentStatusData mh.MonitorID []
          let idx := mapGetD w.ss.serviceCurrentStatusIndex mh.MonitorID 0
          if idx < 0 ∨ (ring.length : Int) ≤ idx then none
          else some (workerCommit parseTime now w m t ring idx mh)

/-- Method `worker` on the reports `rs` taken from the channel, each with the time
at which it is processed. -/
def worker (parseTime : String → Option Int) (w : World) (rs : List (Int × ReportData)) :
    Option World :=
  loopM (fun w e => workerStep parseTime e.1 w e.2) rs w

/-! ## Startup -/

/-- Body of the first loop of `loadMonitorHistory`: registers the monitor `m` of the
monitor table; the second component collects the monitors as the loop leaves them. -/
def loadMonitorHistory.register (accepts : String → Bool) (acc : World × List Monitor)
    (m : Monitor) : Option (World × List Monitor) :=
  let m1 : Monitor := if m.NotificationTag = "" then { m with NotificationTag := "default" } else m
  let db1 := if m.NotificationTag = "" then acc.1.db.Save m1 else acc.1.db
  match acc.1.cron.AddFunc accepts m1.CronSpec (fun _ => CronJob.dispatch m1) with
  | none => none
  | some (id, cron1) =>
    let m2 : Monitor := { m1 with CronJobID := id }
    some
      ({ ss :=
           { acc.1.ss with
             monitors := mapSet acc.1.ss.monitors m2.ID m2,
             serviceCurrentStatusData := mapSet acc.1.ss.serviceCurrentStatusData m2.ID
               (List.replicate _CurrentStatusSize MonitorHistory.zero),
             serviceStatusToday := mapSet acc.1.ss.serviceStatusToday m2.ID
               TodayStatsOfMonitor.zero },
         cron := cron1, db := db1, sent := acc.1.sent, servers := acc.1.servers },
       acc.2 ++ [m2])

/-- Body of the second loop of `loadMonitorHistory`. -/
def loadMonitorHistory.initMonthly (ss : ServiceSentinel) (m : Monitor) : Option ServiceSentinel :=
  some { ss with monthlyStatus := mapSet ss.monthlyStatus m.ID (ServiceItemResponse.fresh m) }

/-- Body of the third loop of `loadMonitorHistory`: folds one history row of the last
29 days into its day bucket. `today` is the local midnight. -/
def loadMonitorHistory.addRow (today : Int) (ss : ServiceSentinel) (mh : MonitorHistory) :
    Option ServiceSentinel :=
  let dayIndex : Int := 28 - Int.tdiv (Int.tdiv (today - mh.CreatedAt) hourNs) 24
  match mapGet ss.monthlyStatus mh.MonitorID with
  | none => none
  | some r =>
    if dayIndex < 0 ∨ 30 ≤ dayIndex then none
    else
      let i := dayIndex.toNat
      let r1 : ServiceItemResponse :=
        if mh.Successful then
          { r with
            Delay := r.Delay.set i
              ((r.Delay.get i 0 * (r.Up.get i 0 : ℚ) + mh.Delay) /
                ((wrapInt (r.Up.get i 0 + 1) : Int) : ℚ)),
            Up := r.Up.set i (wrapInt (r.Up.get i 0 + 1)),
            TotalUp := wrapU64 ((r.TotalUp : Int) + 1) }
        else
          { r with
            Down := r.Down.set i (wrapInt (r.Down.get i 0 + 1)),
            TotalDown := wrapU64 ((r.TotalDown : Int) + 1) }
      some { ss with monthlyStatus := mapSet ss.monthlyStatus mh.MonitorID r1 }

/-- Method `loadMonitorHistory` on the process state `w`. -/
def loadMonitorHistory (accepts : String → Bool) (today : Int) (w : World) : Option World :=
  match loopM (loadMonitorHistory.register accepts) w.db.monitors (w, []) with
  | none => none
  | some (w1, monitors) =>
    match loopM loadMonitorHistory.initMonthly monitors w1.ss with
    | none => none
    | some ss2 =>
      let mhs := w.db.history.filter
        (fun h => decide (addDays today (-29) ≤ h.CreatedAt) && decide (h.CreatedAt < today))
      match loopM (loadMonitorHistory.addRow today) mhs ss2 with
      | none => none
      | some ss3 => some { w1 with ss := ss3 }

/-- Body of the loop of `NewServiceSentinel` over the rows created today; the second
component is the local map `totalDelay`. -/
def NewServiceSentinel.countRow (acc : ServiceSentinel × GoMap ℚ) (mh : MonitorHistory) :
    Option (ServiceSentinel × GoMap ℚ) :=
  match mapGet acc.1.serviceStatusToday mh.MonitorID, mapGet acc.1.monthlyStatus mh.MonitorID with
  | some t, some r =>
    if mh.Successful then
      some
        ({ acc.1 with
           serviceStatusToday := mapSet acc.1.serviceStatusToday mh.MonitorID
             { t with Up := wrapInt (t.Up + 1) },
           monthlyStatus := mapSet acc.1.monthlyStatus mh.MonitorID
             { r with TotalUp := wrapU64 ((r.TotalUp : Int) + 1) } },
         mapSet acc.2 mh.MonitorID (mapGetD acc.2 mh.MonitorID 0 + mh.Delay))
    else
      some
        ({ acc.1 with
           serviceStatusToday := mapSet acc.1.serviceStatusToday mh.MonitorID
             { t with Down := wrapInt (t.Down + 1) },
           monthlyStatus := mapSet acc.1.monthlyStatus mh.MonitorID
             { r with TotalDown := wrapU64 ((r.TotalDown : Int) + 1) } },
         acc.2)
  | _, _ => none

/-- Body of the loop of `NewServiceSentinel` over `totalDelay`. -/
def NewServiceSentinel.meanDelay (totalDelay : GoMap ℚ) (ss : ServiceSentinel) (id : Nat) :
    Option ServiceSentinel :=
  match mapGet ss.serviceStatusToday id with
  | none => none
  | some t =>
    let t1 : TodayStatsOfMonitor := { t with Delay := mapGetD totalDelay id 0 / (t.Up : ℚ) }
    some { ss with serviceStatusToday := mapSet ss.serviceStatusToday id t1 }

/-- Function `NewServiceSentinel` on the scheduler state `cron`, the store `db` and the
server list `servers`; `today` is the local midnight of the day of the call. -/
def NewServiceSentinel (accepts : String → Bool) (today : Int) (cron : CronState)
    (db : Database) (servers : GoMap String) : Option World :=
  match loadMonitorHistory accepts today
      { ss := ServiceSentinel.empty, cron := cron, db := db, sent := [],
        servers := servers } with
  | none => none
  | some w1 =>
    let mhs := db.history.filter (fun h => decide (today ≤ h.CreatedAt))
    match loopM NewServiceSentinel.countRow mhs (w1.ss, []) with
    | none => none
    | some (ss2, totalDelay) =>
      match loopM (NewServiceSentinel.meanDelay totalDelay) (mapKeys totalDelay) ss2 with
      | none => none
      | some ss3 =>
        match w1.cron.AddFunc accepts "0 0 0 * * *"
            (fun _ => CronJob.refreshMonthlyServiceStatus) with
        | none => none
        | some (_, cron1) => some { w1 with ss := ss3, cron := cron1 }

/-! ## Operations on the running sentinel -/

/-- Operation applied to the running sentinel. -/
inductive Event where
  | report (now : Int) (r : ReportData)
  | loadStats
  | dailyRoll
  | monitorUpdate (m : Monitor)
  | monitorDelete (id : Nat)

/-- State after an operation; `none` when it panics. -/
def Event.apply (accepts : String → Bool) (parseTime : String → Option Int) (w : World) :
    Event → Option World
  | Event.report now r => workerStep parseTime now w r
  | Event.loadStats => (LoadStats w.ss).map (fun ss => { w with ss := ss })
  | Event.dailyRoll => (refreshMonthlyServiceStatus w.ss).map (fun ss => { w with ss := ss })
  | Event.monitorUpdate m => some (OnMonitorUpdate accepts w m).2
  | Event.monitorDelete id => OnMonitorDelete w id

/-- States of the process after startup and any number of operations. -/
inductive Reachable (accepts : String → Bool) (parseTime : String → Option Int) : World → Prop where
  | startup (today : Int) (cron : CronState) (db : Database) (servers : GoMap String)
      (w : World) :
      NewServiceSentinel accepts today cron db servers = some w → Reachable accepts parseTime w
  | step (w w' : World) (e : Event) :
      Reachable accepts parseTime w → e.apply accepts parseTime w = some w' →
      Reachable accepts parseTime w'

/-! ## Predicates on sentinel states -/

/-- Every registry entry is stored under the id of its monitor, as `loadMonitorHistory`
and `OnMonitorUpdate` store it. -/
def registryKeyed (ss : ServiceSentinel) : Prop :=
  ∀ k m, mapGet ss.monitors k = some m → m.ID = k

/-! ## Scenario fixtures -/

/-- Scheduler that accepts every spec. -/
def acceptAll : String → Bool := fun _ => true

/-- Scheduler that refuses every spec. -/
def rejectAll : String → Bool := fun _ => false

/-- Time parser that fails on every input. -/
def parseNothing : String → Option Int := fun _ => none

/-- Monitor with id 1 and status notifications on. -/
def sampleMonitor : Monitor :=
  { ID := 1, Name := "web", Target := "https://example.org", CronSpec := "@every 30s",
    CronJobID := 0, Notify := true, LatencyNotify := false, MinLatency := 0,
    MaxLatency := 200, NotificationTag := "default" }

/-- Scheduler without jobs. -/
def sampleCron : CronState := { nextID := 0, entries := [] }

/-- Server list with one reporter, of id 0. -/
def sampleServers : GoMap String := [(0, "agent")]

/-- Process state before any monitor exists. -/
def emptyWorld : World :=
  { ss := ServiceSentinel.empty, cron := sampleCron,
    db := { monitors := [], history := [] }, sent := [], servers := sampleServers }

/-- State after `OnMonitorUpdate` has registered `sampleMonitor` in `emptyWorld`. -/
def sampleWorld : World := (OnMonitorUpdate acceptAll emptyWorld sampleMonitor).2

/-- Report for monitor `id` with the given outcome and delay, and no data. -/
def sampleReport (id : Nat) (successful : Bool) (delay : ℚ) : ReportData :=
  { Data := { Id := id, Delay := delay, Successful := successful, Data := "" }, Reporter := 0 }

/-- State after `OnMonitorUpdate` has registered a monitor with id 0 in `emptyWorld`. -/
def zeroIdWorld : World :=
  (OnMonitorUpdate acceptAll emptyWorld { sampleMonitor with ID := 0 }).2

/-- State of `sampleWorld` after one successful report with delay 50 for monitor 1, or
`sampleWorld` itself if the worker panics on it. -/
def usedWorld : World :=
  (workerStep parseNothing 0 sampleWorld (sampleReport 1 true 50)).getD sampleWorld

/-- The monitor `id` can take reports: it is registered with a non-zero id (its reports
are accepted), has today counters, a ring of `_CurrentStatusSize` slots and a cursor
inside the ring. -/
def Ready (ss : ServiceSentinel) (id : Nat) : Prop :=
  ∃ m t, mapGet ss.monitors id = some m ∧ m.ID ≠ 0 ∧
    mapGet ss.serviceStatusToday id = some t ∧
    (mapGetD ss.serviceCurrentStatusData id []).length = 30 ∧
    0 ≤ mapGetD ss.serviceCurrentStatusIndex id 0 ∧
    mapGetD ss.serviceCurrentStatusIndex id 0 < 30

/-- The worker can write the incident log line of `r`: the report is successful (no
line is written) or its reporter is in the server list. -/
def reporterKnown (servers : GoMap String) (r : ReportData) : Prop :=
  r.Data.Successful = true ∨ mapGet servers r.Reporter ≠ none

/-- Number of successful reports in `rs`. -/
def successes (rs : List (Int × ReportData)) : Nat :=
  rs.countP (fun e => e.2.Data.Successful)

/-- Number of failed reports in `rs`. -/
def failures (rs : List (Int × ReportData)) : Nat :=
  rs.countP (fun e => !e.2.Data.Successful)

/-- Sum of the delays of the successful reports in `rs`. -/
def delaySum (rs : List (Int × ReportData)) : ℚ :=
  ((rs.filter (fun e => e.2.Data.Successful)).map (fun e => e.2.Data.Delay)).sum

/-- Today counters of monitor `id` after the worker has processed `rs`. -/
def todayAfter (parseTime : String → Option Int) (w : World) (rs : List (Int × ReportData))
    (id : Nat) : Option TodayStatsOfMonitor :=
  (worker parseTime w rs).bind (fun w' => mapGet w'.ss.serviceStatusToday id)

/-- Three reports for monitor 1: a success with delay 50, a failure, a success with
delay 70. -/
def sampleReports : List (Int × ReportData) :=
  [(0, sampleReport 1 true 50), (0, sampleReport 1 false 0), (0, sampleReport 1 true 70)]

/-- Thirty successful reports with delay 50 for monitor 1. -/
def thirtyReports : List (Int × ReportData) :=
  List.replicate 30 (0, sampleReport 1 true 50)

/-- Number of populated slots of a ring: the slots whose monitor id is non-zero. -/
def populated (ring : List MonitorHistory) : Nat :=
  ring.countP (fun h => decide (h.MonitorID ≠ 0))

/-- Stored short-window counters of `id`: `current_up + current_down`. -/
def windowCount (ss : ServiceSentinel) (id : Nat) : Nat :=
  mapGetD ss.serviceResponseDataStoreCurrentUp id 0 +
    mapGetD ss.serviceResponseDataStoreCurrentDown id 0

/-- Consistency of the per-monitor maps with the registry: a registered monitor has
today counters, a monthly response, a ring of thirty slots, a cursor inside the ring and
stored window counters that are those of the ring or have been reset to 0; an id that is
not registered has no cursor, no window counters and no monthly response. -/
def SentinelInv (ss : ServiceSentinel) : Prop :=
  (∀ id, mapGet ss.monitors id ≠ none →
    mapGet ss.serviceStatusToday id ≠ none ∧
    mapGet ss.monthlyStatus id ≠ none ∧
    (mapGetD ss.serviceCurrentStatusData id []).length = 30 ∧
    0 ≤ mapGetD ss.serviceCurrentStatusIndex id 0 ∧
    mapGetD ss.serviceCurrentStatusIndex id 0 < 30 ∧
    (windowCount ss id = populated (mapGetD ss.serviceCurrentStatusData id []) ∨
      windowCount ss id = 0)) ∧
  (∀ id, mapGet ss.monitors id = none →
    mapGet ss.serviceCurrentStatusIndex id = none ∧
    mapGet ss.serviceResponseDataStoreCurrentUp id = none ∧
    mapGet ss.serviceResponseDataStoreCurrentDown id = none ∧
    mapGet ss.monthlyStatus id = none)

/-- Relation between the sentinel before and after a step that only rewrites the values
of existing today and monthly entries. -/
def ValuesOnly (ss ss' : ServiceSentinel) : Prop :=
  ss'.monitors = ss.monitors ∧
  ss'.serviceCurrentStatusData = ss.serviceCurrentStatusData ∧
  ss'.serviceCurrentStatusIndex = ss.serviceCurrentStatusIndex ∧
  ss'.serviceResponseDataStoreCurrentUp = ss.serviceResponseDataStoreCurrentUp ∧
  ss'.serviceResponseDataStoreCurrentDown = ss.serviceResponseDataStoreCurrentDown ∧
  (∀ k, mapGet ss'.serviceStatusToday k = none ↔ mapGet ss.serviceStatusToday k = none) ∧
  (∀ k, mapGet ss'.monthlyStatus k = none ↔ mapGet ss.monthlyStatus k = none)

/-- Operations applied one after the other. -/
def runEvents (accepts : String → Bool) (parseTime : String → Option Int) (w : World)
    (es : List Event) : Option World :=
  loopM (fun w e => e.apply accepts parseTime w) es w

/-- Relation between the sentinel before and after iterations of the Daily Roll loop:
values of existing today and monthly entries are rewritten, and the stored window
counters of a key are either untouched or both reset to 0 (only for keys of
`monthlyStatus`). -/
def RollOnly (ss ss' : ServiceSentinel) : Prop :=
  ss'.monitors = ss.monitors ∧
  ss'.serviceCurrentStatusData = ss.serviceCurrentStatusData ∧
  ss'.serviceCurrentStatusIndex = ss.serviceCurrentStatusIndex ∧
  (∀ k, mapGet ss'.serviceStatusToday k = none ↔ mapGet ss.serviceStatusToday k = none) ∧
  (∀ k, mapGet ss'.monthlyStatus k = none ↔ mapGet ss.monthlyStatus k = none) ∧
  (∀ k,
    (mapGet ss'.serviceResponseDataStoreCurrentUp k = mapGet ss.serviceResponseDataStoreCurrentUp k ∧
      mapGet ss'.serviceResponseDataStoreCurrentDown k =
        mapGet ss.serviceResponseDataStoreCurrentDown k) ∨
    (mapGet ss'.serviceResponseDataStoreCurrentUp k = some 0 ∧
      mapGet ss'.serviceResponseDataStoreCurrentDown k = some 0 ∧
      mapGet ss.monthlyStatus k ≠ none))

/-- State of the first loop of `loadMonitorHistory`: no cursor, window counter or monthly
entry exists yet, every registered id has today counters and a ring of thirty slots, and
the registered ids are the ids of the monitors collected so far. -/
def RegisterInv (acc : World × List Monitor) : Prop :=
  acc.1.ss.serviceCurrentStatusIndex = [] ∧
  acc.1.ss.serviceResponseDataStoreCurrentUp = [] ∧
  acc.1.ss.serviceResponseDataStoreCurrentDown = [] ∧
  acc.1.ss.monthlyStatus = [] ∧
  (∀ id, mapGet acc.1.ss.monitors id ≠ none →
    mapGet acc.1.ss.serviceStatusToday id ≠ none ∧
    (mapGetD acc.1.ss.serviceCurrentStatusData id []).length = 30) ∧
  (∀ id, mapGet acc.1.ss.monitors id ≠ none ↔ ∃ m ∈ acc.2, m.ID = id)

/-- Store with the sample monitor and no history. -/
def sampleDb : Database := { monitors := [sampleMonitor], history := [] }

/-- Store with the sample monitor and one successful history row created at the local
midnight `0` of the startup day. -/
def todayRowDb : Database :=
  { monitors := [sampleMonitor],
    history := [{ MonitorID := 1, CreatedAt := 0, Successful := true, Delay := 50, Data := "" }] }

/-- State after `NewServiceSentinel` on `sampleDb`, or `emptyWorld` if startup panics. -/
def startedWorld : World :=
  (NewServiceSentinel acceptAll 0 sampleCron sampleDb sampleServers).getD emptyWorld

/-- The incremental totals of a monthly response agree with its day buckets:
`total_up` is the sum of `up[0..29]` and `total_down` the sum of `down[0..29]`, in
`uint64` arithmetic. -/
def TotalsMatch (r : ServiceItemResponse) : Prop :=
  (r.TotalUp : Int) = r.Up.vals.sum % 2 ^ 64 ∧ (r.TotalDown : Int) = r.Down.vals.sum % 2 ^ 64

/-- Every monthly response of the sentinel has totals that agree with its buckets. -/
def TotalsInv (ss : ServiceSentinel) : Prop :=
  ∀ k r, mapGet ss.monthlyStatus k = some r → TotalsMatch r

/-! ## Notifications and scenarios of the alerting rules -/

/-- Status notifications (`"[<status>] <name>"`). -/
def isStatusNotification (n : Notification) : Bool :=
  match n with
  | Notification.status _ _ _ => true
  | _ => false

/-- Status notifications for the state Down (`"[Down] <name>"`). -/
def isDownNotification (n : Notification) : Bool :=
  match n with
  | Notification.status _ s _ => decide (s = StatusDown)
  | _ => false

/-- SSL notifications (`"[SSL] <name> <errMsg>"`). -/
def isSslNotification (n : Notification) : Bool :=
  match n with
  | Notification.ssl _ _ _ => true
  | _ => false

/-- The SSL message `"SSL certificate changed, ..."`. -/
def isChangedMessage (msg : SslMessage) : Bool :=
  match msg with
  | SslMessage.changed _ _ _ _ => true
  | _ => false

/-- Twenty failed reports followed by ten successful reports for monitor 1. -/
def downReports : List (Int × ReportData) :=
  List.replicate 20 (0, sampleReport 1 false 0) ++ List.replicate 10 (0, sampleReport 1 true 50)

/-- State of `sampleWorld` after the thirty successful reports `thirtyReports`, or
`sampleWorld` itself if the worker panics. -/
def healthyWorld : World :=
  (worker parseNothing sampleWorld thirtyReports).getD sampleWorld

/-- Summary of a run of the worker from `healthyWorld` for monitor 1: the number of
`"[Down]"` notifications dispatched in total, the availability percentage of the
stored window counters and the last status. -/
def downSummary (rs : List (Int × ReportData)) : Option (Nat × Nat × Int) :=
  (worker parseNothing healthyWorld rs).map
    (fun w => (w.sent.countP isDownNotification,
      upPercent (mapGetD w.ss.serviceResponseDataStoreCurrentUp 1 0)
        (mapGetD w.ss.serviceResponseDataStoreCurrentDown 1 0),
      mapGetD w.ss.lastStatus 1 0))

/-- A time of processing: 2026-11-02 00:00:00 UTC. -/
def sampleNow : Int := 1793577600000000000

/-- Report for monitor 1 whose data has two `|`-separated parts, the second of which is
not a date. -/
def malformedReport : ReportData :=
  { Data := { Id := 1, Delay := 50, Successful := true, Data := "CN=example|not-a-date" },
    Reporter := 0 }

/-- Store with the sample monitor and one history row for it, created at instant 0. -/
def boundaryRowDb : Database :=
  { monitors := [sampleMonitor],
    history := [{ MonitorID := 1, CreatedAt := 0, Successful := true, Delay := 50, Data := "" }] }

/-- State of `sampleWorld` after one failed report for monitor 1, or `sampleWorld` itself
if the worker panics. -/
def failedWorld : World :=
  (workerStep parseNothing 0 sampleWorld (sampleReport 1 false 0)).getD sampleWorld

/-- State of `sampleWorld` after twenty-nine successful reports with delay 50 for
monitor 1, or `sampleWorld` itself if the worker panics. -/
def almostFlushedWorld : World :=
  (worker parseNothing sampleWorld (List.replicate 29 (0, sampleReport 1 true 50))).getD
    sampleWorld

/-- Sentinel whose registry holds the monitors 2 and 1, iterated in this order. -/
def twoMonitors : ServiceSentinel :=
  { emptyWorld.ss with
    monitors := [(2, { sampleMonitor with ID := 2, Name := "db" }), (1, sampleMonitor)] }

/-- Sentinel whose registry holds the entries of `twoMonitors`, iterated in the other
order. -/
def twoMonitorsSwapped : ServiceSentinel :=
  { emptyWorld.ss with
    monitors := [(1, sampleMonitor), (2, { sampleMonitor with ID := 2, Name := "db" })] }

/-- Response written by the body of the first loop of `LoadStats` over the response `r`
of a monitor `m` whose today counters are `v`. -/
def LoadStats.refreshed (r : ServiceItemResponse) (m : Monitor) (v : TodayStatsOfMonitor) :
    ServiceItemResponse :=
  { r with Monitor := m,
           TotalUp := wrapU64 ((wrapU64 ((r.TotalUp : Int) - wrapU64 (r.Up.get 29 0)) : Int) +
             wrapU64 v.Up),
           TotalDown :=
             wrapU64 ((wrapU64 ((r.TotalDown : Int) - wrapU64 (r.Down.get 29 0)) : Int) +
               wrapU64 v.Down),
           Up := r.Up.set 29 v.Up, Down := r.Down.set 29 v.Down,
           Delay := r.Delay.set 29 v.Delay }

/-- Response written by the body of the outer loop of `refreshMonthlyServiceStatus` over
the response `v`: the inner loop, then the reset of bucket 29. -/
def refreshMonthlyServiceStatus.rolled (v : ServiceItemResponse) : ServiceItemResponse :=
  { (List.range (30 - 1)).foldl refreshMonthlyServiceStatus.shift v with
    Up := ((List.range (30 - 1)).foldl refreshMonthlyServiceStatus.shift v).Up.set 29 0,
    Down := ((List.range (30 - 1)).foldl refreshMonthlyServiceStatus.shift v).Down.set 29 0,
    Delay := ((List.range (30 - 1)).foldl refreshMonthlyServiceStatus.shift v).Delay.set 29 0 }

/-- Relation between a sentinel `b` and a later sentinel `s` that differs from it only in
the values of existing monthly responses. -/
def MonthlyOnly (b s : ServiceSentinel) : Prop :=
  { s with monthlyStatus := b.monthlyStatus } = b ∧
  ∀ k, mapGet s.monthlyStatus k = none ↔ mapGet b.monthlyStatus k = none

/-- A monthly response whose monitor has no stored window counter holds the counter 0:
the response is created with zero counters and only `LoadStats` copies the stored
counters into it. -/
def ResponseInv (ss : ServiceSentinel) : Prop :=
  ∀ k r, mapGet ss.monthlyStatus k = some r →
    (mapGet ss.serviceResponseDataStoreCurrentUp k = none → r.CurrentUp = 0) ∧
    (mapGet ss.serviceResponseDataStoreCurrentDown k = none → r.CurrentDown = 0)

/-- Every monthly response holds zero window counters, as at startup before the first
`LoadStats`. -/
def FreshCounters (ss : ServiceSentinel) : Prop :=
  ∀ k r, mapGet ss.monthlyStatus k = some r → r.CurrentUp = 0 ∧ r.CurrentDown = 0

/-- State of `startedWorld` after one successful report with delay 50 for monitor 1, or
`startedWorld` itself if the worker panics on it. -/
def reportedWorld : World :=
  (workerStep parseNothing 0 startedWorld (sampleReport 1 true 50)).getD startedWorld

/-- SSL notifications that carry the message `"SSL certificate changed, ..."`. -/
def isChangedNotification (n : Notification) : Bool :=
  match n with
  | Notification.ssl _ _ msg => isChangedMessage msg
  | _ => false

/-- State of `sampleWorld` after the report `malformedReport` processed at `sampleNow`,
or `sampleWorld` itself if the worker panics on it. -/
def primedWorld : World :=
  (workerStep parseNothing sampleNow sampleWorld malformedReport).getD sampleWorld

/-- Thresholds of the `uint64` instance of `GetStatusCode`. -/
theorem GetStatusCode_nat (percent : ℕ) :
    (GetStatusCode percent = StatusNoData ↔ percent = 0) ∧
    (GetStatusCode percent = StatusGood ↔ percent > 95) ∧
    (GetStatusCode percent = StatusLowAvailability ↔ 80 < percent ∧ percent ≤ 95) ∧
    (GetStatusCode percent = StatusDown ↔ 0 < percent ∧ percent ≤ 80) := by
  unfold GetStatusCode StatusNoData StatusGood StatusLowAvailability StatusDown
  split_ifs with h0 h1 h2 <;> refine ⟨?_, ?_, ?_, ?_⟩ <;> constructor <;> intro h <;>
    omega

/-- Thresholds of the `float32` instance of `GetStatusCode`, on exact rationals. -/
theorem GetStatusCode_rat (percent : ℚ) (hp : 0 ≤ percent) :
    (GetStatusCode percent = StatusNoData ↔ percent = 0) ∧
    (GetStatusCode percent = StatusGood ↔ percent > 95) ∧
    (GetStatusCode percent = StatusLowAvailability ↔ 80 < percent ∧ percent ≤ 95) ∧
    (GetStatusCode percent = StatusDown ↔ 0 < percent ∧ percent ≤ 80) := by
  unfold GetStatusCode StatusNoData StatusGood StatusLowAvailability StatusDown
  have hpos : percent ≠ 0 → 0 < percent := fun h => lt_of_le_of_ne hp (Ne.symm h)
  split_ifs with h0 h1 h2 <;> refine ⟨?_, ?_, ?_, ?_⟩ <;> constructor <;> intro h <;>
    first
      | rfl
      | exact absurd h (by decide)
      | exact h0
      | exact h1
      | exact absurd h h0
      | (constructor <;> linarith [hpos h0])
      | (exfalso; linarith [h.1, h.2])
      | (exfalso; linarith)

/-- C1: `GetStatusCode` follows the strict thresholds for every percent, in particular
for every percent in `[0, 100]`, in its `uint64` instance and (on non-negative exact
values) in its `float32` instance: NoData iff `percent = 0`, Good iff `percent > 95`,
LowAvailability iff `80 < percent ≤ 95`, Down iff `0 < percent ≤ 80`, with the boundary
values `status(0) = NoData`, `status(80) = Down`, `status(81) = LowAvailability`,
`status(95) = LowAvailability`, `status(96) = Good`, `status(100) = Good`. -/
theorem GetStatusCode_thresholds :
    (∀ percent : ℕ,
      (GetStatusCode percent = StatusNoData ↔ percent = 0) ∧
      (GetStatusCode percent = StatusGood ↔ percent > 95) ∧
      (GetStatusCode percent = StatusLowAvailability ↔ 80 < percent ∧ percent ≤ 95) ∧
      (GetStatusCode percent = StatusDown ↔ 0 < percent ∧ percent ≤ 80)) ∧
    (∀ percent : ℚ, 0 ≤ percent →
      (GetStatusCode percent = StatusNoData ↔ percent = 0) ∧
      (GetStatusCode percent = StatusGood ↔ percent > 95) ∧
      (GetStatusCode percent = StatusLowAvailability ↔ 80 < percent ∧ percent ≤ 95) ∧
      (GetStatusCode percent = StatusDown ↔ 0 < percent ∧ percent ≤ 80)) ∧
    GetStatusCode (0 : ℕ) = StatusNoData ∧ GetStatusCode (80 : ℕ) = StatusDown ∧
    GetStatusCode (81 : ℕ) = StatusLowAvailability ∧
    GetStatusCode (95 : ℕ) = StatusLowAvailability ∧
    GetStatusCode (96 : ℕ) = StatusGood ∧ GetStatusCode (100 : ℕ) = StatusGood ∧
    GetStatusCode (0 : ℚ) = StatusNoData ∧ GetStatusCode (80 : ℚ) = StatusDown ∧
    GetStatusCode (81 : ℚ) = StatusLowAvailability ∧
    GetStatusCode (95 : ℚ) = StatusLowAvailability ∧
    GetStatusCode (96 : ℚ) = StatusGood ∧ GetStatusCode (100 : ℚ) = StatusGood :=
  ⟨GetStatusCode_nat, GetStatusCode_rat, by decide, by decide, by decide, by decide,
    by decide, by decide, by decide, by decide, by decide, by decide, by decide, by decide⟩

/-! ## Machine integers and maps: basic facts -/

theorem wrapInt_of_range (x : Int) (h1 : -(2 ^ 63) ≤ x) (h2 : x < 2 ^ 63) : wrapInt x = x := by
  unfold wrapInt
  omega

theorem wrapU64_natCast (n : Nat) (h : n < 2 ^ 64) : wrapU64 (n : Int) = n := by
  unfold wrapU64
  omega

theorem mapGet_mapSet_self {α : Type} (m : GoMap α) (k : Nat) (v : α) :
    mapGet (mapSet m k v) k = some v := by
  induction m with
  | nil => simp [mapSet, mapGet]
  | cons e t ih =>
    obtain ⟨k', v'⟩ := e
    by_cases h : k' = k
    · simp [mapSet, mapGet, h]
    · simp [mapSet, mapGet, h, ih]

theorem mapGet_mapSet_ne {α : Type} (m : GoMap α) (k k' : Nat) (v : α) (h : k' ≠ k) :
    mapGet (mapSet m k v) k' = mapGet m k' := by
  induction m with
  | nil => simp [mapSet, mapGet, Ne.symm h]
  | cons e t ih =>
    obtain ⟨k0, v0⟩ := e
    by_cases h0 : k0 = k
    · subst h0
      simp [mapSet, mapGet, Ne.symm h]
    · by_cases h1 : k0 = k'
      · subst h1
        simp [mapSet, mapGet, h0]
      · simp [mapSet, mapGet, h0, h1, ih]

theorem mapGet_mapDelete_self {α : Type} (m : GoMap α) (k : Nat) :
    mapGet (mapDelete m k) k = none := by
  induction m with
  | nil => simp [mapDelete, mapGet]
  | cons e t ih =>
    obtain ⟨k0, v0⟩ := e
    by_cases h0 : k0 = k
    · simpa [mapDelete, List.filter, h0] using ih
    · simpa [mapDelete, List.filter, h0, mapGet] using ih

theorem mapGet_mapDelete_ne {α : Type} (m : GoMap α) (k k' : Nat) (h : k' ≠ k) :
    mapGet (mapDelete m k) k' = mapGet m k' := by
  induction m with
  | nil => simp [mapDelete, mapGet]
  | cons e t ih =>
    obtain ⟨k0, v0⟩ := e
    by_cases h0 : k0 = k
    · subst h0
      simpa [mapDelete, List.filter, mapGet, Ne.symm h] using ih
    · by_cases h1 : k0 = k'
      · subst h1
        simp [mapDelete, List.filter, h0, mapGet]
      · simpa [mapDelete, List.filter, h0, mapGet, h1] using ih

theorem mem_mapKeys {α : Type} (m : GoMap α) (k : Nat) :
    k ∈ mapKeys m ↔ mapGet m k ≠ none := by
  unfold mapKeys
  rw [List.mem_dedup]
  induction m with
  | nil => simp [mapGet]
  | cons e t ih =>
    obtain ⟨k0, v0⟩ := e
    by_cases h0 : k0 = k
    · simp [mapGet, h0]
    · have h0' : ¬ k = k0 := fun h => h0 h.symm
      simp [mapGet, h0, h0', ih]

/-! ## Registry: verification -/

theorem registryKeyed_empty : registryKeyed ServiceSentinel.empty := by
  intro k m h
  simp [ServiceSentinel.empty, mapGet] at h

theorem registryKeyed_OnMonitorUpdate (accepts : String → Bool) (w : World) (m : Monitor)
    (h : registryKeyed w.ss) : registryKeyed (OnMonitorUpdate accepts w m).2.ss := by
  intro k x hx
  unfold OnMonitorUpdate at hx
  cases hadd : w.cron.AddFunc accepts m.CronSpec
      (fun id => CronJob.dispatch { m with CronJobID := id }) with
  | none =>
    rw [hadd] at hx
    exact h k x hx
  | some p =>
    obtain ⟨id, cron1⟩ := p
    rw [hadd] at hx
    by_cases hk : k = m.ID
    · subst hk
      cases hold : mapGet w.ss.monitors m.ID <;> rw [hold] at hx <;>
        simp [OnMonitorUpdate.init, mapGet_mapSet_self] at hx <;> rw [← hx]
    · cases hold : mapGet w.ss.monitors m.ID <;> rw [hold] at hx <;>
        simp [OnMonitorUpdate.init, mapGet_mapSet_ne _ _ _ _ hk] at hx <;> exact h k x hx

/-- C7: a report whose monitor id is not a key of the registry, or is 0, leaves the
whole process state unchanged: the sentinel (today counters, ring, cursor, current
counters, last status, SSL cache, monthly buckets, registry), the history table (no row)
and the notifications sent (none). The registry is keyed by monitor id, as every
registration stores it. -/
theorem workerStep_drops_unknown_monitor (parseTime : String → Option Int) (now : Int)
    (w : World) (r : ReportData) (hkey : registryKeyed w.ss)
    (h : mapGet w.ss.monitors r.Data.Id = none ∨ r.Data.Id = 0) :
    workerStep parseTime now w r = some w := by
  unfold workerStep
  cases hm : mapGet w.ss.monitors r.Data.Id with
  | none => rfl
  | some m =>
    rcases h with h | h
    · rw [hm] at h; cases h
    · have := hkey _ _ hm
      simp [this, h]

/-- C7 at a report with id 0 for a registry that holds a monitor with id 0. -/
theorem workerStep_drops_unknown_monitor_witness :
    registryKeyed zeroIdWorld.ss ∧
    (mapGet zeroIdWorld.ss.monitors (sampleReport 0 true 50).Data.Id = none ∨
      (sampleReport 0 true 50).Data.Id = 0) ∧
    workerStep parseNothing 0 zeroIdWorld (sampleReport 0 true 50) = some zeroIdWorld :=
  ⟨registryKeyed_OnMonitorUpdate _ _ _ registryKeyed_empty, Or.inr rfl,
    workerStep_drops_unknown_monitor parseNothing 0 zeroIdWorld (sampleReport 0 true 50)
      (registryKeyed_OnMonitorUpdate _ _ _ registryKeyed_empty) (Or.inr rfl)⟩

/-- C8: when the scheduler rejects the cron spec of `m`, `OnMonitorUpdate m` returns an
error and the process state, the sentinel (registry, monthly buckets, ring, today
counters) and the scheduler's registered jobs included, is exactly as before. -/
theorem OnMonitorUpdate_rejected_unchanged (accepts : String → Bool) (w : World) (m : Monitor)
    (h : accepts m.CronSpec = false) :
    OnMonitorUpdate accepts w m = (some Error.scheduleRejected, w) := by
  simp [OnMonitorUpdate, CronState.AddFunc, h]

/-- C8 at a scheduler that refuses every spec. -/
theorem OnMonitorUpdate_rejected_unchanged_witness :
    rejectAll sampleMonitor.CronSpec = false ∧
    OnMonitorUpdate rejectAll sampleWorld sampleMonitor =
      (some Error.scheduleRejected, sampleWorld) :=
  ⟨rfl, OnMonitorUpdate_rejected_unchanged rejectAll sampleWorld sampleMonitor rfl⟩

/-- C9: for a registered id, `OnMonitorDelete id` followed by a successful
`OnMonitorUpdate m` with `m.ID = id` leaves the per-monitor state of a never-seen
monitor: today up/down/delay are 0, the 30 ring slots are empty, the cursor is 0, the
last status is 0, the SSL cache is empty, `current_up`/`current_down` are 0, every
up/down/delay bucket is 0 and `total_up = total_down = 0`. -/
theorem OnMonitorDelete_then_OnMonitorUpdate_clean (accepts : String → Bool) (w : World)
    (id : Nat) (m : Monitor) (hreg : mapGet w.ss.monitors id ≠ none) (hid : m.ID = id)
    (hacc : accepts m.CronSpec = true) :
    ∃ w1 w2, OnMonitorDelete w id = some w1 ∧ OnMonitorUpdate accepts w1 m = (none, w2) ∧
      mapGet w2.ss.serviceStatusToday id = some { Up := 0, Down := 0, Delay := 0 } ∧
      (∃ ring, mapGet w2.ss.serviceCurrentStatusData id = some ring ∧ ring.length = 30 ∧
        ∀ h ∈ ring, h = MonitorHistory.zero) ∧
      mapGetD w2.ss.serviceCurrentStatusIndex id 0 = 0 ∧
      mapGetD w2.ss.lastStatus id 0 = 0 ∧
      mapGetD w2.ss.sslCertCache id "" = "" ∧
      mapGetD w2.ss.serviceResponseDataStoreCurrentUp id 0 = 0 ∧
      mapGetD w2.ss.serviceResponseDataStoreCurrentDown id 0 = 0 ∧
      (∃ r, mapGet w2.ss.monthlyStatus id = some r ∧
        r.Up.vals = List.replicate 30 0 ∧ r.Down.vals = List.replicate 30 0 ∧
        r.Delay.vals = List.replicate 30 0 ∧ r.TotalUp = 0 ∧ r.TotalDown = 0 ∧
        r.CurrentUp = 0 ∧ r.CurrentDown = 0) := by
  subst hid
  cases hm : mapGet w.ss.monitors m.ID with
  | none => exact absurd hm hreg
  | some old =>
    have hdel : OnMonitorDelete w m.ID =
        some { w with cron := w.cron.Remove old.CronJobID,
                      ss := OnMonitorDelete.purge w.ss m.ID } := by
      simp only [OnMonitorDelete, hm]
    generalize hw1 : ({ w with cron := w.cron.Remove old.CronJobID,
                               ss := OnMonitorDelete.purge w.ss m.ID } : World) = w1 at hdel
    have hnone : mapGet w1.ss.monitors m.ID = none := by
      subst hw1
      simp [OnMonitorDelete.purge, mapGet_mapDelete_self]
    refine ⟨w1, (OnMonitorUpdate accepts w1 m).2, hdel, ?_, ?_⟩
    · simp only [OnMonitorUpdate, CronState.AddFunc, hacc, if_true, hnone]
    · subst hw1
      simp [OnMonitorUpdate, CronState.AddFunc, hacc, OnMonitorUpdate.init,
        OnMonitorDelete.purge, mapGet_mapSet_self, mapGetD, mapGet_mapDelete_self,
        TodayStatsOfMonitor.zero, _CurrentStatusSize, ServiceItemResponse.fresh, Array30.fill]

/-- C9 at the registered sample monitor after it has taken a report. -/
theorem OnMonitorDelete_then_OnMonitorUpdate_clean_witness :
    mapGet usedWorld.ss.monitors 1 ≠ none ∧ sampleMonitor.ID = 1 ∧
    acceptAll sampleMonitor.CronSpec = true ∧
    ∃ w1 w2, OnMonitorDelete usedWorld 1 = some w1 ∧
      OnMonitorUpdate acceptAll w1 sampleMonitor = (none, w2) ∧
      mapGet w2.ss.serviceStatusToday 1 = some { Up := 0, Down := 0, Delay := 0 } ∧
      mapGetD w2.ss.serviceCurrentStatusIndex 1 0 = 0 ∧
      mapGetD w2.ss.serviceResponseDataStoreCurrentUp 1 0 = 0 :=
  ⟨by decide, rfl, rfl,
    (OnMonitorDelete_then_OnMonitorUpdate_clean acceptAll usedWorld 1 sampleMonitor
      (by decide) rfl rfl).imp
      fun _ h => h.imp fun _ h => ⟨h.1, h.2.1, h.2.2.1, h.2.2.2.2.1, h.2.2.2.2.2.2.2.1⟩⟩

/-- For a registered id `OnMonitorDelete` completes, no per-monitor map keeps an entry
for the id, and the entries of every other id are unchanged. -/
theorem OnMonitorDelete_registered_purges (w : World) (id : Nat)
    (hreg : mapGet w.ss.monitors id ≠ none) :
    ∃ w', OnMonitorDelete w id = some w' ∧
      (mapGet w'.ss.monitors id = none ∧ mapGet w'.ss.monthlyStatus id = none ∧
        mapGet w'.ss.serviceStatusToday id = none ∧
        mapGet w'.ss.serviceCurrentStatusData id = none ∧
        mapGet w'.ss.serviceCurrentStatusIndex id = none ∧
        mapGet w'.ss.serviceResponseDataStoreCurrentUp id = none ∧
        mapGet w'.ss.serviceResponseDataStoreCurrentDown id = none ∧
        mapGet w'.ss.lastStatus id = none ∧ mapGet w'.ss.sslCertCache id = none) ∧
      ∀ k, k ≠ id →
        (mapGet w'.ss.monitors k = mapGet w.ss.monitors k ∧
          mapGet w'.ss.monthlyStatus k = mapGet w.ss.monthlyStatus k ∧
          mapGet w'.ss.serviceStatusToday k = mapGet w.ss.serviceStatusToday k ∧
          mapGet w'.ss.serviceCurrentStatusData k = mapGet w.ss.serviceCurrentStatusData k ∧
          mapGet w'.ss.serviceCurrentStatusIndex k = mapGet w.ss.serviceCurrentStatusIndex k ∧
          mapGet w'.ss.serviceResponseDataStoreCurrentUp k =
            mapGet w.ss.serviceResponseDataStoreCurrentUp k ∧
          mapGet w'.ss.serviceResponseDataStoreCurrentDown k =
            mapGet w.ss.serviceResponseDataStoreCurrentDown k ∧
          mapGet w'.ss.lastStatus k = mapGet w.ss.lastStatus k ∧
          mapGet w'.ss.sslCertCache k = mapGet w.ss.sslCertCache k) := by
  cases hm : mapGet w.ss.monitors id with
  | none => exact absurd hm hreg
  | some old =>
    have hdel : OnMonitorDelete w id =
        some { w with cron := w.cron.Remove old.CronJobID,
                      ss := OnMonitorDelete.purge w.ss id } := by
      simp only [OnMonitorDelete, hm]
    refine ⟨_, hdel, ?_, ?_⟩
    · simp [OnMonitorDelete.purge, mapGet_mapDelete_self]
    · intro k hk
      simp [OnMonitorDelete.purge, mapGet_mapDelete_ne _ _ _ hk]

/-- C10, the failing case: `OnMonitorDelete` of an id that is not registered does not
complete; it dereferences the nil entry `ss.monitors[id]` (here id 5 on a sentinel
without monitors). -/
theorem OnMonitorDelete_unregistered_panics : OnMonitorDelete emptyWorld 5 = none := by
  decide

/-- Every `OnMonitorDelete` of an id that is not registered panics. -/
theorem OnMonitorDelete_unregistered (w : World) (id : Nat)
    (h : mapGet w.ss.monitors id = none) : OnMonitorDelete w id = none := by
  simp [OnMonitorDelete, h]

/-! ## Ingestion worker: one accepted report -/

theorem workerStep_ready (parseTime : String → Option Int) (now : Int) (w : World)
    (r : ReportData) (id : Nat) (h : Ready w.ss id) (hr : r.Data.Id = id)
    (hrep : reporterKnown w.servers r) :
    ∃ m t, mapGet w.ss.monitors id = some m ∧ m.ID ≠ 0 ∧
      mapGet w.ss.serviceStatusToday id = some t ∧
      workerStep parseTime now w r =
        some (workerCommit parseTime now w m t (mapGetD w.ss.serviceCurrentStatusData id [])
          (mapGetD w.ss.serviceCurrentStatusIndex id 0) (PB2MonitorHistory r.Data)) := by
  obtain ⟨m, t, hm, hid, ht, hlen, h0, h30⟩ := h
  refine ⟨m, t, hm, hid, ht, ?_⟩
  subst hr
  have hnot : ¬ (mapGetD w.ss.serviceCurrentStatusIndex r.Data.Id 0 < 0 ∨
      ((mapGetD w.ss.serviceCurrentStatusData r.Data.Id []).length : Int) ≤
        mapGetD w.ss.serviceCurrentStatusIndex r.Data.Id 0) := by
    rw [hlen]; omega
  have hrep' : ¬ (r.Data.Successful = false ∧ mapGet w.servers r.Reporter = none) := by
    rintro ⟨h1, h2⟩
    rcases hrep with h | h
    · rw [h1] at h; cases h
    · exact h h2
  simp only [workerStep, hm, hid, if_false, PB2MonitorHistory, ht, hnot, hrep']

theorem workerCommit_today (parseTime : String → Option Int) (now : Int) (w : World)
    (m : Monitor) (t : TodayStatsOfMonitor) (ring : List MonitorHistory) (idx : Int)
    (mh : MonitorHistory) :
    mapGet (workerCommit parseTime now w m t ring idx mh).ss.serviceStatusToday mh.MonitorID =
      some (recordToday t mh) := by
  simp [workerCommit, mapGet_mapSet_self]

theorem workerCommit_ring (parseTime : String → Option Int) (now : Int) (w : World)
    (m : Monitor) (t : TodayStatsOfMonitor) (ring : List MonitorHistory) (idx : Int)
    (mh : MonitorHistory) :
    mapGetD (workerCommit parseTime now w m t ring idx mh).ss.serviceCurrentStatusData
      mh.MonitorID [] = ring.set idx.toNat mh := by
  simp [workerCommit, mapGetD, mapGet_mapSet_self]

theorem workerCommit_cursor (parseTime : String → Option Int) (now : Int) (w : World)
    (m : Monitor) (t : TodayStatsOfMonitor) (ring : List MonitorHistory) (idx : Int)
    (mh : MonitorHistory) (h0 : 0 ≤ idx) (h30 : idx < 30) :
    mapGetD (workerCommit parseTime now w m t ring idx mh).ss.serviceCurrentStatusIndex
      mh.MonitorID 0 = if idx + 1 = 30 then 0 else idx + 1 := by
  have hw : wrapInt (idx + 1) = idx + 1 := wrapInt_of_range _ (by omega) (by omega)
  simp [workerCommit, mapGetD, mapGet_mapSet_self, hw, _CurrentStatusSize]

theorem workerCommit_history (parseTime : String → Option Int) (now : Int) (w : World)
    (m : Monitor) (t : TodayStatsOfMonitor) (ring : List MonitorHistory) (idx : Int)
    (mh : MonitorHistory) (h0 : 0 ≤ idx) (h30 : idx < 30) :
    (workerCommit parseTime now w m t ring idx mh).db.history =
      if idx + 1 = 30 then
        w.db.history ++ [flushRow mh (recordToday t mh) (windowState (ring.set idx.toNat mh))]
      else w.db.history := by
  have hw : wrapInt (idx + 1) = idx + 1 := wrapInt_of_range _ (by omega) (by omega)
  simp only [workerCommit, hw, _CurrentStatusSize]
  by_cases hc : idx + 1 = 30
  · simp [hc, Database.Create]
  · simp [hc, Database.Create]

theorem workerCommit_ready (parseTime : String → Option Int) (now : Int) (w : World)
    (m : Monitor) (t : TodayStatsOfMonitor) (mh : MonitorHistory)
    (hm : mapGet w.ss.monitors mh.MonitorID = some m) (hid : m.ID ≠ 0)
    (hlen : (mapGetD w.ss.serviceCurrentStatusData mh.MonitorID []).length = 30)
    (h0 : 0 ≤ mapGetD w.ss.serviceCurrentStatusIndex mh.MonitorID 0)
    (h30 : mapGetD w.ss.serviceCurrentStatusIndex mh.MonitorID 0 < 30) :
    Ready (workerCommit parseTime now w m t (mapGetD w.ss.serviceCurrentStatusData mh.MonitorID [])
      (mapGetD w.ss.serviceCurrentStatusIndex mh.MonitorID 0) mh).ss mh.MonitorID := by
  refine ⟨m, recordToday t mh, hm, hid, workerCommit_today _ _ _ _ _ _ _ _, ?_, ?_, ?_⟩
  · rw [workerCommit_ring, List.length_set]; exact hlen
  · rw [workerCommit_cursor _ _ _ _ _ _ _ _ h0 h30]; split_ifs <;> omega
  · rw [workerCommit_cursor _ _ _ _ _ _ _ _ h0 h30]; split_ifs <;> omega

/-! ## Ingestion worker: sequences of accepted reports -/

theorem worker_nil (parseTime : String → Option Int) (w : World) :
    worker parseTime w [] = some w := rfl

theorem worker_cons (parseTime : String → Option Int) (w : World) (e : Int × ReportData)
    (rs : List (Int × ReportData)) :
    worker parseTime w (e :: rs) =
      (workerStep parseTime e.1 w e.2).bind (fun w1 => worker parseTime w1 rs) := by
  unfold worker
  simp only [loopM]
  cases workerStep parseTime e.1 w e.2 <;> rfl

theorem worker_append (parseTime : String → Option Int) (a b : List (Int × ReportData)) :
    ∀ w : World, worker parseTime w (a ++ b) =
      (worker parseTime w a).bind (fun w1 => worker parseTime w1 b) := by
  induction a with
  | nil => intro w; rfl
  | cons e a ih =>
    intro w
    rw [List.cons_append, worker_cons, worker_cons]
    cases workerStep parseTime e.1 w e.2 with
    | none => rfl
    | some w1 => exact ih w1

/-- One accepted report for a ready monitor: the step does not panic, the monitor stays
ready and the registry is untouched; today's counters, the cursor and the history table
change as the worker's code prescribes. -/
theorem workerStep_accepted (parseTime : String → Option Int) (now : Int) (w : World)
    (r : ReportData) (id : Nat) (h : Ready w.ss id) (hr : r.Data.Id = id)
    (hrep : reporterKnown w.servers r) :
    ∃ w1 t, workerStep parseTime now w r = some w1 ∧ Ready w1.ss id ∧
      (w1.ss.monitors = w.ss.monitors ∧ w1.servers = w.servers) ∧
      mapGet w.ss.serviceStatusToday id = some t ∧
      mapGet w1.ss.serviceStatusToday id = some (recordToday t (PB2MonitorHistory r.Data)) ∧
      mapGetD w1.ss.serviceCurrentStatusIndex id 0 =
        (if mapGetD w.ss.serviceCurrentStatusIndex id 0 + 1 = 30 then 0
         else mapGetD w.ss.serviceCurrentStatusIndex id 0 + 1) ∧
      ∃ rows, w1.db.history = w.db.history ++ rows ∧
        rows.length = (if mapGetD w.ss.serviceCurrentStatusIndex id 0 + 1 = 30 then 1 else 0) ∧
        ∀ x ∈ rows, x.MonitorID = id := by
  obtain ⟨m, t, hm, hid, ht, hstep⟩ := workerStep_ready parseTime now w r id h hr hrep
  obtain ⟨_, _, _, _, _, hlen, h0, h30⟩ := h
  have hmh : (PB2MonitorHistory r.Data).MonitorID = id := hr
  refine ⟨_, t, hstep, ?_, ⟨rfl, rfl⟩, ht, ?_, ?_, ?_⟩
  · have := workerCommit_ready parseTime now w m t (PB2MonitorHistory r.Data)
      (by rw [hmh]; exact hm) hid (by rw [hmh]; exact hlen) (by rw [hmh]; exact h0)
      (by rw [hmh]; exact h30)
    rw [hmh] at this
    exact this
  · have := workerCommit_today parseTime now w m t (mapGetD w.ss.serviceCurrentStatusData id [])
      (mapGetD w.ss.serviceCurrentStatusIndex id 0) (PB2MonitorHistory r.Data)
    rw [hmh] at this
    exact this
  · have := workerCommit_cursor parseTime now w m t (mapGetD w.ss.serviceCurrentStatusData id [])
      (mapGetD w.ss.serviceCurrentStatusIndex id 0) (PB2MonitorHistory r.Data) h0 h30
    rw [hmh] at this
    exact this
  · rw [workerCommit_history parseTime now w m t _ _ _ h0 h30]
    by_cases hc : mapGetD w.ss.serviceCurrentStatusIndex id 0 + 1 = 30
    · refine ⟨[_], by rw [if_pos hc], by rw [if_pos hc]; rfl, ?_⟩
      intro x hx
      rw [List.mem_singleton] at hx
      rw [hx]
      exact hmh
    · refine ⟨[], by rw [if_neg hc, List.append_nil], by rw [if_neg hc]; rfl, ?_⟩
      intro x hx
      cases hx

theorem worker_ring (parseTime : String → Option Int) (id : Nat)
    (rs : List (Int × ReportData)) :
    ∀ w : World, Ready w.ss id →
      (∀ e ∈ rs, e.2.Data.Id = id ∧ reporterKnown w.servers e.2) →
      ∃ w' rows, worker parseTime w rs = some w' ∧ Ready w'.ss id ∧
        (w'.ss.monitors = w.ss.monitors ∧ w'.servers = w.servers) ∧
        mapGetD w'.ss.serviceCurrentStatusIndex id 0 =
          (mapGetD w.ss.serviceCurrentStatusIndex id 0 + rs.length) % 30 ∧
        w'.db.history = w.db.history ++ rows ∧
        (rows.length : Int) = (mapGetD w.ss.serviceCurrentStatusIndex id 0 + rs.length) / 30 ∧
        ∀ x ∈ rows, x.MonitorID = id := by
  induction rs with
  | nil =>
    intro w hready _
    have hcopy := hready
    obtain ⟨_, _, _, _, _, _, h0, h30⟩ := hcopy
    refine ⟨w, [], rfl, hready, ⟨rfl, rfl⟩, ?_, by simp, ?_, by simp⟩
    · simp only [List.length_nil, Nat.cast_zero]; omega
    · simp only [List.length_nil, Nat.cast_zero]; omega
  | cons e rs ih =>
    intro w hready hall
    obtain ⟨w1, t, hstep, hready1, hmon1, _, _, hcur1, rows1, hhist1, hlen1, hrows1⟩ :=
      workerStep_accepted parseTime e.1 w e.2 id hready (hall e (List.mem_cons_self _ _)).1
        (hall e (List.mem_cons_self _ _)).2
    obtain ⟨w', rows, hrun, hready', hmon', hcur', hhist', hlen', hrows'⟩ :=
      ih w1 hready1 (fun x hx => by
        rw [hmon1.2]; exact hall x (List.mem_cons_of_mem _ hx))
    obtain ⟨_, _, _, _, _, _, h0, h30⟩ := hready
    refine ⟨w', rows1 ++ rows, ?_, hready', ⟨hmon'.1.trans hmon1.1, hmon'.2.trans hmon1.2⟩,
      ?_, ?_, ?_, ?_⟩
    · rw [worker_cons, hstep]; exact hrun
    · rw [hcur', hcur1]
      simp only [List.length_cons, Nat.cast_add, Nat.cast_one]
      split_ifs <;> omega
    · rw [hhist', hhist1, List.append_assoc]
    · rw [List.length_append, Nat.cast_add, hlen', hcur1, hlen1]
      simp only [List.length_cons, Nat.cast_add, Nat.cast_one]
      split_ifs <;> omega
    · intro x hx
      rcases List.mem_append.mp hx with hx | hx
      · exact hrows1 x hx
      · exact hrows' x hx

theorem recordToday_successful (t : TodayStatsOfMonitor) (mh : MonitorHistory)
    (hs : mh.Successful = true) (h0 : 0 ≤ t.Up) (hb : t.Up + 1 < 2 ^ 63) :
    (recordToday t mh).Up = t.Up + 1 ∧ (recordToday t mh).Down = t.Down ∧
    (recordToday t mh).Delay * ((recordToday t mh).Up : ℚ) = t.Delay * (t.Up : ℚ) + mh.Delay := by
  have hw : wrapInt (t.Up + 1) = t.Up + 1 := wrapInt_of_range _ (by omega) (by omega)
  have hne : ((t.Up : ℚ) + 1) ≠ 0 := by
    have : (0 : ℚ) ≤ (t.Up : ℚ) := by exact_mod_cast h0
    linarith
  simp only [recordToday, hs, if_true, hw]
  refine ⟨trivial, trivial, ?_⟩
  push_cast
  field_simp

theorem recordToday_failed (t : TodayStatsOfMonitor) (mh : MonitorHistory)
    (hs : mh.Successful = false) (h0 : 0 ≤ t.Down) (hb : t.Down + 1 < 2 ^ 63) :
    (recordToday t mh).Up = t.Up ∧ (recordToday t mh).Down = t.Down + 1 ∧
    (recordToday t mh).Delay = t.Delay := by
  have hw : wrapInt (t.Down + 1) = t.Down + 1 := wrapInt_of_range _ (by omega) (by omega)
  simp [recordToday, hs, hw]

theorem todayAfter_cons (parseTime : String → Option Int) (w w1 : World)
    (e : Int × ReportData) (rs : List (Int × ReportData)) (id : Nat)
    (h : workerStep parseTime e.1 w e.2 = some w1) :
    todayAfter parseTime w (e :: rs) id = todayAfter parseTime w1 rs id := by
  unfold todayAfter
  rw [worker_cons, h]
  rfl

theorem successes_add_failures (rs : List (Int × ReportData)) :
    successes rs + failures rs = rs.length := by
  induction rs with
  | nil => rfl
  | cons e rs ih =>
    unfold successes failures at *
    cases hs : e.2.Data.Successful <;> simp [List.countP_cons, hs] <;> omega

theorem worker_today (parseTime : String → Option Int) (id : Nat)
    (rs : List (Int × ReportData)) :
    ∀ (w : World) (t : TodayStatsOfMonitor), Ready w.ss id →
      mapGet w.ss.serviceStatusToday id = some t → 0 ≤ t.Up → 0 ≤ t.Down →
      t.Up + rs.length < 2 ^ 63 → t.Down + rs.length < 2 ^ 63 →
      (∀ e ∈ rs, e.2.Data.Id = id ∧ reporterKnown w.servers e.2) →
      ∃ t', todayAfter parseTime w rs id = some t' ∧
        t'.Up = t.Up + successes rs ∧ t'.Down = t.Down + failures rs ∧
        t'.Delay * (t'.Up : ℚ) = t.Delay * (t.Up : ℚ) + delaySum rs := by
  induction rs with
  | nil =>
    intro w t _ ht _ _ _ _ _
    refine ⟨t, ?_, by simp [successes], by simp [failures], by simp [delaySum]⟩
    simp [todayAfter, worker_nil, ht]
  | cons e rs ih =>
    intro w t hready ht hu hd hbu hbd hall
    obtain ⟨w1, t0, hstep, hready1, hmon1, ht0, ht1, _⟩ :=
      workerStep_accepted parseTime e.1 w e.2 id hready (hall e (List.mem_cons_self _ _)).1
        (hall e (List.mem_cons_self _ _)).2
    rw [ht] at ht0
    cases ht0
    simp only [List.length_cons, Nat.cast_add, Nat.cast_one] at hbu hbd
    rw [todayAfter_cons parseTime w w1 e rs id hstep]
    cases hs : e.2.Data.Successful with
    | true =>
      obtain ⟨h1, h2, h3⟩ := recordToday_successful t (PB2MonitorHistory e.2.Data) hs hu (by omega)
      obtain ⟨t', hrun, hup, hdown, hdelay⟩ :=
        ih w1 _ hready1 ht1 (by omega) (by omega) (by omega) (by omega)
          (fun x hx => by rw [hmon1.2]; exact hall x (List.mem_cons_of_mem _ hx))
      refine ⟨t', hrun, ?_, ?_, ?_⟩
      · rw [hup, h1]; simp [successes, List.countP_cons, hs]; omega
      · rw [hdown, h2]; simp [failures, List.countP_cons, hs]
      · rw [hdelay, h3]; simp [delaySum, List.filter_cons, hs, PB2MonitorHistory]; ring
    | false =>
      obtain ⟨h1, h2, h3⟩ := recordToday_failed t (PB2MonitorHistory e.2.Data) hs hd (by omega)
      obtain ⟨t', hrun, hup, hdown, hdelay⟩ :=
        ih w1 _ hready1 ht1 (by omega) (by omega) (by omega) (by omega)
          (fun x hx => by rw [hmon1.2]; exact hall x (List.mem_cons_of_mem _ hx))
      refine ⟨t', hrun, ?_, ?_, ?_⟩
      · rw [hup, h1]; simp [successes, List.countP_cons, hs]
      · rw [hdown, h2]; simp [failures, List.countP_cons, hs]; omega
      · rw [hdelay, h3, h1]; simp [delaySum, List.filter_cons, hs]

theorem sampleWorld_ready : Ready sampleWorld.ss 1 :=
  ⟨{ sampleMonitor with CronJobID := 1 }, TodayStatsOfMonitor.zero, rfl, by decide, rfl, rfl,
    by decide, by decide⟩

theorem sampleReports_accepted :
    ∀ e ∈ sampleReports, e.2.Data.Id = 1 ∧ reporterKnown sampleWorld.servers e.2 := by
  intro e he
  simp only [sampleReports, List.mem_cons, List.mem_singleton, List.not_mem_nil, or_false] at he
  rcases he with h | h | h <;> subst h
  · exact ⟨rfl, Or.inl rfl⟩
  · exact ⟨rfl, Or.inr (by decide)⟩
  · exact ⟨rfl, Or.inl rfl⟩

theorem todayAfter_snoc (parseTime : String → Option Int) (w : World) (id : Nat)
    (pre : List (Int × ReportData)) (e : Int × ReportData) (hready : Ready w.ss id)
    (hpre : ∀ x ∈ pre, x.2.Data.Id = id ∧ reporterKnown w.servers x.2)
    (he : e.2.Data.Id = id ∧ reporterKnown w.servers e.2) :
    todayAfter parseTime w (pre ++ [e]) id =
      (todayAfter parseTime w pre id).map (fun t => recordToday t (PB2MonitorHistory e.2.Data)) := by
  obtain ⟨w', _, hrun, hready', hmon', _⟩ := worker_ring parseTime id pre w hready hpre
  obtain ⟨w1, t, hstep, _, _, ht, ht1, _⟩ :=
    workerStep_accepted parseTime e.1 w' e.2 id hready' he.1 (by rw [hmon'.2]; exact he.2)
  unfold todayAfter
  rw [worker_append, hrun]
  simp only [Option.bind, worker_cons, hstep, worker_nil, ht1, ht, Option.map]

theorem take_succ_of_getElem {α : Type} (l : List α) (k : Nat) (e : α)
    (h : l[k]? = some e) : l.take (k + 1) = l.take k ++ [e] := by
  rw [List.take_succ, h]
  rfl

/-- C3: for a registered monitor whose reports are accepted and whose today counters are
zero, and every sequence `rs` of reports for it (from reporters of the server list,
shorter than `2^63`, the range of `int`), after the `k`-th report `today.up` is the
number of successful reports so far, `today.down` the number of failed ones, and
`today.up + today.down = k`; the report at position `k` increments exactly one of them
by exactly 1 (`up` when successful, `down` when not) and leaves the other unchanged. -/
theorem today_counts_accepted_reports (parseTime : String → Option Int) (w : World) (id : Nat)
    (rs : List (Int × ReportData)) (t0 : TodayStatsOfMonitor) (hready : Ready w.ss id)
    (ht0 : mapGet w.ss.serviceStatusToday id = some t0) (hup : t0.Up = 0) (hdown : t0.Down = 0)
    (hall : ∀ e ∈ rs, e.2.Data.Id = id ∧ reporterKnown w.servers e.2)
    (hlen : rs.length < 2 ^ 63) :
    (∀ k, k ≤ rs.length →
      ∃ t, todayAfter parseTime w (rs.take k) id = some t ∧
        t.Up = successes (rs.take k) ∧ t.Down = failures (rs.take k) ∧ t.Up + t.Down = k) ∧
    (∀ k e, rs[k]? = some e →
      ∃ t t', todayAfter parseTime w (rs.take k) id = some t ∧
        todayAfter parseTime w (rs.take (k + 1)) id = some t' ∧
        (if e.2.Data.Successful = true then t'.Up = t.Up + 1 ∧ t'.Down = t.Down
         else t'.Up = t.Up ∧ t'.Down = t.Down + 1)) := by
  have hpre : ∀ k, k ≤ rs.length →
      ∃ t, todayAfter parseTime w (rs.take k) id = some t ∧
        t.Up = successes (rs.take k) ∧ t.Down = failures (rs.take k) ∧ t.Up + t.Down = k := by
    intro k hk
    have hlk : (rs.take k).length = k := by rw [List.length_take]; omega
    obtain ⟨t, hrun, h1, h2, _⟩ := worker_today parseTime id (rs.take k) w t0 hready ht0
      (by omega) (by omega) (by rw [hlk]; omega) (by rw [hlk]; omega)
      (fun x hx => hall x (List.mem_of_mem_take hx))
    have hsum := successes_add_failures (rs.take k)
    rw [hlk] at hsum
    refine ⟨t, hrun, by omega, by omega, by omega⟩
  refine ⟨hpre, ?_⟩
  intro k e hk
  obtain ⟨hklt, hke⟩ := List.getElem?_eq_some.mp hk
  obtain ⟨t, hrun, h1, h2, h3⟩ := hpre k (by omega)
  have hmem : e ∈ rs := by rw [← hke]; exact List.getElem_mem _
  have hfail := successes_add_failures (rs.take k)
  have hlk : (rs.take k).length = k := by rw [List.length_take]; omega
  refine ⟨t, recordToday t (PB2MonitorHistory e.2.Data), hrun, ?_, ?_⟩
  · rw [take_succ_of_getElem rs k e hk,
      todayAfter_snoc parseTime w id _ e hready (fun x hx => hall x (List.mem_of_mem_take hx))
        (hall e hmem), hrun]
    rfl
  · cases hs : e.2.Data.Successful with
    | true =>
      obtain ⟨a, b, _⟩ := recordToday_successful t (PB2MonitorHistory e.2.Data) hs
        (by omega) (by omega)
      simp [a, b]
    | false =>
      obtain ⟨a, b, _⟩ := recordToday_failed t (PB2MonitorHistory e.2.Data) hs
        (by omega) (by omega)
      simp [a, b]

/-- C3 on three reports for the freshly registered sample monitor. -/
theorem today_counts_accepted_reports_witness :
    Ready sampleWorld.ss 1 ∧
    mapGet sampleWorld.ss.serviceStatusToday 1 = some TodayStatsOfMonitor.zero ∧
    TodayStatsOfMonitor.zero.Up = 0 ∧ TodayStatsOfMonitor.zero.Down = 0 ∧
    (∀ e ∈ sampleReports, e.2.Data.Id = 1 ∧ reporterKnown sampleWorld.servers e.2) ∧
    sampleReports.length < 2 ^ 63 ∧
    ∃ t, todayAfter parseNothing sampleWorld (sampleReports.take 3) 1 = some t ∧
      t.Up = successes (sampleReports.take 3) ∧ t.Down = failures (sampleReports.take 3) ∧
      t.Up + t.Down = (3 : Nat) :=
  ⟨sampleWorld_ready, rfl, rfl, rfl, sampleReports_accepted, by decide,
    (today_counts_accepted_reports parseNothing sampleWorld 1 sampleReports
      TodayStatsOfMonitor.zero sampleWorld_ready rfl rfl rfl sampleReports_accepted
      (by decide)).1 3 (by decide)⟩

/-- C4: over exact rational arithmetic, for a registered monitor whose reports are
accepted, starting from zero today counters, and every sequence `rs` of reports for it
(from reporters of the server list, shorter than `2^63`): after the `k`-th report `today.up` is the number of successful
reports so far and, whenever `today.up > 0`, `today.delay` is the sum of the delays of
the successful reports so far divided by `today.up`; a failed report leaves
`today.delay` unchanged. -/
theorem today_delay_is_mean_of_successes (parseTime : String → Option Int) (w : World)
    (id : Nat) (rs : List (Int × ReportData)) (t0 : TodayStatsOfMonitor)
    (hready : Ready w.ss id) (ht0 : mapGet w.ss.serviceStatusToday id = some t0)
    (hup : t0.Up = 0) (hdown : t0.Down = 0)
    (hall : ∀ e ∈ rs, e.2.Data.Id = id ∧ reporterKnown w.servers e.2)
    (hlen : rs.length < 2 ^ 63) :
    (∀ k, k ≤ rs.length →
      ∃ t, todayAfter parseTime w (rs.take k) id = some t ∧
        t.Up = successes (rs.take k) ∧
        (0 < t.Up → t.Delay = delaySum (rs.take k) / (t.Up : ℚ))) ∧
    (∀ k e, rs[k]? = some e → e.2.Data.Successful = false →
      ∃ t t', todayAfter parseTime w (rs.take k) id = some t ∧
        todayAfter parseTime w (rs.take (k + 1)) id = some t' ∧ t'.Delay = t.Delay) := by
  have hpre : ∀ k, k ≤ rs.length →
      ∃ t, todayAfter parseTime w (rs.take k) id = some t ∧
        t.Up = successes (rs.take k) ∧
        (0 < t.Up → t.Delay = delaySum (rs.take k) / (t.Up : ℚ)) := by
    intro k hk
    have hlk : (rs.take k).length = k := by rw [List.length_take]; omega
    obtain ⟨t, hrun, h1, _, h3⟩ := worker_today parseTime id (rs.take k) w t0 hready ht0
      (by omega) (by omega) (by rw [hlk]; omega) (by rw [hlk]; omega)
      (fun x hx => hall x (List.mem_of_mem_take hx))
    refine ⟨t, hrun, by omega, ?_⟩
    intro hpos
    have hne : (t.Up : ℚ) ≠ 0 := by
      have : (0 : ℚ) < (t.Up : ℚ) := by exact_mod_cast hpos
      exact ne_of_gt this
    rw [hup] at h3
    rw [eq_div_iff hne, h3]
    simp
  refine ⟨hpre, ?_⟩
  intro k e hk hs
  obtain ⟨hklt, hke⟩ := List.getElem?_eq_some.mp hk
  obtain ⟨t, hrun, _⟩ := hpre k (by omega)
  have hmem : e ∈ rs := by rw [← hke]; exact List.getElem_mem _
  refine ⟨t, recordToday t (PB2MonitorHistory e.2.Data), hrun, ?_, ?_⟩
  · rw [take_succ_of_getElem rs k e hk,
      todayAfter_snoc parseTime w id _ e hready (fun x hx => hall x (List.mem_of_mem_take hx))
        (hall e hmem), hrun]
    rfl
  · have hs' : (PB2MonitorHistory e.2.Data).Successful = false := hs
    simp [recordToday, hs']

/-- C4 on three reports for the freshly registered sample monitor: the mean of the
delays 50 and 70. -/
theorem today_delay_is_mean_of_successes_witness :
    Ready sampleWorld.ss 1 ∧
    mapGet sampleWorld.ss.serviceStatusToday 1 = some TodayStatsOfMonitor.zero ∧
    TodayStatsOfMonitor.zero.Up = 0 ∧ TodayStatsOfMonitor.zero.Down = 0 ∧
    (∀ e ∈ sampleReports, e.2.Data.Id = 1 ∧ reporterKnown sampleWorld.servers e.2) ∧
    sampleReports.length < 2 ^ 63 ∧
    ∃ t, todayAfter parseNothing sampleWorld (sampleReports.take 3) 1 = some t ∧
      t.Up = successes (sampleReports.take 3) ∧
      (0 < t.Up → t.Delay = delaySum (sampleReports.take 3) / (t.Up : ℚ)) :=
  ⟨sampleWorld_ready, rfl, rfl, rfl, sampleReports_accepted, by decide,
    (today_delay_is_mean_of_successes parseNothing sampleWorld 1 sampleReports
      TodayStatsOfMonitor.zero sampleWorld_ready rfl rfl rfl sampleReports_accepted
      (by decide)).1 3 (by decide)⟩

/-- C6: for a registered monitor whose reports are accepted and whose cursor is 0, and
every sequence `rs` of reports for it from reporters of the server list: processing the first `n` reports never panics (the
ring write index is in bounds), appends exactly `n / 30` history rows, all for this
monitor, and leaves the cursor at `n mod 30`, so `0 ≤ cursor < 30`; after exactly 30
reports one row has been emitted and the cursor is back at 0. -/
theorem worker_rows_and_cursor (parseTime : String → Option Int) (w : World) (id : Nat)
    (rs : List (Int × ReportData)) (hready : Ready w.ss id)
    (hcur : mapGetD w.ss.serviceCurrentStatusIndex id 0 = 0)
    (hall : ∀ e ∈ rs, e.2.Data.Id = id ∧ reporterKnown w.servers e.2) :
    ∀ n, n ≤ rs.length →
      ∃ w' rows, worker parseTime w (rs.take n) = some w' ∧
        w'.db.history = w.db.history ++ rows ∧ rows.length = n / 30 ∧
        (∀ x ∈ rows, x.MonitorID = id) ∧
        mapGetD w'.ss.serviceCurrentStatusIndex id 0 = ((n % 30 : Nat) : Int) ∧
        0 ≤ mapGetD w'.ss.serviceCurrentStatusIndex id 0 ∧
        mapGetD w'.ss.serviceCurrentStatusIndex id 0 < 30 ∧
        (n = 30 → rows.length = 1 ∧ mapGetD w'.ss.serviceCurrentStatusIndex id 0 = 0) := by
  intro n hn
  have hlk : (rs.take n).length = n := by rw [List.length_take]; omega
  obtain ⟨w', rows, hrun, _, _, hc, hhist, hlen, hrows⟩ :=
    worker_ring parseTime id (rs.take n) w hready (fun x hx => hall x (List.mem_of_mem_take hx))
  rw [hcur, hlk] at hc hlen
  refine ⟨w', rows, hrun, hhist, by omega, hrows, by omega, by omega, by omega, ?_⟩
  intro h30
  constructor <;> omega

theorem thirtyReports_ids :
    ∀ e ∈ thirtyReports, e.2.Data.Id = 1 ∧ reporterKnown sampleWorld.servers e.2 := by
  intro e he
  rw [List.eq_of_mem_replicate he]
  exact ⟨rfl, Or.inl rfl⟩

/-- C6 on thirty reports for the freshly registered sample monitor. -/
theorem worker_rows_and_cursor_witness :
    Ready sampleWorld.ss 1 ∧ mapGetD sampleWorld.ss.serviceCurrentStatusIndex 1 0 = 0 ∧
    (∀ e ∈ thirtyReports, e.2.Data.Id = 1 ∧ reporterKnown sampleWorld.servers e.2) ∧
    ∃ w' rows, worker parseNothing sampleWorld (thirtyReports.take 30) = some w' ∧
      w'.db.history = sampleWorld.db.history ++ rows ∧ rows.length = 30 / 30 ∧
      (∀ x ∈ rows, x.MonitorID = 1) ∧
      mapGetD w'.ss.serviceCurrentStatusIndex 1 0 = ((30 % 30 : Nat) : Int) ∧
      0 ≤ mapGetD w'.ss.serviceCurrentStatusIndex 1 0 ∧
      mapGetD w'.ss.serviceCurrentStatusIndex 1 0 < 30 ∧
      ((30 : Nat) = 30 → rows.length = 1 ∧ mapGetD w'.ss.serviceCurrentStatusIndex 1 0 = 0) :=
  ⟨sampleWorld_ready, rfl, thirtyReports_ids,
    worker_rows_and_cursor parseNothing sampleWorld 1 thirtyReports sampleWorld_ready rfl
      thirtyReports_ids 30 (by decide)⟩

/-! ## Consistency of the per-monitor maps -/

theorem loopM_rel {σ α : Type} (body : σ → α → Option σ) (R : σ → σ → Prop)
    (hrefl : ∀ s, R s s) (htrans : ∀ a b c, R a b → R b c → R a c)
    (hbody : ∀ s x s', body s x = some s' → R s s') (xs : List α) :
    ∀ s s', loopM body xs s = some s' → R s s' := by
  induction xs with
  | nil =>
    intro s s' h
    simp only [loopM] at h
    cases h
    exact hrefl s
  | cons x xs ih =>
    intro s s' h
    simp only [loopM] at h
    cases hb : body s x with
    | none => rw [hb] at h; cases h
    | some s1 =>
      rw [hb] at h
      exact htrans _ _ _ (hbody _ _ _ hb) (ih _ _ h)

theorem scanCurrent_foldl (ring : List MonitorHistory) :
    ∀ acc : Nat × Nat,
      (ring.foldl
        (fun acc h =>
          if h.MonitorID > 0 then
            if h.Successful then (acc.1 + 1, acc.2) else (acc.1, acc.2 + 1)
          else acc) acc).1 +
      (ring.foldl
        (fun acc h =>
          if h.MonitorID > 0 then
            if h.Successful then (acc.1 + 1, acc.2) else (acc.1, acc.2 + 1)
          else acc) acc).2 = acc.1 + acc.2 + populated ring := by
  induction ring with
  | nil => intro acc; simp [populated]
  | cons h ring ih =>
    intro acc
    simp only [List.foldl_cons]
    rw [ih]
    by_cases hp : h.MonitorID > 0
    · have hne : h.MonitorID ≠ 0 := by omega
      cases hs : h.Successful <;> simp [populated, List.countP_cons, hp, hne, hs] <;> omega
    · have he : h.MonitorID = 0 := by omega
      simp [populated, List.countP_cons, he]

theorem scanCurrent_sum (ring : List MonitorHistory) :
    (scanCurrent ring).1 + (scanCurrent ring).2 = populated ring := by
  have := scanCurrent_foldl ring (0, 0)
  simpa [scanCurrent] using this

theorem mapGet_set_none_iff {α : Type} (m : GoMap α) (k k' : Nat) (v : α)
    (hk : mapGet m k ≠ none) : mapGet (mapSet m k v) k' = none ↔ mapGet m k' = none := by
  by_cases h : k' = k
  · subst h
    simp [mapGet_mapSet_self, hk]
  · rw [mapGet_mapSet_ne _ _ _ _ h]

theorem ValuesOnly_refl (ss : ServiceSentinel) : ValuesOnly ss ss :=
  ⟨rfl, rfl, rfl, rfl, rfl, fun _ => Iff.rfl, fun _ => Iff.rfl⟩

theorem ValuesOnly_trans (a b c : ServiceSentinel) (h1 : ValuesOnly a b) (h2 : ValuesOnly b c) :
    ValuesOnly a c := by
  obtain ⟨a1, a2, a3, a4, a5, a6, a7⟩ := h1
  obtain ⟨b1, b2, b3, b4, b5, b6, b7⟩ := h2
  exact ⟨b1.trans a1, b2.trans a2, b3.trans a3, b4.trans a4, b5.trans a5,
    fun k => (b6 k).trans (a6 k), fun k => (b7 k).trans (a7 k)⟩

theorem SentinelInv_of_valuesOnly (ss ss' : ServiceSentinel) (h : ValuesOnly ss ss')
    (hinv : SentinelInv ss) : SentinelInv ss' := by
  obtain ⟨h1, h2, h3, h4, h5, h6, h7⟩ := h
  obtain ⟨hreg, hun⟩ := hinv
  constructor
  · intro id hid
    rw [h1] at hid
    obtain ⟨a, b, c, d, e, f⟩ := hreg id hid
    refine ⟨fun hx => a ((h6 id).mp hx), fun hx => b ((h7 id).mp hx), ?_, ?_, ?_, ?_⟩
    · rw [h2]; exact c
    · rw [h3]; exact d
    · rw [h3]; exact e
    · unfold windowCount at *
      rw [h2, h4, h5]; exact f
  · intro id hid
    rw [h1] at hid
    obtain ⟨a, b, c, d⟩ := hun id hid
    refine ⟨?_, ?_, ?_, (h7 id).mpr d⟩
    · rw [h3]; exact a
    · rw [h4]; exact b
    · rw [h5]; exact c

theorem refreshDay_valuesOnly (ss : ServiceSentinel) (k : Nat) (ss' : ServiceSentinel)
    (h : LoadStats.refreshDay ss k = some ss') : ValuesOnly ss ss' := by
  unfold LoadStats.refreshDay at h
  cases hr : mapGet ss.monthlyStatus k with
  | none => rw [hr] at h; simp at h
  | some r =>
    cases hm : mapGet ss.monitors k with
    | none => rw [hr, hm] at h; simp at h
    | some m =>
      cases hv : mapGet ss.serviceStatusToday k with
      | none => rw [hr, hm, hv] at h; simp at h
      | some v =>
        rw [hr, hm, hv] at h
        simp only [Option.some.injEq] at h
        subst h
        refine ⟨rfl, rfl, rfl, rfl, rfl, fun _ => Iff.rfl, fun k' => ?_⟩
        exact mapGet_set_none_iff _ _ _ _ (by rw [hr]; simp)

theorem copyDown_valuesOnly (ss : ServiceSentinel) (k : Nat) (ss' : ServiceSentinel)
    (h : LoadStats.copyDown ss k = some ss') : ValuesOnly ss ss' := by
  unfold LoadStats.copyDown at h
  cases hr : mapGet ss.monthlyStatus k with
  | none => rw [hr] at h; simp at h
  | some r =>
    rw [hr] at h
    simp only [Option.some.injEq] at h
    subst h
    refine ⟨rfl, rfl, rfl, rfl, rfl, fun _ => Iff.rfl, fun k' => ?_⟩
    exact mapGet_set_none_iff _ _ _ _ (by rw [hr]; simp)

theorem copyUp_valuesOnly (ss : ServiceSentinel) (k : Nat) (ss' : ServiceSentinel)
    (h : LoadStats.copyUp ss k = some ss') : ValuesOnly ss ss' := by
  unfold LoadStats.copyUp at h
  cases hr : mapGet ss.monthlyStatus k with
  | none => rw [hr] at h; simp at h
  | some r =>
    rw [hr] at h
    simp only [Option.some.injEq] at h
    subst h
    refine ⟨rfl, rfl, rfl, rfl, rfl, fun _ => Iff.rfl, fun k' => ?_⟩
    exact mapGet_set_none_iff _ _ _ _ (by rw [hr]; simp)

theorem LoadStats_valuesOnly (ss ss' : ServiceSentinel) (h : LoadStats ss = some ss') :
    ValuesOnly ss ss' := by
  unfold LoadStats at h
  cases h1 : loopM LoadStats.refreshDay (mapKeys ss.monitors) ss with
  | none => rw [h1] at h; simp at h
  | some ss1 =>
    rw [h1] at h
    simp only at h
    cases h2 : loopM LoadStats.copyDown (mapKeys ss1.serviceResponseDataStoreCurrentDown) ss1 with
    | none => rw [h2] at h; simp at h
    | some ss2 =>
      rw [h2] at h
      simp only at h
      have r1 := loopM_rel _ ValuesOnly ValuesOnly_refl ValuesOnly_trans refreshDay_valuesOnly _ _ _ h1
      have r2 := loopM_rel _ ValuesOnly ValuesOnly_refl ValuesOnly_trans copyDown_valuesOnly _ _ _ h2
      have r3 := loopM_rel _ ValuesOnly ValuesOnly_refl ValuesOnly_trans copyUp_valuesOnly _ _ _ h
      exact ValuesOnly_trans _ _ _ (ValuesOnly_trans _ _ _ r1 r2) r3

theorem RollOnly_refl (ss : ServiceSentinel) : RollOnly ss ss :=
  ⟨rfl, rfl, rfl, fun _ => Iff.rfl, fun _ => Iff.rfl, fun _ => Or.inl ⟨rfl, rfl⟩⟩

theorem RollOnly_trans (a b c : ServiceSentinel) (h1 : RollOnly a b) (h2 : RollOnly b c) :
    RollOnly a c := by
  obtain ⟨a1, a2, a3, a4, a5, a6⟩ := h1
  obtain ⟨b1, b2, b3, b4, b5, b6⟩ := h2
  refine ⟨b1.trans a1, b2.trans a2, b3.trans a3, fun k => (b4 k).trans (a4 k),
    fun k => (b5 k).trans (a5 k), fun k => ?_⟩
  rcases b6 k with ⟨hu, hd⟩ | ⟨hu, hd, hm⟩
  · rcases a6 k with ⟨hu', hd'⟩ | ⟨hu', hd', hm'⟩
    · exact Or.inl ⟨hu.trans hu', hd.trans hd'⟩
    · exact Or.inr ⟨hu.trans hu', hd.trans hd', hm'⟩
  · exact Or.inr ⟨hu, hd, fun hx => hm ((a5 k).mpr hx)⟩

theorem RollOnly_of_valuesOnly (ss ss' : ServiceSentinel) (h : ValuesOnly ss ss') :
    RollOnly ss ss' := by
  obtain ⟨h1, h2, h3, h4, h5, h6, h7⟩ := h
  exact ⟨h1, h2, h3, h6, h7, fun k => Or.inl ⟨by rw [h4], by rw [h5]⟩⟩

theorem roll_rollOnly (ss : ServiceSentinel) (k : Nat) (ss' : ServiceSentinel)
    (h : refreshMonthlyServiceStatus.roll ss k = some ss') : RollOnly ss ss' := by
  unfold refreshMonthlyServiceStatus.roll at h
  cases hr : mapGet ss.monthlyStatus k with
  | none => rw [hr] at h; simp at h
  | some r =>
    cases ht : mapGet ss.serviceStatusToday k with
    | none => rw [hr, ht] at h; simp at h
    | some t =>
      rw [hr, ht] at h
      simp only [Option.some.injEq] at h
      subst h
      refine ⟨rfl, rfl, rfl, fun k' => ?_, fun k' => ?_, fun k' => ?_⟩
      · exact mapGet_set_none_iff _ _ _ _ (by rw [ht]; simp)
      · exact mapGet_set_none_iff _ _ _ _ (by rw [hr]; simp)
      · by_cases hk : k' = k
        · subst hk
          exact Or.inr ⟨mapGet_mapSet_self _ _ _, mapGet_mapSet_self _ _ _, by rw [hr]; simp⟩
        · exact Or.inl ⟨mapGet_mapSet_ne _ _ _ _ hk, mapGet_mapSet_ne _ _ _ _ hk⟩

theorem refreshMonthlyServiceStatus_rollOnly (ss ss' : ServiceSentinel)
    (h : refreshMonthlyServiceStatus ss = some ss') : RollOnly ss ss' := by
  unfold refreshMonthlyServiceStatus at h
  cases h1 : LoadStats ss with
  | none => rw [h1] at h; simp at h
  | some ss1 =>
    rw [h1] at h
    simp only at h
    exact RollOnly_trans _ _ _ (RollOnly_of_valuesOnly _ _ (LoadStats_valuesOnly _ _ h1))
      (loopM_rel _ RollOnly RollOnly_refl RollOnly_trans roll_rollOnly _ _ _ h)

theorem SentinelInv_of_rollOnly (ss ss' : ServiceSentinel) (h : RollOnly ss ss')
    (hinv : SentinelInv ss) : SentinelInv ss' := by
  obtain ⟨h1, h2, h3, h4, h5, h6⟩ := h
  obtain ⟨hreg, hun⟩ := hinv
  constructor
  · intro id hid
    rw [h1] at hid
    obtain ⟨a, b, c, d, e, f⟩ := hreg id hid
    refine ⟨fun hx => a ((h4 id).mp hx), fun hx => b ((h5 id).mp hx), ?_, ?_, ?_, ?_⟩
    · rw [h2]; exact c
    · rw [h3]; exact d
    · rw [h3]; exact e
    · rcases h6 id with ⟨hu, hd⟩ | ⟨hu, hd, _⟩
      · unfold windowCount mapGetD at *
        rw [h2, hu, hd]; exact f
      · right
        simp [windowCount, mapGetD, hu, hd]
  · intro id hid
    rw [h1] at hid
    obtain ⟨a, b, c, d⟩ := hun id hid
    refine ⟨?_, ?_, ?_, (h5 id).mpr d⟩
    · rw [h3]; exact a
    · rcases h6 id with ⟨hu, _⟩ | ⟨_, _, hm⟩
      · rw [hu]; exact b
      · exact absurd d hm
    · rcases h6 id with ⟨_, hd⟩ | ⟨_, _, hm⟩
      · rw [hd]; exact c
      · exact absurd d hm

theorem SentinelInv_OnMonitorDelete (w w' : World) (id : Nat)
    (h : OnMonitorDelete w id = some w') (hinv : SentinelInv w.ss) : SentinelInv w'.ss := by
  unfold OnMonitorDelete at h
  cases hm : mapGet w.ss.monitors id with
  | none => rw [hm] at h; simp at h
  | some old =>
    rw [hm] at h
    simp only [Option.some.injEq] at h
    subst h
    obtain ⟨hreg, hun⟩ := hinv
    constructor
    · intro k hk
      by_cases hkid : k = id
      · subst hkid
        simp [OnMonitorDelete.purge, mapGet_mapDelete_self] at hk
      · simp only [OnMonitorDelete.purge, mapGet_mapDelete_ne _ _ _ hkid] at hk
        simpa [OnMonitorDelete.purge, windowCount, mapGetD, mapGet_mapDelete_ne _ _ _ hkid]
          using hreg k hk
    · intro k hk
      by_cases hkid : k = id
      · subst hkid
        simp [OnMonitorDelete.purge, mapGet_mapDelete_self]
      · simp only [OnMonitorDelete.purge, mapGet_mapDelete_ne _ _ _ hkid] at hk
        simpa [OnMonitorDelete.purge, mapGet_mapDelete_ne _ _ _ hkid] using hun k hk

theorem populated_replicate_zero (n : Nat) :
    populated (List.replicate n MonitorHistory.zero) = 0 := by
  simp [populated, List.countP_eq_zero, MonitorHistory.zero]

theorem SentinelInv_OnMonitorUpdate (accepts : String → Bool) (w : World) (m : Monitor)
    (hinv : SentinelInv w.ss) : SentinelInv (OnMonitorUpdate accepts w m).2.ss := by
  unfold OnMonitorUpdate
  cases hadd : w.cron.AddFunc accepts m.CronSpec
      (fun id => CronJob.dispatch { m with CronJobID := id }) with
  | none => exact hinv
  | some p =>
    obtain ⟨jid, cron1⟩ := p
    obtain ⟨hreg, hun⟩ := hinv
    cases hold : mapGet w.ss.monitors m.ID with
    | some old =>
      have holdne : mapGet w.ss.monitors m.ID ≠ none := by rw [hold]; simp
      constructor
      · intro k hk
        have hk' : mapGet w.ss.monitors k ≠ none := by
          by_cases hkid : k = m.ID
          · rw [hkid]; exact holdne
          · simpa [mapGet_mapSet_ne _ _ _ _ hkid] using hk
        simpa [windowCount] using hreg k hk'
      · intro k hk
        have hk' : mapGet w.ss.monitors k = none := by
          by_cases hkid : k = m.ID
          · subst hkid
            simp [mapGet_mapSet_self] at hk
          · simpa [mapGet_mapSet_ne _ _ _ _ hkid] using hk
        simpa using hun k hk'
    | none =>
      obtain ⟨u1, u2, u3, u4⟩ := hun m.ID hold
      constructor
      · intro k hk
        by_cases hkid : k = m.ID
        · subst hkid
          simp [OnMonitorUpdate.init, mapGet_mapSet_self, mapGetD, windowCount, u1, u2, u3,
            _CurrentStatusSize, populated_replicate_zero]
        · have hk' : mapGet w.ss.monitors k ≠ none := by
            simpa [OnMonitorUpdate.init, mapGet_mapSet_ne _ _ _ _ hkid] using hk
          simpa [OnMonitorUpdate.init, windowCount, mapGetD, mapGet_mapSet_ne _ _ _ _ hkid]
            using hreg k hk'
      · intro k hk
        by_cases hkid : k = m.ID
        · subst hkid
          simp [mapGet_mapSet_self] at hk
        · have hk' : mapGet w.ss.monitors k = none := by
            simpa [OnMonitorUpdate.init, mapGet_mapSet_ne _ _ _ _ hkid] using hk
          simpa [OnMonitorUpdate.init, mapGet_mapSet_ne _ _ _ _ hkid] using hun k hk'

theorem workerCommit_window (parseTime : String → Option Int) (now : Int) (w : World)
    (m : Monitor) (t : TodayStatsOfMonitor) (ring : List MonitorHistory) (idx : Int)
    (mh : MonitorHistory) :
    windowCount (workerCommit parseTime now w m t ring idx mh).ss mh.MonitorID =
      populated (mapGetD (workerCommit parseTime now w m t ring idx mh).ss.serviceCurrentStatusData
        mh.MonitorID []) := by
  rw [workerCommit_ring]
  simp only [windowCount, workerCommit, mapGetD, mapGet_mapSet_self, Option.getD_some]
  exact scanCurrent_sum _

theorem workerCommit_other (parseTime : String → Option Int) (now : Int) (w : World)
    (m : Monitor) (t : TodayStatsOfMonitor) (ring : List MonitorHistory) (idx : Int)
    (mh : MonitorHistory) (k : Nat) (hk : k ≠ mh.MonitorID) :
    mapGet (workerCommit parseTime now w m t ring idx mh).ss.serviceStatusToday k =
      mapGet w.ss.serviceStatusToday k ∧
    mapGet (workerCommit parseTime now w m t ring idx mh).ss.serviceCurrentStatusData k =
      mapGet w.ss.serviceCurrentStatusData k ∧
    mapGet (workerCommit parseTime now w m t ring idx mh).ss.serviceCurrentStatusIndex k =
      mapGet w.ss.serviceCurrentStatusIndex k ∧
    mapGet (workerCommit parseTime now w m t ring idx mh).ss.serviceResponseDataStoreCurrentUp k =
      mapGet w.ss.serviceResponseDataStoreCurrentUp k ∧
    mapGet (workerCommit parseTime now w m t ring idx mh).ss.serviceResponseDataStoreCurrentDown k =
      mapGet w.ss.serviceResponseDataStoreCurrentDown k := by
  simp [workerCommit, mapGet_mapSet_ne _ _ _ _ hk]

/-- The worker's iteration either drops the report, leaving the state as it is, or
commits it for the registered monitor `r.Data.Id`. -/
theorem workerStep_cases (parseTime : String → Option Int) (now : Int) (w w' : World)
    (r : ReportData) (h : workerStep parseTime now w r = some w') :
    ((mapGet w.ss.monitors r.Data.Id = none ∨
        ∃ m, mapGet w.ss.monitors r.Data.Id = some m ∧ m.ID = 0) ∧ w' = w) ∨
    ∃ m t, mapGet w.ss.monitors r.Data.Id = some m ∧ m.ID ≠ 0 ∧
      mapGet w.ss.serviceStatusToday r.Data.Id = some t ∧
      0 ≤ mapGetD w.ss.serviceCurrentStatusIndex r.Data.Id 0 ∧
      mapGetD w.ss.serviceCurrentStatusIndex r.Data.Id 0 <
        (mapGetD w.ss.serviceCurrentStatusData r.Data.Id []).length ∧
      w' = workerCommit parseTime now w m t (mapGetD w.ss.serviceCurrentStatusData r.Data.Id [])
        (mapGetD w.ss.serviceCurrentStatusIndex r.Data.Id 0) (PB2MonitorHistory r.Data) := by
  unfold workerStep at h
  cases hm : mapGet w.ss.monitors r.Data.Id with
  | none =>
    rw [hm] at h
    simp only [Option.some.injEq] at h
    exact Or.inl ⟨Or.inl rfl, h.symm⟩
  | some m =>
    rw [hm] at h
    simp only at h
    by_cases hid : m.ID = 0
    · rw [if_pos hid] at h
      simp only [Option.some.injEq] at h
      exact Or.inl ⟨Or.inr ⟨m, rfl, hid⟩, h.symm⟩
    · rw [if_neg hid] at h
      simp only [PB2MonitorHistory] at h
      cases ht : mapGet w.ss.serviceStatusToday r.Data.Id with
      | none => rw [ht] at h; simp at h
      | some t =>
        rw [ht] at h
        simp only at h
        split_ifs at h with hrep hrange
        simp only [Option.some.injEq] at h
        right
        refine ⟨m, t, rfl, hid, rfl, by omega, by omega, ?_⟩
        rw [← h]
        rfl

theorem SentinelInv_workerStep (parseTime : String → Option Int) (now : Int) (w w' : World)
    (r : ReportData) (h : workerStep parseTime now w r = some w') (hinv : SentinelInv w.ss) :
    SentinelInv w'.ss := by
  rcases workerStep_cases parseTime now w w' r h with
    ⟨_, hsame⟩ | ⟨m, t, hm, hid, ht, h0, hlt, hw'⟩
  · rw [hsame]; exact hinv
  · obtain ⟨hreg, hun⟩ := hinv
    have hmne : mapGet w.ss.monitors r.Data.Id ≠ none := by rw [hm]; simp
    obtain ⟨a, b, c, d, e, f⟩ := hreg r.Data.Id hmne
    have hmon : w'.ss.monitors = w.ss.monitors := by rw [hw']; rfl
    have hmonthly : w'.ss.monthlyStatus = w.ss.monthlyStatus := by rw [hw']; rfl
    have hmh : (PB2MonitorHistory r.Data).MonitorID = r.Data.Id := rfl
    constructor
    · intro k hk
      rw [hmon] at hk
      by_cases hkid : k = r.Data.Id
      · subst hkid
        refine ⟨?_, by rw [hmonthly]; exact b, ?_, ?_, ?_, ?_⟩
        · have := workerCommit_today parseTime now w m t
            (mapGetD w.ss.serviceCurrentStatusData r.Data.Id [])
            (mapGetD w.ss.serviceCurrentStatusIndex r.Data.Id 0) (PB2MonitorHistory r.Data)
          rw [hmh] at this
          rw [hw', this]; simp
        · have := workerCommit_ring parseTime now w m t
            (mapGetD w.ss.serviceCurrentStatusData r.Data.Id [])
            (mapGetD w.ss.serviceCurrentStatusIndex r.Data.Id 0) (PB2MonitorHistory r.Data)
          rw [hmh] at this
          rw [hw', this, List.length_set]; exact c
        · have := workerCommit_cursor parseTime now w m t
            (mapGetD w.ss.serviceCurrentStatusData r.Data.Id [])
            (mapGetD w.ss.serviceCurrentStatusIndex r.Data.Id 0) (PB2MonitorHistory r.Data) d e
          rw [hmh] at this
          rw [hw', this]; split_ifs <;> omega
        · have := workerCommit_cursor parseTime now w m t
            (mapGetD w.ss.serviceCurrentStatusData r.Data.Id [])
            (mapGetD w.ss.serviceCurrentStatusIndex r.Data.Id 0) (PB2MonitorHistory r.Data) d e
          rw [hmh] at this
          rw [hw', this]; split_ifs <;> omega
        · left
          have := workerCommit_window parseTime now w m t
            (mapGetD w.ss.serviceCurrentStatusData r.Data.Id [])
            (mapGetD w.ss.serviceCurrentStatusIndex r.Data.Id 0) (PB2MonitorHistory r.Data)
          rw [hmh] at this
          rw [hw']; exact this
      · obtain ⟨o1, o2, o3, o4, o5⟩ := workerCommit_other parseTime now w m t
          (mapGetD w.ss.serviceCurrentStatusData r.Data.Id [])
          (mapGetD w.ss.serviceCurrentStatusIndex r.Data.Id 0) (PB2MonitorHistory r.Data) k hkid
        rw [← hw'] at o1 o2 o3 o4 o5
        have := hreg k hk
        unfold windowCount mapGetD at *
        rw [o1, o2, o3, o4, o5, hmonthly]
        exact this
    · intro k hk
      rw [hmon] at hk
      have hkid : k ≠ r.Data.Id := by
        intro hx; rw [hx] at hk; exact hmne hk
      obtain ⟨o1, o2, o3, o4, o5⟩ := workerCommit_other parseTime now w m t
        (mapGetD w.ss.serviceCurrentStatusData r.Data.Id [])
        (mapGetD w.ss.serviceCurrentStatusIndex r.Data.Id 0) (PB2MonitorHistory r.Data) k hkid
      rw [← hw'] at o1 o2 o3 o4 o5
      rw [o3, o4, o5, hmonthly]
      exact hun k hk

theorem SentinelInv_apply (accepts : String → Bool) (parseTime : String → Option Int)
    (w w' : World) (e : Event) (h : e.apply accepts parseTime w = some w')
    (hinv : SentinelInv w.ss) : SentinelInv w'.ss := by
  cases e with
  | report now r => exact SentinelInv_workerStep parseTime now w w' r h hinv
  | loadStats =>
    simp only [Event.apply, Option.map_eq_some'] at h
    obtain ⟨ss', hls, hw'⟩ := h
    rw [← hw']
    exact SentinelInv_of_valuesOnly _ _ (LoadStats_valuesOnly _ _ hls) hinv
  | dailyRoll =>
    simp only [Event.apply, Option.map_eq_some'] at h
    obtain ⟨ss', hls, hw'⟩ := h
    rw [← hw']
    exact SentinelInv_of_rollOnly _ _ (refreshMonthlyServiceStatus_rollOnly _ _ hls) hinv
  | monitorUpdate m =>
    simp only [Event.apply, Option.some.injEq] at h
    rw [← h]
    exact SentinelInv_OnMonitorUpdate accepts w m hinv
  | monitorDelete id => exact SentinelInv_OnMonitorDelete w w' id h hinv

/-! ## Startup establishes the consistency of the maps -/

theorem loopM_inv {σ α : Type} (body : σ → α → Option σ) (P : σ → Prop)
    (hbody : ∀ s x s', body s x = some s' → P s → P s') (xs : List α) (s s' : σ)
    (h : loopM body xs s = some s') (hs : P s) : P s' :=
  loopM_rel body (fun a b => P a → P b) (fun _ h => h) (fun _ _ _ h1 h2 h => h2 (h1 h))
    hbody xs s s' h hs

theorem register_inv (accepts : String → Bool) (acc : World × List Monitor) (m : Monitor)
    (acc' : World × List Monitor) (h : loadMonitorHistory.register accepts acc m = some acc')
    (hinv : RegisterInv acc) : RegisterInv acc' := by
  unfold loadMonitorHistory.register at h
  simp only at h
  split at h
  · cases h
  · rename_i jid cron1 hadd
    simp only [Option.some.injEq] at h
    subst h
    obtain ⟨h1, h2, h3, h4, h5, h6⟩ := hinv
    refine ⟨h1, h2, h3, h4, ?_, ?_⟩
    · intro id hid
      simp only at hid ⊢
      by_cases hk : id = (if m.NotificationTag = "" then
          { m with NotificationTag := "default" } else m).ID
      · rw [hk]
        simp [mapGet_mapSet_self, mapGetD, _CurrentStatusSize]
      · rw [mapGet_mapSet_ne _ _ _ _ hk] at hid
        simp only [mapGetD, mapGet_mapSet_ne _ _ _ _ hk]
        exact h5 id hid
    · intro id
      simp only
      by_cases hk : id = (if m.NotificationTag = "" then
          { m with NotificationTag := "default" } else m).ID
      · rw [hk]
        constructor
        · intro _
          exact ⟨_, List.mem_append_right _ (List.mem_singleton_self _), rfl⟩
        · intro _
          rw [mapGet_mapSet_self]
          simp
      · rw [mapGet_mapSet_ne _ _ _ _ hk, h6 id]
        constructor
        · rintro ⟨x, hx, hxid⟩
          exact ⟨x, List.mem_append_left _ hx, hxid⟩
        · rintro ⟨x, hx, hxid⟩
          rcases List.mem_append.mp hx with hx | hx
          · exact ⟨x, hx, hxid⟩
          · rw [List.mem_singleton] at hx
            subst hx
            exact absurd hxid.symm hk

theorem initMonthly_loop (L : List Monitor) :
    ∀ ss ss' : ServiceSentinel, loopM loadMonitorHistory.initMonthly L ss = some ss' →
      ss'.monitors = ss.monitors ∧ ss'.serviceStatusToday = ss.serviceStatusToday ∧
      ss'.serviceCurrentStatusData = ss.serviceCurrentStatusData ∧
      ss'.serviceCurrentStatusIndex = ss.serviceCurrentStatusIndex ∧
      ss'.serviceResponseDataStoreCurrentUp = ss.serviceResponseDataStoreCurrentUp ∧
      ss'.serviceResponseDataStoreCurrentDown = ss.serviceResponseDataStoreCurrentDown ∧
      ∀ k, mapGet ss'.monthlyStatus k ≠ none ↔
        (mapGet ss.monthlyStatus k ≠ none ∨ ∃ m ∈ L, m.ID = k) := by
  induction L with
  | nil =>
    intro ss ss' h
    simp only [loopM, Option.some.injEq] at h
    subst h
    simp
  | cons m L ih =>
    intro ss ss' h
    simp only [loopM, loadMonitorHistory.initMonthly] at h
    obtain ⟨a, b, c, d, e, f, g⟩ := ih _ _ h
    refine ⟨a, b, c, d, e, f, fun k => ?_⟩
    rw [g k]
    simp only
    by_cases hk : k = m.ID
    · subst hk
      simp [mapGet_mapSet_self]
    · rw [mapGet_mapSet_ne _ _ _ _ hk]
      have hk' : ¬ m.ID = k := fun hx => hk hx.symm
      simp [hk']

theorem addRow_valuesOnly (today : Int) (ss : ServiceSentinel) (mh : MonitorHistory)
    (ss' : ServiceSentinel) (h : loadMonitorHistory.addRow today ss mh = some ss') :
    ValuesOnly ss ss' := by
  unfold loadMonitorHistory.addRow at h
  cases hr : mapGet ss.monthlyStatus mh.MonitorID with
  | none => rw [hr] at h; simp at h
  | some r =>
    rw [hr] at h
    simp only at h
    split_ifs at h
    all_goals
      simp only [Option.some.injEq] at h
      subst h
      refine ⟨rfl, rfl, rfl, rfl, rfl, fun _ => Iff.rfl, fun k' => ?_⟩
      exact mapGet_set_none_iff _ _ _ _ (by rw [hr]; simp)

theorem countRow_valuesOnly (acc : ServiceSentinel × GoMap ℚ) (mh : MonitorHistory)
    (acc' : ServiceSentinel × GoMap ℚ) (h : NewServiceSentinel.countRow acc mh = some acc') :
    ValuesOnly acc.1 acc'.1 := by
  unfold NewServiceSentinel.countRow at h
  cases ht : mapGet acc.1.serviceStatusToday mh.MonitorID with
  | none => rw [ht] at h; simp at h
  | some t =>
    cases hr : mapGet acc.1.monthlyStatus mh.MonitorID with
    | none => rw [ht, hr] at h; simp at h
    | some r =>
      rw [ht, hr] at h
      simp only at h
      split_ifs at h
      all_goals
        simp only [Option.some.injEq] at h
        subst h
        refine ⟨rfl, rfl, rfl, rfl, rfl, fun k' => ?_, fun k' => ?_⟩
        · exact mapGet_set_none_iff _ _ _ _ (by rw [ht]; simp)
        · exact mapGet_set_none_iff _ _ _ _ (by rw [hr]; simp)

theorem meanDelay_valuesOnly (totalDelay : GoMap ℚ) (ss : ServiceSentinel) (id : Nat)
    (ss' : ServiceSentinel) (h : NewServiceSentinel.meanDelay totalDelay ss id = some ss') :
    ValuesOnly ss ss' := by
  unfold NewServiceSentinel.meanDelay at h
  cases ht : mapGet ss.serviceStatusToday id with
  | none => rw [ht] at h; simp at h
  | some t =>
    rw [ht] at h
    simp only [Option.some.injEq] at h
    subst h
    refine ⟨rfl, rfl, rfl, rfl, rfl, fun k' => ?_, fun _ => Iff.rfl⟩
    exact mapGet_set_none_iff _ _ _ _ (by rw [ht]; simp)

theorem SentinelInv_loadMonitorHistory (accepts : String → Bool) (today : Int) (w w' : World)
    (hw : w.ss = ServiceSentinel.empty) (h : loadMonitorHistory accepts today w = some w') :
    SentinelInv w'.ss := by
  unfold loadMonitorHistory at h
  cases h1 : loopM (loadMonitorHistory.register accepts) w.db.monitors (w, []) with
  | none => rw [h1] at h; simp at h
  | some acc =>
    obtain ⟨w1, monitors⟩ := acc
    rw [h1] at h
    simp only at h
    cases h2 : loopM loadMonitorHistory.initMonthly monitors w1.ss with
    | none => rw [h2] at h; simp at h
    | some ss2 =>
      rw [h2] at h
      simp only at h
      split at h
      · cases h
      · rename_i ss3 h3
        simp only [Option.some.injEq] at h
        subst h
        have hreg0 : RegisterInv (w, []) := by
          refine ⟨by rw [hw]; rfl, by rw [hw]; rfl, by rw [hw]; rfl, by rw [hw]; rfl, ?_, ?_⟩
          · intro id hid
            rw [hw] at hid
            simp [ServiceSentinel.empty, mapGet] at hid
          · intro id
            rw [hw]
            simp [ServiceSentinel.empty, mapGet]
        obtain ⟨r1, r2, r3, r4, r5, r6⟩ :=
          loopM_inv _ RegisterInv (register_inv accepts) _ _ _ h1 hreg0
        simp only at r1 r2 r3 r4 r5 r6
        obtain ⟨a, b, c, d, e, f, g⟩ := initMonthly_loop monitors _ _ h2
        have hinv2 : SentinelInv ss2 := by
          constructor
          · intro id hid
            rw [a] at hid
            obtain ⟨x1, x2⟩ := r5 id hid
            refine ⟨by rw [b]; exact x1, ?_, by rw [c]; exact x2, ?_, ?_, ?_⟩
            · rw [g id]; right; exact (r6 id).mp hid
            · rw [d, r1]; simp [mapGetD, mapGet]
            · rw [d, r1]; simp [mapGetD, mapGet]
            · right
              simp [windowCount, e, f, r2, r3, mapGetD, mapGet]
          · intro id hid
            rw [a] at hid
            refine ⟨by rw [d, r1]; rfl, by rw [e, r2]; rfl, by rw [f, r3]; rfl, ?_⟩
            by_contra hne
            rcases (g id).mp hne with hx | hx
            · rw [r4] at hx; exact hx rfl
            · exact ((r6 id).mpr hx) hid
        exact SentinelInv_of_valuesOnly _ _
          (loopM_rel _ ValuesOnly ValuesOnly_refl ValuesOnly_trans (addRow_valuesOnly today)
            _ _ _ h3) hinv2

theorem SentinelInv_NewServiceSentinel (accepts : String → Bool) (today : Int)
    (cron : CronState) (db : Database) (w : World)
    (servers : GoMap String)
    (h : NewServiceSentinel accepts today cron db servers = some w) : SentinelInv w.ss := by
  unfold NewServiceSentinel at h
  split at h
  · cases h
  · rename_i w1 h1
    try simp only at h
    split at h
    · cases h
    · rename_i ss2 totalDelay h2
      try simp only at h
      split at h
      · cases h
      · rename_i ss3 h3
        try simp only at h
        split at h
        · cases h
        · simp only [Option.some.injEq] at h
          subst h
          have i1 := SentinelInv_loadMonitorHistory accepts today _ w1 rfl h1
          have v2 : ValuesOnly w1.ss ss2 :=
            loopM_rel NewServiceSentinel.countRow (fun a b => ValuesOnly a.1 b.1)
              (fun _ => ValuesOnly_refl _) (fun _ _ _ => ValuesOnly_trans _ _ _)
              countRow_valuesOnly _ _ _ h2
          have v3 := loopM_rel _ ValuesOnly ValuesOnly_refl ValuesOnly_trans
            (meanDelay_valuesOnly totalDelay) _ _ _ h3
          exact SentinelInv_of_valuesOnly _ _ v3 (SentinelInv_of_valuesOnly _ _ v2 i1)

/-- Every state reached from startup keeps the per-monitor maps consistent with the
registry. -/
theorem SentinelInv_of_reachable (accepts : String → Bool) (parseTime : String → Option Int)
    (w : World) (h : Reachable accepts parseTime w) : SentinelInv w.ss := by
  induction h with
  | startup today cron db servers w h =>
    exact SentinelInv_NewServiceSentinel accepts today cron db w servers h
  | step w w' e _ happ ih => exact SentinelInv_apply accepts parseTime w w' e happ ih

/-! ## Short-window counters -/

theorem startedWorld_reachable : Reachable acceptAll parseNothing startedWorld :=
  Reachable.startup 0 sampleCron sampleDb sampleServers startedWorld (by rfl)

/-- Every monitor of a reachable state whose reports are accepted is ready to take a
report: the worker does not panic on it. -/
theorem ready_of_reachable (accepts : String → Bool) (parseTime : String → Option Int)
    (w : World) (h : Reachable accepts parseTime w) (id : Nat) (m : Monitor)
    (hm : mapGet w.ss.monitors id = some m) (hid : m.ID ≠ 0) : Ready w.ss id := by
  obtain ⟨a, _, c, d, e, _⟩ := (SentinelInv_of_reachable accepts parseTime w h).1 id
    (by rw [hm]; simp)
  cases ht : mapGet w.ss.serviceStatusToday id with
  | none => exact absurd ht a
  | some t => exact ⟨m, t, hm, hid, ht, c, d, e⟩

/-! ## Monthly totals -/

/-- C2, the failing case: startup on a store with one monitor and one successful row
created since local midnight, followed by `LoadStats` or by the Daily Roll, leaves
`total_up = 2` while the buckets `up[0..29]` sum to 1 (`total_down = 0` and the `down`
buckets sum to 0): the startup loop adds today's rows to `TotalUp` without a bucket, and
`LoadStats` adds today's counter again. -/
theorem startup_counts_today_rows_twice :
    ((NewServiceSentinel acceptAll 0 sampleCron todayRowDb sampleServers).bind
      (fun w => runEvents acceptAll parseNothing w [Event.loadStats])).map
      (fun w => (mapGet w.ss.monthlyStatus 1).map
        (fun r => (r.TotalUp, r.Up.vals.sum, r.TotalDown, r.Down.vals.sum))) =
      some (some (2, 1, 0, 0)) ∧
    ((NewServiceSentinel acceptAll 0 sampleCron todayRowDb sampleServers).bind
      (fun w => runEvents acceptAll parseNothing w [Event.dailyRoll])).map
      (fun w => (mapGet w.ss.monthlyStatus 1).map
        (fun r => (r.TotalUp, r.Up.vals.sum, r.TotalDown, r.Down.vals.sum))) =
      some (some (2, 1, 0, 0)) := by
  constructor <;> decide

/-! ## The registry is keyed by monitor id -/

theorem registryKeyed_mapDelete (ss : ServiceSentinel) (id : Nat) (h : registryKeyed ss) :
    registryKeyed (OnMonitorDelete.purge ss id) := by
  intro k m hk
  by_cases hkid : k = id
  · subst hkid
    simp [OnMonitorDelete.purge, mapGet_mapDelete_self] at hk
  · simp only [OnMonitorDelete.purge, mapGet_mapDelete_ne _ _ _ hkid] at hk
    exact h k m hk

theorem registryKeyed_register (accepts : String → Bool) (acc : World × List Monitor)
    (m : Monitor) (acc' : World × List Monitor)
    (h : loadMonitorHistory.register accepts acc m = some acc')
    (hk : registryKeyed acc.1.ss) : registryKeyed acc'.1.ss := by
  unfold loadMonitorHistory.register at h
  simp only at h
  split at h
  · cases h
  · simp only [Option.some.injEq] at h
    subst h
    intro k x hx
    simp only at hx
    by_cases hkid : k = (if m.NotificationTag = "" then
        { m with NotificationTag := "default" } else m).ID
    · rw [hkid, mapGet_mapSet_self] at hx
      simp only [Option.some.injEq] at hx
      rw [← hx, hkid]
    · rw [mapGet_mapSet_ne _ _ _ _ hkid] at hx
      exact hk k x hx

theorem registryKeyed_NewServiceSentinel (accepts : String → Bool) (today : Int)
    (cron : CronState) (db : Database) (servers : GoMap String) (w : World)
    (h : NewServiceSentinel accepts today cron db servers = some w) : registryKeyed w.ss := by
  unfold NewServiceSentinel at h
  split at h
  · cases h
  · rename_i w1 h1
    try simp only at h
    split at h
    · cases h
    · rename_i ss2 totalDelay h2
      try simp only at h
      split at h
      · cases h
      · rename_i ss3 h3
        try simp only at h
        split at h
        · cases h
        · simp only [Option.some.injEq] at h
          subst h
          have v2 : ValuesOnly w1.ss ss2 :=
            loopM_rel NewServiceSentinel.countRow (fun a b => ValuesOnly a.1 b.1)
              (fun _ => ValuesOnly_refl _) (fun _ _ _ => ValuesOnly_trans _ _ _)
              countRow_valuesOnly _ _ _ h2
          have v3 := loopM_rel _ ValuesOnly ValuesOnly_refl ValuesOnly_trans
            (meanDelay_valuesOnly totalDelay) _ _ _ h3
          have hw1 : registryKeyed w1.ss := by
            unfold loadMonitorHistory at h1
            split at h1
            · cases h1
            · rename_i w0 monitors g1
              try simp only at h1
              split at h1
              · cases h1
              · rename_i s2 g2
                try simp only at h1
                split at h1
                · cases h1
                · rename_i s3 g3
                  simp only [Option.some.injEq] at h1
                  subst h1
                  have k0 := loopM_inv _ (fun a : World × List Monitor => registryKeyed a.1.ss)
                    (registryKeyed_register accepts) _ _ _ g1 registryKeyed_empty
                  have e2 := (initMonthly_loop monitors _ _ g2).1
                  have e3 := (loopM_rel _ ValuesOnly ValuesOnly_refl ValuesOnly_trans
                    (addRow_valuesOnly today) _ _ _ g3).1
                  intro k x hx
                  simp only at hx
                  rw [e3, e2] at hx
                  exact k0 k x hx
          intro k x hx
          simp only at hx
          rw [v3.1, v2.1] at hx
          exact hw1 k x hx

theorem registryKeyed_apply (accepts : String → Bool) (parseTime : String → Option Int)
    (w w' : World) (e : Event) (h : e.apply accepts parseTime w = some w')
    (hk : registryKeyed w.ss) : registryKeyed w'.ss := by
  cases e with
  | report now r =>
    rcases workerStep_cases parseTime now w w' r h with ⟨_, hsame⟩ | ⟨m, t, _, _, _, _, _, hw'⟩
    · rw [hsame]; exact hk
    · rw [hw']; exact hk
  | loadStats =>
    simp only [Event.apply, Option.map_eq_some'] at h
    obtain ⟨ss', hls, hw'⟩ := h
    rw [← hw']
    intro k x hx
    simp only at hx
    rw [(LoadStats_valuesOnly _ _ hls).1] at hx
    exact hk k x hx
  | dailyRoll =>
    simp only [Event.apply, Option.map_eq_some'] at h
    obtain ⟨ss', hls, hw'⟩ := h
    rw [← hw']
    intro k x hx
    simp only at hx
    rw [(refreshMonthlyServiceStatus_rollOnly _ _ hls).1] at hx
    exact hk k x hx
  | monitorUpdate m =>
    simp only [Event.apply, Option.some.injEq] at h
    rw [← h]
    exact registryKeyed_OnMonitorUpdate accepts w m hk
  | monitorDelete id =>
    simp only [Event.apply, OnMonitorDelete] at h
    split at h
    · cases h
    · simp only [Option.some.injEq] at h
      rw [← h]
      exact registryKeyed_mapDelete w.ss id hk

/-- Every state reached from startup has its registry keyed by monitor id. -/
theorem registryKeyed_of_reachable (accepts : String → Bool)
    (parseTime : String → Option Int) (w : World) (h : Reachable accepts parseTime w) :
    registryKeyed w.ss := by
  induction h with
  | startup today cron db servers w h =>
    exact registryKeyed_NewServiceSentinel accepts today cron db servers w h
  | step w w' e _ happ ih => exact registryKeyed_apply accepts parseTime w w' e happ ih

/-! ## States with zero today counters -/

/-- A monitor registered for the first time is ready to take reports, with zero today
counters and the cursor at 0. -/
theorem OnMonitorUpdate_fresh_ready (accepts : String → Bool) (w : World) (m : Monitor)
    (hinv : SentinelInv w.ss) (hnew : mapGet w.ss.monitors m.ID = none)
    (hacc : accepts m.CronSpec = true) (hid : m.ID ≠ 0) :
    Ready (OnMonitorUpdate accepts w m).2.ss m.ID ∧
    mapGet (OnMonitorUpdate accepts w m).2.ss.serviceStatusToday m.ID =
      some TodayStatsOfMonitor.zero ∧
    mapGetD (OnMonitorUpdate accepts w m).2.ss.serviceCurrentStatusIndex m.ID 0 = 0 := by
  obtain ⟨u1, _, _, _⟩ := hinv.2 m.ID hnew
  have hcur : mapGetD (OnMonitorUpdate accepts w m).2.ss.serviceCurrentStatusIndex m.ID 0 = 0 := by
    simp [OnMonitorUpdate, CronState.AddFunc, hacc, hnew, OnMonitorUpdate.init, mapGetD, u1]
  have htoday : mapGet (OnMonitorUpdate accepts w m).2.ss.serviceStatusToday m.ID =
      some TodayStatsOfMonitor.zero := by
    simp [OnMonitorUpdate, CronState.AddFunc, hacc, hnew, OnMonitorUpdate.init,
      mapGet_mapSet_self]
  refine ⟨⟨{ m with CronJobID := w.cron.nextID + 1 }, TodayStatsOfMonitor.zero, ?_, hid, htoday,
    ?_, ?_, ?_⟩, htoday, hcur⟩
  · simp [OnMonitorUpdate, CronState.AddFunc, hacc, hnew, OnMonitorUpdate.init,
      mapGet_mapSet_self]
  · simp [OnMonitorUpdate, CronState.AddFunc, hacc, hnew, OnMonitorUpdate.init, mapGetD,
      mapGet_mapSet_self, _CurrentStatusSize]
  · rw [hcur]
  · rw [hcur]; decide

theorem roll_today (ss : ServiceSentinel) (k : Nat) (ss' : ServiceSentinel)
    (h : refreshMonthlyServiceStatus.roll ss k = some ss') :
    mapGet ss'.serviceStatusToday k = some { Up := 0, Down := 0, Delay := 0 } ∧
    ∀ k', mapGet ss'.serviceStatusToday k' = mapGet ss.serviceStatusToday k' ∨
      mapGet ss'.serviceStatusToday k' = some { Up := 0, Down := 0, Delay := 0 } := by
  unfold refreshMonthlyServiceStatus.roll at h
  cases hr : mapGet ss.monthlyStatus k with
  | none => rw [hr] at h; simp at h
  | some r =>
    cases ht : mapGet ss.serviceStatusToday k with
    | none => rw [hr, ht] at h; simp at h
    | some t =>
      rw [hr, ht] at h
      simp only [Option.some.injEq] at h
      subst h
      refine ⟨mapGet_mapSet_self _ _ _, fun k' => ?_⟩
      by_cases hk : k' = k
      · subst hk
        exact Or.inr (mapGet_mapSet_self _ _ _)
      · exact Or.inl (mapGet_mapSet_ne _ _ _ _ hk)

theorem roll_loop_today (L : List Nat) :
    ∀ ss ss' : ServiceSentinel, loopM refreshMonthlyServiceStatus.roll L ss = some ss' →
      ∀ k ∈ L, mapGet ss'.serviceStatusToday k = some { Up := 0, Down := 0, Delay := 0 } := by
  induction L with
  | nil => intro _ _ _ k hk; cases hk
  | cons x L ih =>
    intro ss ss' h k hk
    simp only [loopM] at h
    cases hb : refreshMonthlyServiceStatus.roll ss x with
    | none => rw [hb] at h; cases h
    | some s1 =>
      rw [hb] at h
      simp only at h
      by_cases hkL : k ∈ L
      · exact ih s1 ss' h k hkL
      · have hkx : k = x := by
          rcases List.mem_cons.mp hk with hx | hx
          · exact hx
          · exact absurd hx hkL
        subst hkx
        have hrel := loopM_rel refreshMonthlyServiceStatus.roll
          (fun a b : ServiceSentinel => ∀ k', mapGet b.serviceStatusToday k' =
            mapGet a.serviceStatusToday k' ∨
            mapGet b.serviceStatusToday k' = some { Up := 0, Down := 0, Delay := 0 })
          (fun _ _ => Or.inl rfl)
          (fun a b c h1 h2 k' => by
            rcases h2 k' with h | h
            · rcases h1 k' with h' | h'
              · exact Or.inl (h.trans h')
              · exact Or.inr (h.trans h')
            · exact Or.inr h)
          (fun s x s' hs => (roll_today s x s' hs).2) L s1 ss' h
        rcases hrel k with h' | h'
        · exact h'.trans (roll_today ss k s1 hb).1
        · exact h'

/-- The Daily Roll leaves every registered monitor with zero today counters. -/
theorem refreshMonthlyServiceStatus_resets_today (ss ss' : ServiceSentinel)
    (hinv : SentinelInv ss) (h : refreshMonthlyServiceStatus ss = some ss') :
    ∀ id, mapGet ss.monitors id ≠ none →
      mapGet ss'.serviceStatusToday id = some { Up := 0, Down := 0, Delay := 0 } := by
  intro id hid
  unfold refreshMonthlyServiceStatus at h
  cases h1 : LoadStats ss with
  | none => rw [h1] at h; simp at h
  | some ss1 =>
    rw [h1] at h
    simp only at h
    have hv := LoadStats_valuesOnly _ _ h1
    have hmonthly : mapGet ss1.monthlyStatus id ≠ none := by
      intro hx
      exact (hinv.1 id hid).2.1 ((hv.2.2.2.2.2.2 id).mp hx)
    exact roll_loop_today _ _ _ h id ((mem_mapKeys _ _).mpr hmonthly)

/-! ## Monthly totals and day buckets -/

theorem wrapU64_cast (x : Int) : ((wrapU64 x : Nat) : Int) = x % 2 ^ 64 := by
  unfold wrapU64
  omega

theorem wrapInt_emod (x : Int) : wrapInt x % 2 ^ 64 = x % 2 ^ 64 := by
  unfold wrapInt
  omega

theorem sum_set_int (l : List Int) :
    ∀ (i : Nat) (x : Int), i < l.length → (l.set i x).sum = l.sum - l.getD i 0 + x := by
  induction l with
  | nil => intro i x h; simp at h
  | cons a l ih =>
    intro i x h
    cases i with
    | zero => simp; ring
    | succ i =>
      simp only [List.set_cons_succ, List.sum_cons, List.getD_cons_succ]
      rw [ih i x (by simpa using h)]
      ring

theorem getD_set_eq {α : Type} (l : List α) (i j : Nat) (x d : α) :
    (l.set i x).getD j d = if i = j ∧ i < l.length then x else l.getD j d := by
  simp only [List.getD_eq_getElem?_getD, List.getElem?_set]
  by_cases hij : i = j
  · subst hij
    by_cases hi : i < l.length
    · simp [hi]
    · simp [hi, List.getElem?_eq_none (Nat.le_of_not_lt hi)]
  · simp [hij]

theorem shift_fold {α : Type} (l : List α) (d : α) :
    ∀ n, n + 1 ≤ l.length →
      ((List.range n).foldl (fun l i => l.set i (l.getD (i + 1) d)) l).length = l.length ∧
      ∀ j, ((List.range n).foldl (fun l i => l.set i (l.getD (i + 1) d)) l).getD j d =
        if j < n then l.getD (j + 1) d else l.getD j d := by
  intro n
  induction n with
  | zero => intro _; simp
  | succ n ih =>
    intro hn
    obtain ⟨hlen, hget⟩ := ih (by omega)
    rw [List.range_succ, List.foldl_append]
    simp only [List.foldl_cons, List.foldl_nil]
    refine ⟨by rw [List.length_set]; exact hlen, fun j => ?_⟩
    rw [getD_set_eq, hget, hget, hlen]
    by_cases hj : n = j
    · subst hj
      have h1 : n < l.length := by omega
      simp [h1]
    · by_cases hlt : j < n
      · have : j < n + 1 := by omega
        simp [hj, hlt, this]
      · have : ¬ j < n + 1 := by omega
        simp [hj, hlt, this]

theorem shift_list {α : Type} (l : List α) (d : α) (h : l.length = 30) :
    (List.range 29).foldl (fun l i => l.set i (l.getD (i + 1) d)) l =
      l.tail ++ [l.getD 29 d] := by
  obtain ⟨hlen, hget⟩ := shift_fold l d 29 (by omega)
  apply List.ext_getElem
  · rw [hlen]; simp [h]
  · intro j h1 h2
    have hj := hget j
    rw [List.getD_eq_getElem?_getD, List.getElem?_eq_getElem h1] at hj
    simp only [Option.getD_some] at hj
    rw [hj]
    by_cases hlt : j < 29
    · have h3 : j < l.tail.length := by simp [h]; omega
      rw [if_pos hlt, List.getElem_append_left h3, List.getElem_tail,
        List.getD_eq_getElem?_getD, List.getElem?_eq_getElem (by omega)]
      rfl
    · have hj29 : j = 29 := by
        rw [hlen, h] at h1; omega
      subst hj29
      rw [if_neg hlt, List.getElem_append_right (by simp [h])]
      simp [h]

theorem shift_up_vals (L : List Nat) :
    ∀ v : ServiceItemResponse,
      (L.foldl refreshMonthlyServiceStatus.shift v).Up.vals =
        L.foldl (fun l i => l.set i (l.getD (i + 1) 0)) v.Up.vals := by
  induction L with
  | nil => intro v; rfl
  | cons i L ih =>
    intro v
    simp only [List.foldl_cons]
    rw [ih]
    congr 1
    unfold refreshMonthlyServiceStatus.shift
    split_ifs <;> rfl

theorem shift_down_vals (L : List Nat) :
    ∀ v : ServiceItemResponse,
      (L.foldl refreshMonthlyServiceStatus.shift v).Down.vals =
        L.foldl (fun l i => l.set i (l.getD (i + 1) 0)) v.Down.vals := by
  induction L with
  | nil => intro v; rfl
  | cons i L ih =>
    intro v
    simp only [List.foldl_cons]
    rw [ih]
    congr 1
    unfold refreshMonthlyServiceStatus.shift
    split_ifs <;> rfl

theorem shift_delay_vals (L : List Nat) :
    ∀ v : ServiceItemResponse,
      (L.foldl refreshMonthlyServiceStatus.shift v).Delay.vals =
        L.foldl (fun l i => l.set i (l.getD (i + 1) 0)) v.Delay.vals := by
  induction L with
  | nil => intro v; rfl
  | cons i L ih =>
    intro v
    simp only [List.foldl_cons]
    rw [ih]
    congr 1
    unfold refreshMonthlyServiceStatus.shift
    split_ifs <;> rfl

theorem shift_totals_later (L : List Nat) (h0 : 0 ∉ L) :
    ∀ v : ServiceItemResponse,
      (L.foldl refreshMonthlyServiceStatus.shift v).TotalUp = v.TotalUp ∧
      (L.foldl refreshMonthlyServiceStatus.shift v).TotalDown = v.TotalDown ∧
      (L.foldl refreshMonthlyServiceStatus.shift v).CurrentUp = v.CurrentUp ∧
      (L.foldl refreshMonthlyServiceStatus.shift v).CurrentDown = v.CurrentDown ∧
      (L.foldl refreshMonthlyServiceStatus.shift v).Monitor = v.Monitor := by
  induction L with
  | nil => intro v; exact ⟨rfl, rfl, rfl, rfl, rfl⟩
  | cons i L ih =>
    intro v
    have hi : i ≠ 0 := fun h => h0 (by rw [h]; exact List.mem_cons_self _ _)
    have hL : 0 ∉ L := fun h => h0 (List.mem_cons_of_mem _ h)
    simp only [List.foldl_cons]
    obtain ⟨a, b, c, d, e⟩ := ih hL (refreshMonthlyServiceStatus.shift v i)
    rw [a, b, c, d, e]
    simp [refreshMonthlyServiceStatus.shift, hi]

/-- The inner loop of the Daily Roll: the buckets move one day to the left, the last
bucket is kept, bucket 0 leaves the totals, the rest of the response is unchanged. -/
theorem shift_loop (v : ServiceItemResponse) :
    ((List.range (30 - 1)).foldl refreshMonthlyServiceStatus.shift v).Up.vals =
      v.Up.vals.tail ++ [v.Up.vals.getD 29 0] ∧
    ((List.range (30 - 1)).foldl refreshMonthlyServiceStatus.shift v).Down.vals =
      v.Down.vals.tail ++ [v.Down.vals.getD 29 0] ∧
    ((List.range (30 - 1)).foldl refreshMonthlyServiceStatus.shift v).Delay.vals =
      v.Delay.vals.tail ++ [v.Delay.vals.getD 29 0] ∧
    ((List.range (30 - 1)).foldl refreshMonthlyServiceStatus.shift v).TotalUp =
      wrapU64 ((v.TotalUp : Int) - wrapU64 (v.Up.vals.getD 0 0)) ∧
    ((List.range (30 - 1)).foldl refreshMonthlyServiceStatus.shift v).TotalDown =
      wrapU64 ((v.TotalDown : Int) - wrapU64 (v.Down.vals.getD 0 0)) ∧
    ((List.range (30 - 1)).foldl refreshMonthlyServiceStatus.shift v).CurrentUp = v.CurrentUp ∧
    ((List.range (30 - 1)).foldl refreshMonthlyServiceStatus.shift v).CurrentDown =
      v.CurrentDown ∧
    ((List.range (30 - 1)).foldl refreshMonthlyServiceStatus.shift v).Monitor = v.Monitor := by
  refine ⟨?_, ?_, ?_, ?_⟩
  · rw [shift_up_vals]; exact shift_list _ _ v.Up.size
  · rw [shift_down_vals]; exact shift_list _ _ v.Down.size
  · rw [shift_delay_vals]; exact shift_list _ _ v.Delay.size
  · have hr : List.range (30 - 1) = 0 :: (List.range 28).map Nat.succ := by
      rw [show 30 - 1 = 28 + 1 from rfl, List.range_succ_eq_map]
    have h0 : 0 ∉ (List.range 28).map Nat.succ := by simp
    rw [hr, List.foldl_cons]
    obtain ⟨a, b, c, d, e⟩ := shift_totals_later _ h0 (refreshMonthlyServiceStatus.shift v 0)
    rw [a, b, c, d, e]
    simp [refreshMonthlyServiceStatus.shift, Array30.get]

theorem sum_tail_int (l : List Int) (h : l ≠ []) : l.tail.sum = l.sum - l.getD 0 0 := by
  cases l with
  | nil => exact absurd rfl h
  | cons a l => simp

theorem TotalsMatch_fresh (m : Monitor) : TotalsMatch (ServiceItemResponse.fresh m) := by
  simp [TotalsMatch, ServiceItemResponse.fresh, Array30.fill]

theorem TotalsMatch_refreshDay (r : ServiceItemResponse) (m : Monitor) (v : TodayStatsOfMonitor)
    (h : TotalsMatch r) :
    TotalsMatch
      { r with
        Monitor := m,
        TotalUp := wrapU64 ((wrapU64 ((r.TotalUp : Int) - wrapU64 (r.Up.get 29 0)) : Int) +
          wrapU64 v.Up),
        TotalDown := wrapU64 ((wrapU64 ((r.TotalDown : Int) - wrapU64 (r.Down.get 29 0)) : Int) +
          wrapU64 v.Down),
        Up := r.Up.set 29 v.Up, Down := r.Down.set 29 v.Down,
        Delay := r.Delay.set 29 v.Delay } := by
  obtain ⟨hu, hd⟩ := h
  have su := sum_set_int r.Up.vals 29 v.Up (by rw [r.Up.size]; decide)
  have sd := sum_set_int r.Down.vals 29 v.Down (by rw [r.Down.size]; decide)
  constructor
  · simp only [wrapU64_cast, Array30.set, Array30.get, su, hu]
    omega
  · simp only [wrapU64_cast, Array30.set, Array30.get, sd, hd]
    omega

theorem mapGet_mapSet_all {α : Type} (P : α → Prop) (m : GoMap α) (k : Nat) (v : α)
    (hm : ∀ k' r, mapGet m k' = some r → P r) (hv : P v) :
    ∀ k' r, mapGet (mapSet m k v) k' = some r → P r := by
  intro k' r h
  by_cases hk : k' = k
  · rw [hk, mapGet_mapSet_self] at h
    cases h
    exact hv
  · rw [mapGet_mapSet_ne _ _ _ _ hk] at h
    exact hm k' r h

theorem TotalsInv_refreshDay (ss : ServiceSentinel) (k : Nat) (ss' : ServiceSentinel)
    (h : LoadStats.refreshDay ss k = some ss') (hinv : TotalsInv ss) : TotalsInv ss' := by
  unfold LoadStats.refreshDay at h
  cases hr : mapGet ss.monthlyStatus k with
  | none => rw [hr] at h; simp at h
  | some r =>
    cases hm : mapGet ss.monitors k with
    | none => rw [hr, hm] at h; simp at h
    | some m =>
      cases hv : mapGet ss.serviceStatusToday k with
      | none => rw [hr, hm, hv] at h; simp at h
      | some v =>
        rw [hr, hm, hv] at h
        simp only [Option.some.injEq] at h
        subst h
        exact mapGet_mapSet_all TotalsMatch _ _ _ hinv
          (TotalsMatch_refreshDay r m v (hinv k r hr))

theorem TotalsInv_copyDown (ss : ServiceSentinel) (k : Nat) (ss' : ServiceSentinel)
    (h : LoadStats.copyDown ss k = some ss') (hinv : TotalsInv ss) : TotalsInv ss' := by
  unfold LoadStats.copyDown at h
  cases hr : mapGet ss.monthlyStatus k with
  | none => rw [hr] at h; simp at h
  | some r =>
    rw [hr] at h
    simp only [Option.some.injEq] at h
    subst h
    exact mapGet_mapSet_all TotalsMatch _ _ _ hinv (hinv k r hr)

theorem TotalsInv_copyUp (ss : ServiceSentinel) (k : Nat) (ss' : ServiceSentinel)
    (h : LoadStats.copyUp ss k = some ss') (hinv : TotalsInv ss) : TotalsInv ss' := by
  unfold LoadStats.copyUp at h
  cases hr : mapGet ss.monthlyStatus k with
  | none => rw [hr] at h; simp at h
  | some r =>
    rw [hr] at h
    simp only [Option.some.injEq] at h
    subst h
    exact mapGet_mapSet_all TotalsMatch _ _ _ hinv (hinv k r hr)

/-- `LoadStats` keeps the totals in agreement with the buckets. -/
theorem TotalsInv_LoadStats (ss ss' : ServiceSentinel) (h : LoadStats ss = some ss')
    (hinv : TotalsInv ss) : TotalsInv ss' := by
  unfold LoadStats at h
  cases h1 : loopM LoadStats.refreshDay (mapKeys ss.monitors) ss with
  | none => rw [h1] at h; simp at h
  | some ss1 =>
    rw [h1] at h
    simp only at h
    cases h2 : loopM LoadStats.copyDown (mapKeys ss1.serviceResponseDataStoreCurrentDown) ss1 with
    | none => rw [h2] at h; simp at h
    | some ss2 =>
      rw [h2] at h
      simp only at h
      exact loopM_inv _ TotalsInv TotalsInv_copyUp _ _ _ h
        (loopM_inv _ TotalsInv TotalsInv_copyDown _ _ _ h2
          (loopM_inv _ TotalsInv TotalsInv_refreshDay _ _ _ h1 hinv))

theorem TotalsMatch_roll (v : ServiceItemResponse) (h : TotalsMatch v) :
    TotalsMatch
      { (List.range (30 - 1)).foldl refreshMonthlyServiceStatus.shift v with
        Up := ((List.range (30 - 1)).foldl refreshMonthlyServiceStatus.shift v).Up.set 29 0,
        Down := ((List.range (30 - 1)).foldl refreshMonthlyServiceStatus.shift v).Down.set 29 0,
        Delay :=
          ((List.range (30 - 1)).foldl refreshMonthlyServiceStatus.shift v).Delay.set 29 0 } := by
  obtain ⟨hu, hd⟩ := h
  obtain ⟨su, sd, _, tu, td, _⟩ := shift_loop v
  have hune : v.Up.vals ≠ [] := by
    intro hx; have := v.Up.size; rw [hx] at this; simp at this
  have hdne : v.Down.vals ≠ [] := by
    intro hx; have := v.Down.size; rw [hx] at this; simp at this
  have lu : (v.Up.vals.tail ++ [v.Up.vals.getD 29 0]).length = 30 := by
    simp [v.Up.size]
  have ld : (v.Down.vals.tail ++ [v.Down.vals.getD 29 0]).length = 30 := by
    simp [v.Down.size]
  have gu : (v.Up.vals.tail ++ [v.Up.vals.getD 29 0]).getD 29 0 = v.Up.vals.getD 29 0 := by
    rw [List.getD_eq_getElem?_getD, List.getElem?_append_right (by simp [v.Up.size])]
    simp [v.Up.size]
  have gd : (v.Down.vals.tail ++ [v.Down.vals.getD 29 0]).getD 29 0 =
      v.Down.vals.getD 29 0 := by
    rw [List.getD_eq_getElem?_getD, List.getElem?_append_right (by simp [v.Down.size])]
    simp [v.Down.size]
  constructor
  · simp only [Array30.set, tu, wrapU64_cast, su]
    rw [sum_set_int _ 29 0 (by rw [lu]; decide), gu, List.sum_append, sum_tail_int _ hune, hu]
    simp only [List.sum_cons, List.sum_nil]
    omega
  · simp only [Array30.set, td, wrapU64_cast, sd]
    rw [sum_set_int _ 29 0 (by rw [ld]; decide), gd, List.sum_append, sum_tail_int _ hdne, hd]
    simp only [List.sum_cons, List.sum_nil]
    omega

theorem TotalsInv_roll (ss : ServiceSentinel) (k : Nat) (ss' : ServiceSentinel)
    (h : refreshMonthlyServiceStatus.roll ss k = some ss') (hinv : TotalsInv ss) :
    TotalsInv ss' := by
  unfold refreshMonthlyServiceStatus.roll at h
  cases hr : mapGet ss.monthlyStatus k with
  | none => rw [hr] at h; simp at h
  | some r =>
    cases ht : mapGet ss.serviceStatusToday k with
    | none => rw [hr, ht] at h; simp at h
    | some t =>
      rw [hr, ht] at h
      simp only [Option.some.injEq] at h
      subst h
      exact mapGet_mapSet_all TotalsMatch _ _ _ hinv (TotalsMatch_roll r (hinv k r hr))

/-- The Daily Roll keeps the totals in agreement with the buckets. -/
theorem TotalsInv_refreshMonthlyServiceStatus (ss ss' : ServiceSentinel)
    (h : refreshMonthlyServiceStatus ss = some ss') (hinv : TotalsInv ss) : TotalsInv ss' := by
  unfold refreshMonthlyServiceStatus at h
  cases h1 : LoadStats ss with
  | none => rw [h1] at h; simp at h
  | some ss1 =>
    rw [h1] at h
    simp only at h
    exact loopM_inv _ TotalsInv TotalsInv_roll _ _ _ h (TotalsInv_LoadStats _ _ h1 hinv)

theorem TotalsInv_apply (accepts : String → Bool) (parseTime : String → Option Int)
    (w : World) (e : Event) (w' : World) (h : e.apply accepts parseTime w = some w')
    (hinv : TotalsInv w.ss) : TotalsInv w'.ss := by
  cases e with
  | report now r =>
    rcases workerStep_cases parseTime now w w' r h with ⟨_, hsame⟩ | ⟨m, t, _, _, _, _, _, hw'⟩
    · rw [hsame]; exact hinv
    · rw [hw']; exact hinv
  | loadStats =>
    simp only [Event.apply, Option.map_eq_some'] at h
    obtain ⟨ss', hls, hw'⟩ := h
    rw [← hw']
    exact TotalsInv_LoadStats _ _ hls hinv
  | dailyRoll =>
    simp only [Event.apply, Option.map_eq_some'] at h
    obtain ⟨ss', hls, hw'⟩ := h
    rw [← hw']
    exact TotalsInv_refreshMonthlyServiceStatus _ _ hls hinv
  | monitorUpdate m =>
    simp only [Event.apply, Option.some.injEq] at h
    rw [← h]
    unfold OnMonitorUpdate
    split
    · exact hinv
    · split
      · exact hinv
      · exact mapGet_mapSet_all TotalsMatch _ _ _ hinv (TotalsMatch_fresh _)
  | monitorDelete id =>
    simp only [Event.apply, OnMonitorDelete] at h
    split at h
    · cases h
    · simp only [Option.some.injEq] at h
      rw [← h]
      intro k r hk
      by_cases hkid : k = id
      · subst hkid
        simp [OnMonitorDelete.purge, mapGet_mapDelete_self] at hk
      · simp only [OnMonitorDelete.purge, mapGet_mapDelete_ne _ _ _ hkid] at hk
        exact hinv k r hk

theorem TotalsInv_addRow (today : Int) (ss : ServiceSentinel) (mh : MonitorHistory)
    (ss' : ServiceSentinel) (h : loadMonitorHistory.addRow today ss mh = some ss')
    (hinv : TotalsInv ss) : TotalsInv ss' := by
  unfold loadMonitorHistory.addRow at h
  cases hr : mapGet ss.monthlyStatus mh.MonitorID with
  | none => rw [hr] at h; simp at h
  | some r =>
    rw [hr] at h
    simp only at h
    split_ifs at h with hrange hs
    · simp only [Option.some.injEq] at h
      subst h
      refine mapGet_mapSet_all TotalsMatch _ _ _ hinv ?_
      obtain ⟨hu, hd⟩ := hinv _ r hr
      have hi : (28 - ((today - mh.CreatedAt).tdiv hourNs).tdiv 24).toNat < r.Up.vals.length := by
        rw [r.Up.size]; omega
      refine ⟨?_, hd⟩
      simp only [Array30.set, Array30.get, wrapU64_cast]
      rw [sum_set_int _ _ _ hi, hu]
      have := wrapInt_emod (r.Up.vals.getD
        (28 - ((today - mh.CreatedAt).tdiv hourNs).tdiv 24).toNat 0 + 1)
      omega
    · simp only [Option.some.injEq] at h
      subst h
      refine mapGet_mapSet_all TotalsMatch _ _ _ hinv ?_
      obtain ⟨hu, hd⟩ := hinv _ r hr
      have hi : (28 - ((today - mh.CreatedAt).tdiv hourNs).tdiv 24).toNat <
          r.Down.vals.length := by
        rw [r.Down.size]; omega
      refine ⟨hu, ?_⟩
      simp only [Array30.set, Array30.get, wrapU64_cast]
      rw [sum_set_int _ _ _ hi, hd]
      have := wrapInt_emod (r.Down.vals.getD
        (28 - ((today - mh.CreatedAt).tdiv hourNs).tdiv 24).toNat 0 + 1)
      omega

theorem TotalsInv_initMonthly (ss : ServiceSentinel) (m : Monitor) (ss' : ServiceSentinel)
    (h : loadMonitorHistory.initMonthly ss m = some ss') (hinv : TotalsInv ss) :
    TotalsInv ss' := by
  simp only [loadMonitorHistory.initMonthly, Option.some.injEq] at h
  subst h
  exact mapGet_mapSet_all TotalsMatch _ _ _ hinv (TotalsMatch_fresh _)

theorem TotalsInv_register (accepts : String → Bool) (acc : World × List Monitor) (m : Monitor)
    (acc' : World × List Monitor) (h : loadMonitorHistory.register accepts acc m = some acc')
    (hinv : TotalsInv acc.1.ss) : TotalsInv acc'.1.ss := by
  unfold loadMonitorHistory.register at h
  simp only at h
  split at h
  · cases h
  · simp only [Option.some.injEq] at h
    subst h
    exact hinv

/-- After a startup on a store without rows created since local midnight, and after any
operations that follow, every monthly response has `total_up` and `total_down` equal to
the sums of its `up` and `down` buckets (in `uint64` arithmetic). -/
theorem totals_match_without_today_rows (accepts : String → Bool)
    (parseTime : String → Option Int) (today : Int) (cron : CronState) (db : Database)
    (servers : GoMap String) (w0 : World)
    (hstart : NewServiceSentinel accepts today cron db servers = some w0)
    (hrows : ∀ h ∈ db.history, h.CreatedAt < today) (es : List Event) (w : World)
    (hrun : runEvents accepts parseTime w0 es = some w) : TotalsInv w.ss := by
  have h0 : TotalsInv w0.ss := by
    have hfilter : db.history.filter (fun h => decide (today ≤ h.CreatedAt)) = [] := by
      rw [List.filter_eq_nil_iff]
      intro h hh
      have := hrows h hh
      simp only [decide_eq_true_eq, not_le]
      exact this
    unfold NewServiceSentinel at hstart
    rw [hfilter] at hstart
    split at hstart
    · cases hstart
    · rename_i w1 h1
      simp only [loopM, mapKeys, List.map_nil, List.dedup_nil] at hstart
      split at hstart
      · cases hstart
      · simp only [Option.some.injEq] at hstart
        subst hstart
        unfold loadMonitorHistory at h1
        split at h1
        · cases h1
        · rename_i wr monitors g1
          try simp only at h1
          split at h1
          · cases h1
          · rename_i s2 g2
            try simp only at h1
            split at h1
            · cases h1
            · rename_i s3 g3
              simp only [Option.some.injEq] at h1
              subst h1
              have k1 := loopM_inv _ (fun a : World × List Monitor => TotalsInv a.1.ss)
                (TotalsInv_register accepts) _ _ _ g1
                (by intro k r hk; simp [ServiceSentinel.empty, mapGet] at hk)
              have k2 := loopM_inv _ TotalsInv TotalsInv_initMonthly _ _ _ g2 k1
              exact loopM_inv _ TotalsInv (TotalsInv_addRow today) _ _ _ g3 k2
  unfold runEvents at hrun
  exact loopM_inv (fun w e => e.apply accepts parseTime w) (fun w => TotalsInv w.ss)
    (fun s x s' hs hp => TotalsInv_apply accepts parseTime s x s' hs hp) es w0 w hrun h0

/-! ## SSL step -/

/-- The SSL step alone, on a cache that is empty for the monitor and data that does not
start with the SSL-error mark and has at least two `|`-separated parts: the returned
cache holds the data and the message is not "SSL certificate changed", whatever the time
parser returns and whatever the time is. -/
theorem sslStep_primes_cache (parseTime : String → Option Int) (now : Int)
    (cache : GoMap String) (id : Nat) (data : String)
    (hempty : mapGetD cache id "" = "") (hmark : startsWith data sslErrorMark = false)
    (hparts : (splitOn data '|').length > 1) :
    (sslStep parseTime now cache id data).1 = mapSet cache id data ∧
    mapGetD (sslStep parseTime now cache id data).1 id "" = data ∧
    ∀ msg, (sslStep parseTime now cache id data).2 = some msg → isChangedMessage msg = false := by
  have hget : mapGetD (mapSet cache id data) id "" = data := by
    simp [mapGetD, mapGet_mapSet_self]
  have hstep : sslStep parseTime now cache id data =
      (mapSet cache id data,
        if (parseTime ((splitOn data '|').getD 1 "")).getD zeroTime < addDays now 7 then
          some (SslMessage.expiring ((parseTime ((splitOn data '|').getD 1 "")).getD zeroTime))
        else none) := by
    unfold sslStep
    simp only [hmark, Bool.false_eq_true, if_false, hparts, if_true, hempty, hget, ne_eq,
      not_true_eq_false, false_and]
  rw [hstep]
  refine ⟨rfl, hget, ?_⟩
  intro msg hmsg
  simp only at hmsg
  split_ifs at hmsg
  cases hmsg
  rfl

/-- The SSL step alone at the first observation `"CN=example|not-a-date"` of monitor 1. -/
theorem sslStep_primes_cache_witness :
    mapGetD ([] : GoMap String) 1 "" = "" ∧
    startsWith "CN=example|not-a-date" sslErrorMark = false ∧
    (splitOn "CN=example|not-a-date" '|').length > 1 ∧
    (sslStep parseNothing sampleNow [] 1 "CN=example|not-a-date").1 =
      mapSet [] 1 "CN=example|not-a-date" :=
  ⟨rfl, by decide, by decide,
    (sslStep_primes_cache parseNothing sampleNow [] 1 "CN=example|not-a-date" rfl (by decide)
      (by decide)).1⟩

/-- A report whose second part does not parse leaves the zero time as the new expiry, so
the SSL step produces a message at every time later than seven days before year 1. -/
theorem sslStep_unparsable_message (parseTime : String → Option Int) (now : Int)
    (cache : GoMap String) (id : Nat) (data : String)
    (hmark : startsWith data sslErrorMark = false)
    (hparts : (splitOn data '|').length > 1)
    (hparse : parseTime ((splitOn data '|').getD 1 "") = none)
    (hnow : zeroTime < addDays now 7) :
    (sslStep parseTime now cache id data).2 ≠ none := by
  unfold sslStep
  simp only [hmark, Bool.false_eq_true, if_false, hparts, if_true, hparse, Option.getD_none,
    hnow]
  split_ifs <;> simp

/-- C17, the failing case: the report `"CN=example|not-a-date"` for the freshly registered
sample monitor (notify on), whose second part does not parse, makes the SSL step produce
the message "will expire within seven days" with the zero time as expiry, and one SSL
notification is dispatched. -/
theorem unparsable_expiry_raises_ssl_alert :
    sslStep parseNothing sampleNow sampleWorld.ss.sslCertCache 1 "CN=example|not-a-date" =
      ([(1, "CN=example|not-a-date")], some (SslMessage.expiring zeroTime)) ∧
    (workerStep parseNothing sampleNow sampleWorld malformedReport).map (fun w => w.sent) =
      some [Notification.ssl "default" "web" (SslMessage.expiring zeroTime)] := by
  constructor <;> decide

/-! ## Day index of the startup load -/

/-- A history row created strictly after `today - 29 days` and before `today` gets a day
index between 0 and 28. -/
theorem dayIndex_inside (today created : Int) (h1 : addDays today (-29) < created)
    (h2 : created < today) :
    0 ≤ 28 - Int.tdiv (Int.tdiv (today - created) hourNs) 24 ∧
    28 - Int.tdiv (Int.tdiv (today - created) hourNs) 24 ≤ 28 := by
  unfold addDays hourNs at *
  have hpos : 0 ≤ today - created := by omega
  rw [Int.tdiv_eq_ediv hpos (by decide)]
  have hq : 0 ≤ (today - created) / 3600000000000 := Int.ediv_nonneg hpos (by decide)
  rw [Int.tdiv_eq_ediv hq (by decide)]
  omega

/-- A history row created exactly at `today - 29 days`, which the startup query selects,
gets the day index -1. -/
theorem dayIndex_boundary (today : Int) :
    28 - Int.tdiv (Int.tdiv (today - addDays today (-29)) hourNs) 24 = -1 := by
  unfold addDays hourNs
  have h : today - (today + -29 * (24 * 3600000000000)) = 2505600000000000 := by ring
  rw [h]
  decide

/-- C19, the failing case: with local midnight `today = 29 days` and a store holding the
sample monitor and one history row for it created at instant 0, that is exactly at
`today - 29 days`, the startup query selects the row, its day index is -1 and the write
to the bucket panics; the same row created one nanosecond later is loaded into
bucket 0. -/
theorem startup_boundary_row_out_of_bounds :
    (decide (addDays (addDays 0 29) (-29) ≤ (0 : Int)) && decide ((0 : Int) < addDays 0 29)) = true ∧
    28 - Int.tdiv (Int.tdiv (addDays 0 29 - 0) hourNs) 24 = -1 ∧
    NewServiceSentinel acceptAll (addDays 0 29) sampleCron boundaryRowDb sampleServers = none ∧
    ((NewServiceSentinel acceptAll (addDays 0 29) sampleCron
        { boundaryRowDb with history :=
            [{ MonitorID := 1, CreatedAt := 1, Successful := true, Delay := 50, Data := "" }] }
        sampleServers).bind (fun w => mapGet w.ss.monthlyStatus 1)).map
      (fun r => (r.Up.get 0 0, r.TotalUp)) = some (1, 1) := by
  refine ⟨by decide, by decide, by decide, by decide⟩

/-! ## Derived state and alerts of an accepted report -/

theorem statusAlert_last (m : Monitor) (lastStatus : GoMap Int) (id : Nat) (s : Int) :
    mapGetD (statusAlert m lastStatus id s).1 id 0 = s := by
  unfold statusAlert
  by_cases hc : s = StatusDown ∨ s ≠ mapGetD lastStatus id 0
  · rw [if_pos hc]
    simp [mapGetD, mapGet_mapSet_self]
  · rw [if_neg hc]
    by_contra hne
    exact hc (Or.inr (fun h => hne h.symm))

theorem statusAlert_sent (m : Monitor) (lastStatus : GoMap Int) (id : Nat) (s : Int) :
    (statusAlert m lastStatus id s).2 =
      if m.Notify = true ∧
          (s = StatusDown ∨ (s ≠ mapGetD lastStatus id 0 ∧ mapGetD lastStatus id 0 ≠ 0)) then
        [Notification.status m.NotificationTag s m.Name]
      else [] := by
  unfold statusAlert
  by_cases hc : s = StatusDown ∨ s ≠ mapGetD lastStatus id 0
  · rw [if_pos hc]
    simp only [Bool.and_eq_true, Bool.or_eq_true, decide_eq_true_eq]
    by_cases hn : m.Notify = true
    · by_cases hd : s = StatusDown
      · rw [if_pos ⟨Or.inr hd, hn⟩, if_pos ⟨hn, Or.inl hd⟩]
      · have hne : s ≠ mapGetD lastStatus id 0 := hc.resolve_left hd
        by_cases h0 : mapGetD lastStatus id 0 = 0
        · rw [if_neg (fun h => h.1.elim (fun h' => h' h0) hd),
            if_neg (fun h => h.2.elim hd (fun h' => h'.2 h0))]
        · rw [if_pos ⟨Or.inl h0, hn⟩, if_pos ⟨hn, Or.inr ⟨hne, h0⟩⟩]
    · rw [if_neg (fun h => hn h.2), if_neg (fun h => hn h.1)]
  · rw [if_neg hc, if_neg]
    rintro ⟨_, h | ⟨h, _⟩⟩
    · exact hc (Or.inl h)
    · exact hc (Or.inr h)

/-- An accepted report that the worker processes without panic is committed. -/
theorem workerStep_commit (parseTime : String → Option Int) (now : Int) (w w' : World)
    (r : ReportData) (m : Monitor) (hstep : workerStep parseTime now w r = some w')
    (hm : mapGet w.ss.monitors r.Data.Id = some m) (hid : m.ID ≠ 0) :
    ∃ t, mapGet w.ss.serviceStatusToday r.Data.Id = some t ∧
      w' = workerCommit parseTime now w m t (mapGetD w.ss.serviceCurrentStatusData r.Data.Id [])
        (mapGetD w.ss.serviceCurrentStatusIndex r.Data.Id 0) (PB2MonitorHistory r.Data) := by
  rcases workerStep_cases parseTime now w w' r hstep with
    ⟨hdrop, _⟩ | ⟨m', t, hm', _, ht, _, _, hw'⟩
  · rcases hdrop with hnone | ⟨m', hm', hid'⟩
    · rw [hm] at hnone; cases hnone
    · rw [hm] at hm'; cases hm'; exact absurd hid' hid
  · rw [hm] at hm'
    cases hm'
    exact ⟨t, ht, hw'⟩

theorem latencyAlerts_not_status (m : Monitor) (mh : MonitorHistory) :
    ∀ n ∈ latencyAlerts m mh, isStatusNotification n = false := by
  intro n hn
  unfold latencyAlerts at hn
  split_ifs at hn <;> simp at hn
  all_goals
    first
      | (rcases hn with h | h <;> subst h <;> rfl)
      | (subst hn; rfl)

/-- C15: for an accepted report on monitor `m` with derived state code `s` (the state of
the window after the report is written) and previous last status `l` (0 when never
observed), the notifications dispatched by the report are its latency alerts, then one
status notification iff `m.Notify` and (`s = Down` or (`s ≠ l` and `l ≠ 0`)), then its SSL
alerts; so at most one status notification is dispatched, and afterwards
`last_status[m] = s`. -/
theorem status_notification_rule (parseTime : String → Option Int) (now : Int) (w w' : World)
    (r : ReportData) (m : Monitor) (hstep : workerStep parseTime now w r = some w')
    (hm : mapGet w.ss.monitors r.Data.Id = some m) (hid : m.ID ≠ 0) :
    (∃ sslPart,
      w'.sent = w.sent ++ latencyAlerts m (PB2MonitorHistory r.Data) ++
        (if m.Notify = true ∧
            (windowState (mapGetD w'.ss.serviceCurrentStatusData r.Data.Id []) = StatusDown ∨
              (windowState (mapGetD w'.ss.serviceCurrentStatusData r.Data.Id []) ≠
                  mapGetD w.ss.lastStatus r.Data.Id 0 ∧
                mapGetD w.ss.lastStatus r.Data.Id 0 ≠ 0)) then
          [Notification.status m.NotificationTag
            (windowState (mapGetD w'.ss.serviceCurrentStatusData r.Data.Id [])) m.Name]
        else []) ++ sslPart ∧
      (∀ n ∈ latencyAlerts m (PB2MonitorHistory r.Data), isStatusNotification n = false) ∧
      (∀ n ∈ sslPart, isStatusNotification n = false)) ∧
    w'.sent.countP isStatusNotification = w.sent.countP isStatusNotification +
      (if m.Notify = true ∧
          (windowState (mapGetD w'.ss.serviceCurrentStatusData r.Data.Id []) = StatusDown ∨
            (windowState (mapGetD w'.ss.serviceCurrentStatusData r.Data.Id []) ≠
                mapGetD w.ss.lastStatus r.Data.Id 0 ∧
              mapGetD w.ss.lastStatus r.Data.Id 0 ≠ 0)) then 1 else 0) ∧
    mapGetD w'.ss.lastStatus r.Data.Id 0 =
      windowState (mapGetD w'.ss.serviceCurrentStatusData r.Data.Id []) := by
  obtain ⟨t, _, hw'⟩ := workerStep_commit parseTime now w w' r m hstep hm hid
  have hmh : (PB2MonitorHistory r.Data).MonitorID = r.Data.Id := rfl
  have hring := workerCommit_ring parseTime now w m t
    (mapGetD w.ss.serviceCurrentStatusData r.Data.Id [])
    (mapGetD w.ss.serviceCurrentStatusIndex r.Data.Id 0) (PB2MonitorHistory r.Data)
  rw [hmh, ← hw'] at hring
  rw [hring]
  have hsent : ∃ sslPart, (∀ n ∈ sslPart, isStatusNotification n = false) ∧
      w'.sent = w.sent ++ latencyAlerts m (PB2MonitorHistory r.Data) ++
        (statusAlert m w.ss.lastStatus r.Data.Id
          (windowState ((mapGetD w.ss.serviceCurrentStatusData r.Data.Id []).set
            (mapGetD w.ss.serviceCurrentStatusIndex r.Data.Id 0).toNat
            (PB2MonitorHistory r.Data)))).2 ++ sslPart := by
    refine ⟨_, ?_, by rw [hw']; rfl⟩
    intro n hn
    split_ifs at hn
    · rw [List.mem_singleton] at hn
      subst hn
      rfl
    · cases hn
  obtain ⟨sslPart, hssl, hsent⟩ := hsent
  rw [statusAlert_sent] at hsent
  have hlat := latencyAlerts_not_status m (PB2MonitorHistory r.Data)
  have hcl : (latencyAlerts m (PB2MonitorHistory r.Data)).countP isStatusNotification = 0 := by
    rw [List.countP_eq_zero]
    intro n hn
    rw [hlat n hn]
    decide
  have hcs : sslPart.countP isStatusNotification = 0 := by
    rw [List.countP_eq_zero]
    intro n hn
    rw [hssl n hn]
    decide
  refine ⟨⟨sslPart, hsent, hlat, hssl⟩, ?_, ?_⟩
  · rw [hsent, List.countP_append, List.countP_append, List.countP_append, hcl, hcs]
    split_ifs <;> simp [isStatusNotification]
  · rw [hw']
    exact statusAlert_last m w.ss.lastStatus r.Data.Id _

/-- C15 at one failed report for the freshly registered sample monitor: the derived state
is recorded as the last status of the monitor. -/
theorem status_notification_rule_witness :
    mapGet failedWorld.ss.monitors (sampleReport 1 false 0).Data.Id =
      some { sampleMonitor with CronJobID := 1 } ∧
    ({ sampleMonitor with CronJobID := 1 } : Monitor).ID ≠ 0 ∧
    workerStep parseNothing 0 sampleWorld (sampleReport 1 false 0) = some failedWorld ∧
    mapGetD failedWorld.ss.lastStatus (sampleReport 1 false 0).Data.Id 0 =
      windowState (mapGetD failedWorld.ss.serviceCurrentStatusData
        (sampleReport 1 false 0).Data.Id []) :=
  ⟨by decide, by decide, by decide,
    (status_notification_rule parseNothing 0 sampleWorld failedWorld (sampleReport 1 false 0)
      { sampleMonitor with CronJobID := 1 } (by decide) (by decide) (by decide)).2.2⟩

/-- C16: an accepted report for a ready monitor appends a history row iff the cursor was
29 (it reaches 30 and is reset to 0), and then exactly one row: monitor id = the report's
monitor id, delay = today's delay as updated by this report, successful = (the state code
derived from the window as written by this report is Good), data = the report's data. -/
theorem flush_appends_one_row (parseTime : String → Option Int) (now : Int) (w w' : World)
    (r : ReportData) (hready : Ready w.ss r.Data.Id)
    (hstep : workerStep parseTime now w r = some w') :
    ∃ t1, mapGet w'.ss.serviceStatusToday r.Data.Id = some t1 ∧
      w'.db.history =
        (if mapGetD w.ss.serviceCurrentStatusIndex r.Data.Id 0 = 29 then
          w.db.history ++
            [{ MonitorID := r.Data.Id, CreatedAt := zeroTime, Delay := t1.Delay,
               Successful := decide
                 (windowState (mapGetD w'.ss.serviceCurrentStatusData r.Data.Id []) =
                   StatusGood),
               Data := r.Data.Data }]
        else w.db.history) ∧
      (mapGetD w.ss.serviceCurrentStatusIndex r.Data.Id 0 = 29 →
        mapGetD w'.ss.serviceCurrentStatusIndex r.Data.Id 0 = 0) := by
  obtain ⟨m, t0, hm, hid, _, _, h0, h30⟩ := hready
  obtain ⟨t, _, hw'⟩ := workerStep_commit parseTime now w w' r m hstep hm hid
  have hmh : (PB2MonitorHistory r.Data).MonitorID = r.Data.Id := rfl
  have htoday := workerCommit_today parseTime now w m t
    (mapGetD w.ss.serviceCurrentStatusData r.Data.Id [])
    (mapGetD w.ss.serviceCurrentStatusIndex r.Data.Id 0) (PB2MonitorHistory r.Data)
  have hring := workerCommit_ring parseTime now w m t
    (mapGetD w.ss.serviceCurrentStatusData r.Data.Id [])
    (mapGetD w.ss.serviceCurrentStatusIndex r.Data.Id 0) (PB2MonitorHistory r.Data)
  have hcur := workerCommit_cursor parseTime now w m t
    (mapGetD w.ss.serviceCurrentStatusData r.Data.Id [])
    (mapGetD w.ss.serviceCurrentStatusIndex r.Data.Id 0) (PB2MonitorHistory r.Data) h0 h30
  have hhist := workerCommit_history parseTime now w m t
    (mapGetD w.ss.serviceCurrentStatusData r.Data.Id [])
    (mapGetD w.ss.serviceCurrentStatusIndex r.Data.Id 0) (PB2MonitorHistory r.Data) h0 h30
  rw [hmh, ← hw'] at htoday hring hcur
  rw [← hw'] at hhist
  refine ⟨_, htoday, ?_, ?_⟩
  · rw [hhist, hring]
    by_cases hc : mapGetD w.ss.serviceCurrentStatusIndex r.Data.Id 0 = 29
    · rw [if_pos (by omega), if_pos hc]
      rfl
    · rw [if_neg (by omega), if_neg hc]
  · intro hc
    rw [hcur, if_pos (by omega)]

/-- C16 at the thirtieth successful report with delay 50 to the fresh sample monitor: the
report moves `almostFlushedWorld` (29 reports, no row) to `healthyWorld`, where
`current_up = 30`, `current_down = 0`, the state is Good, nothing was notified, and the
history holds one row with delay 50 and `successful = true`. -/
theorem flush_appends_one_row_witness :
    Ready almostFlushedWorld.ss (sampleReport 1 true 50).Data.Id ∧
    workerStep parseNothing 0 almostFlushedWorld (sampleReport 1 true 50) = some healthyWorld ∧
    mapGetD almostFlushedWorld.ss.serviceCurrentStatusIndex 1 0 = 29 ∧
    almostFlushedWorld.db.history = [] ∧
    mapGetD healthyWorld.ss.serviceResponseDataStoreCurrentUp 1 0 = 30 ∧
    mapGetD healthyWorld.ss.serviceResponseDataStoreCurrentDown 1 0 = 0 ∧
    windowState (mapGetD healthyWorld.ss.serviceCurrentStatusData 1 []) = StatusGood ∧
    mapGetD healthyWorld.ss.lastStatus 1 0 = StatusGood ∧
    healthyWorld.sent = [] ∧
    healthyWorld.db.history =
      [{ MonitorID := 1, CreatedAt := zeroTime, Delay := 50, Successful := true, Data := "" }] ∧
    ∃ t1, mapGet healthyWorld.ss.serviceStatusToday (sampleReport 1 true 50).Data.Id = some t1 ∧
      healthyWorld.db.history =
        (if mapGetD almostFlushedWorld.ss.serviceCurrentStatusIndex
            (sampleReport 1 true 50).Data.Id 0 = 29 then
          almostFlushedWorld.db.history ++
            [{ MonitorID := (sampleReport 1 true 50).Data.Id, CreatedAt := zeroTime,
               Delay := t1.Delay,
               Successful := decide
                 (windowState (mapGetD healthyWorld.ss.serviceCurrentStatusData
                   (sampleReport 1 true 50).Data.Id []) = StatusGood),
               Data := (sampleReport 1 true 50).Data.Data }]
        else almostFlushedWorld.db.history) ∧
      (mapGetD almostFlushedWorld.ss.serviceCurrentStatusIndex
          (sampleReport 1 true 50).Data.Id 0 = 29 →
        mapGetD healthyWorld.ss.serviceCurrentStatusIndex
          (sampleReport 1 true 50).Data.Id 0 = 0) :=
  ⟨⟨{ sampleMonitor with CronJobID := 1 }, { Up := 29, Down := 0, Delay := 50 }, by decide!,
      by decide, by decide!, by decide!, by decide!, by decide!⟩,
    by decide!, by decide!, by decide!, by decide!, by decide!, by decide!, by decide!,
    by decide!, by decide!,
    flush_appends_one_row parseNothing 0 almostFlushedWorld healthyWorld (sampleReport 1 true 50)
      ⟨{ sampleMonitor with CronJobID := 1 }, { Up := 29, Down := 0, Delay := 50 }, by decide!,
        by decide, by decide!, by decide!, by decide!, by decide!⟩ (by decide!)⟩

set_option maxRecDepth 1000000 in
/-- C14, refuted as stated: from the freshly registered sample monitor (notify on) after
thirty successful reports, twenty failed reports followed by ten successful reports end
with `up_percent = 33` and state Down, but the notification `"[Down] web"` is dispatched 25
times over those thirty reports, not once. -/
theorem down_notification_repeats_counterexample :
    downSummary downReports = some (25, 33, StatusDown) ∧
    downSummary downReports ≠ some (1, 33, StatusDown) := by
  decide

set_option maxRecDepth 1000000 in
/-- C14, amended: starting from the freshly registered sample monitor (notify on) after
thirty successful reports (state Good, nothing notified), delivering twenty failed reports
followed by ten successful reports ends with `up_percent = 33` and state Down; after the
first `k` of these reports `"[Down] web"` has been dispatched `k - 5` times (0 for
`k ≤ 5`) and the state is Down iff `k ≥ 6`: the notification is dispatched on every report
whose derived state is Down, first on the sixth failed report (`up_percent = 80`), 25 times
in all; the only other notification is one `"[LowAvailability] web"`, dispatched on the
second failed report. -/
theorem down_notification_on_every_down_report :
    healthyWorld.sent = [] ∧
    mapGetD healthyWorld.ss.lastStatus 1 0 = StatusGood ∧
    downSummary downReports = some (25, 33, StatusDown) ∧
    downSummary (downReports.take 5) = some (0, 83, StatusLowAvailability) ∧
    downSummary (downReports.take 6) = some (1, 80, StatusDown) ∧
    (∀ k ∈ List.range 31,
      (downSummary (downReports.take k)).map (fun s => (s.1, decide (s.2.2 = StatusDown))) =
        some (k - 5, decide (6 ≤ k))) ∧
    (worker parseNothing healthyWorld downReports).map (fun w => w.sent) =
      some (Notification.status "default" StatusLowAvailability "web" ::
        List.replicate 25 (Notification.status "default" StatusDown "web")) ∧
    (worker parseNothing healthyWorld (downReports.take 1)).map (fun w => w.sent) = some [] ∧
    (worker parseNothing healthyWorld (downReports.take 2)).map (fun w => w.sent) =
      some [Notification.status "default" StatusLowAvailability "web"] := by
  decide!

/-! ## Snapshot of the registry: verification -/

theorem mapKeys_nodup {α : Type} (m : GoMap α) : (mapKeys m).Nodup :=
  List.nodup_dedup _

theorem filterMap_map_of_inverse {α : Type} (f : Nat → Option α) (g : α → Nat) :
    ∀ L : List Nat, (∀ k ∈ L, ∃ v, f k = some v ∧ g v = k) → (L.filterMap f).map g = L
  | [], _ => rfl
  | k :: L, h => by
    obtain ⟨v, hv, hg⟩ := h k (List.mem_cons_self _ _)
    rw [List.filterMap_cons_some hv, List.map_cons, hg,
      filterMap_map_of_inverse f g L (fun x hx => h x (List.mem_cons_of_mem _ hx))]

theorem map_filterMap_of_inverse {α : Type} (f : Nat → Option α) (g : α → Nat) :
    ∀ L : List α, (∀ v ∈ L, f (g v) = some v) → (L.map g).filterMap f = L
  | [], _ => rfl
  | v :: L, h => by
    rw [List.map_cons, List.filterMap_cons_some (h v (List.mem_cons_self _ _)),
      map_filterMap_of_inverse f g L (fun x hx => h x (List.mem_cons_of_mem _ hx))]

theorem registry_values_ids (ss : ServiceSentinel) (hk : registryKeyed ss) :
    ((mapKeys ss.monitors).filterMap (mapGet ss.monitors)).map (fun m => m.ID) =
      mapKeys ss.monitors := by
  apply filterMap_map_of_inverse
  intro k hmem
  rw [mem_mapKeys] at hmem
  obtain ⟨v, hv⟩ := Option.ne_none_iff_exists'.mp hmem
  exact ⟨v, hv, hk k v hv⟩

theorem mem_registry_values (ss : ServiceSentinel) (m : Monitor) :
    m ∈ (mapKeys ss.monitors).filterMap (mapGet ss.monitors) ↔
      ∃ k, mapGet ss.monitors k = some m := by
  rw [List.mem_filterMap]
  constructor
  · rintro ⟨k, _, h⟩
    exact ⟨k, h⟩
  · rintro ⟨k, h⟩
    refine ⟨k, ?_, h⟩
    rw [mem_mapKeys, h]
    exact Option.some_ne_none _

theorem Monitors_perm (ss : ServiceSentinel) :
    (Monitors ss).Perm ((mapKeys ss.monitors).filterMap (mapGet ss.monitors)) :=
  List.perm_insertionSort _ _

theorem Monitors_sorted_le (ss : ServiceSentinel) :
    (Monitors ss).Sorted (fun a b => a.ID ≤ b.ID) := by
  haveI : IsTotal Monitor (fun a b => a.ID ≤ b.ID) := ⟨fun a b => Nat.le_total a.ID b.ID⟩
  haveI : IsTrans Monitor (fun a b => a.ID ≤ b.ID) := ⟨fun _ _ _ h1 h2 => Nat.le_trans h1 h2⟩
  exact List.sorted_insertionSort _ _

theorem Monitors_ids_perm (ss : ServiceSentinel) (hk : registryKeyed ss) :
    ((Monitors ss).map (fun m => m.ID)).Perm (mapKeys ss.monitors) := by
  have h := (Monitors_perm ss).map (fun m => m.ID)
  rw [registry_values_ids ss hk] at h
  exact h

theorem Monitors_ids_sorted (ss : ServiceSentinel) (hk : registryKeyed ss) :
    ((Monitors ss).map (fun m => m.ID)).Sorted (fun a b => a < b) := by
  have hle : ((Monitors ss).map (fun m => m.ID)).Sorted (fun a b => a ≤ b) := by
    rw [List.Sorted, List.pairwise_map]
    exact Monitors_sorted_le ss
  have hnd : ((Monitors ss).map (fun m => m.ID)).Nodup :=
    (Monitors_ids_perm ss hk).nodup_iff.mpr (mapKeys_nodup _)
  exact hle.lt_of_le hnd

theorem Monitors_lookup (ss : ServiceSentinel) (hk : registryKeyed ss) :
    ∀ m ∈ Monitors ss, mapGet ss.monitors m.ID = some m := by
  intro m hm
  rw [(Monitors_perm ss).mem_iff, mem_registry_values] at hm
  obtain ⟨k, h⟩ := hm
  rw [hk k m h]
  exact h

theorem registryKeyed_congr (ss ss' : ServiceSentinel) (hk : registryKeyed ss)
    (hsame : ∀ k, mapGet ss'.monitors k = mapGet ss.monitors k) : registryKeyed ss' := by
  intro k m h
  rw [hsame] at h
  exact hk k m h

theorem mapKeys_perm_of_same {α : Type} (m m' : GoMap α)
    (hsame : ∀ k, mapGet m' k = mapGet m k) : (mapKeys m').Perm (mapKeys m) := by
  rw [List.perm_ext_iff_of_nodup (mapKeys_nodup _) (mapKeys_nodup _)]
  intro k
  rw [mem_mapKeys, mem_mapKeys, hsame]

/-- C11: for every registry whose entries are stored under the id of their monitor,
`Monitors` returns a permutation of the registry's values in which every registered
monitor occurs exactly once, sorted in ascending order of id (strictly: no id occurs
twice); and the result depends only on the content of the registry: a sentinel `ss'`
whose registry holds the same entries in any other iteration order gives the same list. -/
theorem Monitors_sorted_permutation (ss ss' : ServiceSentinel) (hk : registryKeyed ss)
    (hsame : ∀ k, mapGet ss'.monitors k = mapGet ss.monitors k) :
    (Monitors ss).Perm ((mapKeys ss.monitors).filterMap (mapGet ss.monitors)) ∧
    (Monitors ss).Sorted (fun a b => a.ID ≤ b.ID) ∧
    (Monitors ss).Sorted (fun a b => a.ID < b.ID) ∧
    (∀ m, m ∈ Monitors ss ↔ ∃ k, mapGet ss.monitors k = some m) ∧
    (∀ k m, mapGet ss.monitors k = some m → (Monitors ss).count m = 1) ∧
    (Monitors ss).length = (mapKeys ss.monitors).length ∧
    Monitors ss' = Monitors ss := by
  have hids := Monitors_ids_sorted ss hk
  have hlt : (Monitors ss).Sorted (fun a b => a.ID < b.ID) := by
    rw [List.Sorted, List.pairwise_map] at hids
    exact hids
  have hmem : ∀ m, m ∈ Monitors ss ↔ ∃ k, mapGet ss.monitors k = some m := by
    intro m
    rw [(Monitors_perm ss).mem_iff, mem_registry_values]
  have hnd : (Monitors ss).Nodup :=
    List.Nodup.of_map _ ((Monitors_ids_perm ss hk).nodup_iff.mpr (mapKeys_nodup _))
  refine ⟨Monitors_perm ss, Monitors_sorted_le ss, hlt, hmem, ?_, ?_, ?_⟩
  · intro k m h
    exact List.count_eq_one_of_mem hnd ((hmem m).mpr ⟨k, h⟩)
  · rw [← (Monitors_ids_perm ss hk).length_eq, List.length_map]
  · have hk' := registryKeyed_congr ss ss' hk hsame
    have hperm : ((Monitors ss').map (fun m => m.ID)).Perm ((Monitors ss).map (fun m => m.ID)) :=
      ((Monitors_ids_perm ss' hk').trans (mapKeys_perm_of_same _ _ hsame)).trans
        (Monitors_ids_perm ss hk).symm
    have heq : (Monitors ss').map (fun m => m.ID) = (Monitors ss).map (fun m => m.ID) :=
      List.eq_of_perm_of_sorted hperm (Monitors_ids_sorted ss' hk') hids
    have hfun : mapGet ss'.monitors = mapGet ss.monitors := funext hsame
    rw [← map_filterMap_of_inverse (mapGet ss'.monitors) (fun m => m.ID) (Monitors ss')
        (Monitors_lookup ss' hk'),
      ← map_filterMap_of_inverse (mapGet ss.monitors) (fun m => m.ID) (Monitors ss)
        (Monitors_lookup ss hk), heq, hfun]

theorem twoMonitors_keyed : registryKeyed twoMonitors := by
  intro k m h
  simp only [twoMonitors, mapGet] at h
  split_ifs at h with h2 h1
  · cases h; exact h2
  · cases h; exact h1

theorem twoMonitors_same :
    ∀ k, mapGet twoMonitorsSwapped.monitors k = mapGet twoMonitors.monitors k := by
  intro k
  simp only [twoMonitors, twoMonitorsSwapped, mapGet]
  split_ifs with h1 h2 <;> first | rfl | omega

/-- C11 on a registry holding the monitors 2 and 1: the snapshot lists monitor 1 before
monitor 2, whichever of the two the registry iterates first. -/
theorem Monitors_sorted_permutation_witness :
    registryKeyed twoMonitors ∧
    (∀ k, mapGet twoMonitorsSwapped.monitors k = mapGet twoMonitors.monitors k) ∧
    Monitors twoMonitors = [sampleMonitor, { sampleMonitor with ID := 2, Name := "db" }] ∧
    Monitors twoMonitorsSwapped = Monitors twoMonitors :=
  ⟨twoMonitors_keyed, twoMonitors_same, by decide,
    (Monitors_sorted_permutation twoMonitors twoMonitorsSwapped twoMonitors_keyed
      twoMonitors_same).2.2.2.2.2.2⟩

/-! ## Loops over the keys of a map -/

/-- A loop over distinct keys whose body rewrites the view of its key by `g` and leaves
the view of the other keys alone: it does not panic and rewrites exactly the views of the
keys of the list. -/
theorem loopM_keyed {σ β : Type} (body : σ → Nat → Option σ) (view : σ → Nat → β)
    (g : Nat → β → β) (P : σ → Prop) :
    ∀ L : List Nat,
      (∀ s k, k ∈ L → P s → ∃ s', body s k = some s' ∧ P s' ∧
        ∀ k', view s' k' = if k' = k then g k (view s k) else view s k') →
      L.Nodup → ∀ s, P s → ∃ s', loopM body L s = some s' ∧ P s' ∧
        ∀ k, view s' k = if k ∈ L then g k (view s k) else view s k := by
  intro L
  induction L with
  | nil =>
    intro _ _ s hs
    exact ⟨s, rfl, hs, fun k => by simp⟩
  | cons x L ih =>
    intro hstep hnd s hs
    obtain ⟨s1, h1, hP1, hv1⟩ := hstep s x (List.mem_cons_self _ _) hs
    have hx : x ∉ L := (List.nodup_cons.mp hnd).1
    obtain ⟨s2, h2, hP2, hv2⟩ :=
      ih (fun s k hk => hstep s k (List.mem_cons_of_mem _ hk)) (List.nodup_cons.mp hnd).2 s1 hP1
    refine ⟨s2, by simp only [loopM, h1]; exact h2, hP2, fun k => ?_⟩
    rw [hv2 k]
    by_cases hk : k = x
    · subst hk
      rw [if_neg hx, hv1 k, if_pos rfl, if_pos (List.mem_cons_self _ _)]
    · have hmem : k ∈ x :: L ↔ k ∈ L := by simp [hk]
      by_cases hkL : k ∈ L
      · rw [if_pos hkL, if_pos (hmem.mpr hkL), hv1 k, if_neg hk]
      · rw [if_neg hkL, if_neg (fun h => hkL (hmem.mp h)), hv1 k, if_neg hk]

/-- A loop whose body returns the state it is given returns the state it starts from. -/
theorem loopM_fixed {σ α : Type} (body : σ → α → Option σ) (s : σ) :
    ∀ L : List α, (∀ x ∈ L, body s x = some s) → loopM body L s = some s := by
  intro L
  induction L with
  | nil => intro _; rfl
  | cons x L ih =>
    intro h
    simp only [loopM, h x (List.mem_cons_self _ _)]
    exact ih (fun y hy => h y (List.mem_cons_of_mem _ hy))

theorem mapSet_same {α : Type} (m : GoMap α) (k : Nat) (v : α) (h : mapGet m k = some v) :
    mapSet m k v = m := by
  induction m with
  | nil => simp [mapGet] at h
  | cons e t ih =>
    obtain ⟨k0, v0⟩ := e
    by_cases h0 : k0 = k
    · subst h0
      simp only [mapGet, if_true, Option.some.injEq] at h
      simp [mapSet, h]
    · simp only [mapGet, h0, if_false] at h
      simp [mapSet, h0, ih h]

theorem Array30.eq_of_vals {α : Type} (a b : Array30 α) (h : a.vals = b.vals) : a = b := by
  cases a
  cases b
  cases h
  rfl

theorem Array30.get_set_self {α : Type} (a : Array30 α) (i : Nat) (x d : α) (hi : i < 30) :
    (a.set i x).get i d = x := by
  simp [Array30.get, Array30.set, List.getD_eq_getElem?_getD, a.size, hi]

theorem Array30.get_set_ne {α : Type} (a : Array30 α) (i j : Nat) (x d : α) (hij : i ≠ j) :
    (a.set i x).get j d = a.get j d := by
  simp [Array30.get, Array30.set, List.getD_eq_getElem?_getD, List.getElem?_set_ne hij]

theorem list_set_getD_same {α : Type} (d : α) :
    ∀ (l : List α) (i : Nat), l.set i (l.getD i d) = l
  | [], _ => rfl
  | _ :: _, 0 => rfl
  | a :: l, i + 1 => by
    simp only [List.set_cons_succ, List.getD_cons_succ]
    rw [list_set_getD_same d l i]

theorem Array30.set_same {α : Type} (a : Array30 α) (i : Nat) (x d : α)
    (h : a.get i d = x) : a.set i x = a := by
  apply Array30.eq_of_vals
  simp only [Array30.set]
  rw [← h]
  exact list_set_getD_same d a.vals i

/-! ## `LoadStats`: result -/

theorem MonthlyOnly_refl (b : ServiceSentinel) : MonthlyOnly b b :=
  ⟨rfl, fun _ => Iff.rfl⟩

theorem MonthlyOnly_set (b s : ServiceSentinel) (k : Nat) (r : ServiceItemResponse)
    (hP : MonthlyOnly b s) (hk : mapGet s.monthlyStatus k ≠ none) :
    MonthlyOnly b { s with monthlyStatus := mapSet s.monthlyStatus k r } :=
  ⟨hP.1, fun k' => (mapGet_set_none_iff _ _ _ _ hk).trans (hP.2 k')⟩

theorem MonthlyOnly_fields (b s : ServiceSentinel) (hP : MonthlyOnly b s) :
    s.monitors = b.monitors ∧ s.serviceStatusToday = b.serviceStatusToday ∧
    s.serviceResponseDataStoreCurrentUp = b.serviceResponseDataStoreCurrentUp ∧
    s.serviceResponseDataStoreCurrentDown = b.serviceResponseDataStoreCurrentDown := by
  have h1 := congrArg ServiceSentinel.monitors hP.1
  have h2 := congrArg ServiceSentinel.serviceStatusToday hP.1
  have h3 := congrArg ServiceSentinel.serviceResponseDataStoreCurrentUp hP.1
  have h4 := congrArg ServiceSentinel.serviceResponseDataStoreCurrentDown hP.1
  exact ⟨h1, h2, h3, h4⟩

theorem monthly_set_view (M : GoMap ServiceItemResponse) (k : Nat)
    (r : ServiceItemResponse) (g : ServiceItemResponse → ServiceItemResponse)
    (hr : mapGet M k = some r) :
    ∀ k', mapGet (mapSet M k (g r)) k' =
      if k' = k then (mapGet M k).map g else mapGet M k' := by
  intro k'
  by_cases h : k' = k
  · subst h
    rw [if_pos rfl, mapGet_mapSet_self, hr]
    rfl
  · rw [if_neg h, mapGet_mapSet_ne _ _ _ _ h]

theorem refreshDay_step (b : ServiceSentinel) (hinv : SentinelInv b) (s : ServiceSentinel)
    (k : Nat) (hk : k ∈ mapKeys b.monitors) (hP : MonthlyOnly b s) :
    ∃ s', LoadStats.refreshDay s k = some s' ∧ MonthlyOnly b s' ∧
      ∀ k', mapGet s'.monthlyStatus k' =
        if k' = k then
          (mapGet s.monthlyStatus k).map (fun r =>
            LoadStats.refreshed r ((mapGet b.monitors k).getD r.Monitor)
              ((mapGet b.serviceStatusToday k).getD TodayStatsOfMonitor.zero))
        else mapGet s.monthlyStatus k' := by
  rw [mem_mapKeys] at hk
  obtain ⟨ht, hr, _⟩ := hinv.1 k hk
  obtain ⟨m, hm⟩ := Option.ne_none_iff_exists'.mp hk
  obtain ⟨t, ht⟩ := Option.ne_none_iff_exists'.mp ht
  have hr' : mapGet s.monthlyStatus k ≠ none := fun h => hr ((hP.2 k).mp h)
  obtain ⟨r, hr'⟩ := Option.ne_none_iff_exists'.mp hr'
  obtain ⟨hmon, htod, _, _⟩ := MonthlyOnly_fields b s hP
  refine ⟨{ s with monthlyStatus := mapSet s.monthlyStatus k (LoadStats.refreshed r m t) }, ?_,
    MonthlyOnly_set b s k _ hP (by rw [hr']; exact Option.some_ne_none _), ?_⟩
  · simp only [LoadStats.refreshDay, hr', hmon, hm, htod, ht]
    rfl
  · have := monthly_set_view s.monthlyStatus k r
      (fun r => LoadStats.refreshed r ((mapGet b.monitors k).getD r.Monitor)
        ((mapGet b.serviceStatusToday k).getD TodayStatsOfMonitor.zero)) hr'
    simp only [hm, ht, Option.getD_some] at this ⊢
    exact this

theorem copyDown_step (b : ServiceSentinel) (hinv : SentinelInv b) (s : ServiceSentinel)
    (k : Nat) (hk : k ∈ mapKeys b.serviceResponseDataStoreCurrentDown) (hP : MonthlyOnly b s) :
    ∃ s', LoadStats.copyDown s k = some s' ∧ MonthlyOnly b s' ∧
      ∀ k', mapGet s'.monthlyStatus k' =
        if k' = k then
          (mapGet s.monthlyStatus k).map (fun r =>
            { r with CurrentDown := mapGetD b.serviceResponseDataStoreCurrentDown k 0 })
        else mapGet s.monthlyStatus k' := by
  rw [mem_mapKeys] at hk
  have hreg : mapGet b.monitors k ≠ none := fun h => hk (hinv.2 k h).2.2.1
  obtain ⟨_, hr, _⟩ := hinv.1 k hreg
  have hr' : mapGet s.monthlyStatus k ≠ none := fun h => hr ((hP.2 k).mp h)
  obtain ⟨r, hr'⟩ := Option.ne_none_iff_exists'.mp hr'
  obtain ⟨_, _, _, hcd⟩ := MonthlyOnly_fields b s hP
  refine ⟨{ s with
      monthlyStatus := mapSet s.monthlyStatus k
        { r with CurrentDown := mapGetD b.serviceResponseDataStoreCurrentDown k 0 } }, ?_,
    MonthlyOnly_set b s k _ hP (by rw [hr']; exact Option.some_ne_none _), ?_⟩
  · simp only [LoadStats.copyDown, hr', hcd]
  · exact monthly_set_view s.monthlyStatus k r
      (fun r => { r with CurrentDown := mapGetD b.serviceResponseDataStoreCurrentDown k 0 }) hr'

theorem copyUp_step (b : ServiceSentinel) (hinv : SentinelInv b) (s : ServiceSentinel)
    (k : Nat) (hk : k ∈ mapKeys b.serviceResponseDataStoreCurrentUp) (hP : MonthlyOnly b s) :
    ∃ s', LoadStats.copyUp s k = some s' ∧ MonthlyOnly b s' ∧
      ∀ k', mapGet s'.monthlyStatus k' =
        if k' = k then
          (mapGet s.monthlyStatus k).map (fun r =>
            { r with CurrentUp := mapGetD b.serviceResponseDataStoreCurrentUp k 0 })
        else mapGet s.monthlyStatus k' := by
  rw [mem_mapKeys] at hk
  have hreg : mapGet b.monitors k ≠ none := fun h => hk (hinv.2 k h).2.1
  obtain ⟨_, hr, _⟩ := hinv.1 k hreg
  have hr' : mapGet s.monthlyStatus k ≠ none := fun h => hr ((hP.2 k).mp h)
  obtain ⟨r, hr'⟩ := Option.ne_none_iff_exists'.mp hr'
  obtain ⟨_, _, hcu, _⟩ := MonthlyOnly_fields b s hP
  refine ⟨{ s with
      monthlyStatus := mapSet s.monthlyStatus k
        { r with CurrentUp := mapGetD b.serviceResponseDataStoreCurrentUp k 0 } }, ?_,
    MonthlyOnly_set b s k _ hP (by rw [hr']; exact Option.some_ne_none _), ?_⟩
  · simp only [LoadStats.copyUp, hr', hcu]
  · exact monthly_set_view s.monthlyStatus k r
      (fun r => { r with CurrentUp := mapGetD b.serviceResponseDataStoreCurrentUp k 0 }) hr'

/-- Under the consistency of the maps `LoadStats` does not panic, changes only the values
of the monthly responses, and the response of every key is the old one rewritten by the
bodies of the three loops whose key lists hold the key. -/
theorem LoadStats_monthly (b : ServiceSentinel) (hinv : SentinelInv b) :
    ∃ s', LoadStats b = some s' ∧ MonthlyOnly b s' ∧
      ∀ k, mapGet s'.monthlyStatus k =
        (if k ∈ mapKeys b.serviceResponseDataStoreCurrentUp then
          Option.map (fun r =>
            { r with CurrentUp := mapGetD b.serviceResponseDataStoreCurrentUp k 0 })
        else id)
        ((if k ∈ mapKeys b.serviceResponseDataStoreCurrentDown then
          Option.map (fun r =>
            { r with CurrentDown := mapGetD b.serviceResponseDataStoreCurrentDown k 0 })
        else id)
        ((if k ∈ mapKeys b.monitors then
          Option.map (fun r =>
            LoadStats.refreshed r ((mapGet b.monitors k).getD r.Monitor)
              ((mapGet b.serviceStatusToday k).getD TodayStatsOfMonitor.zero))
        else id) (mapGet b.monthlyStatus k))) := by
  obtain ⟨s1, h1, hP1, hv1⟩ := loopM_keyed LoadStats.refreshDay
    (fun s k => mapGet s.monthlyStatus k)
    (fun k => Option.map (fun r =>
      LoadStats.refreshed r ((mapGet b.monitors k).getD r.Monitor)
        ((mapGet b.serviceStatusToday k).getD TodayStatsOfMonitor.zero)))
    (MonthlyOnly b) (mapKeys b.monitors)
    (fun s k hk hP => refreshDay_step b hinv s k hk hP) (mapKeys_nodup _) b (MonthlyOnly_refl b)
  obtain ⟨s2, h2, hP2, hv2⟩ := loopM_keyed LoadStats.copyDown
    (fun s k => mapGet s.monthlyStatus k)
    (fun k => Option.map (fun r =>
      { r with CurrentDown := mapGetD b.serviceResponseDataStoreCurrentDown k 0 }))
    (MonthlyOnly b) (mapKeys b.serviceResponseDataStoreCurrentDown)
    (fun s k hk hP => copyDown_step b hinv s k hk hP) (mapKeys_nodup _) s1 hP1
  obtain ⟨s3, h3, hP3, hv3⟩ := loopM_keyed LoadStats.copyUp
    (fun s k => mapGet s.monthlyStatus k)
    (fun k => Option.map (fun r =>
      { r with CurrentUp := mapGetD b.serviceResponseDataStoreCurrentUp k 0 }))
    (MonthlyOnly b) (mapKeys b.serviceResponseDataStoreCurrentUp)
    (fun s k hk hP => copyUp_step b hinv s k hk hP) (mapKeys_nodup _) s2 hP2
  obtain ⟨_, _, _, hcd⟩ := MonthlyOnly_fields b s1 hP1
  obtain ⟨_, _, hcu, _⟩ := MonthlyOnly_fields b s2 hP2
  refine ⟨s3, ?_, hP3, fun k => ?_⟩
  · simp only [LoadStats, h1, hcd, h2, hcu, h3]
  · have a1 := hv1 k
    have a2 := hv2 k
    have a3 := hv3 k
    simp only at a1 a2 a3
    rw [a3, a2, a1]
    split_ifs <;> rfl

theorem wrapU64_refresh_again (T : Int) (x : Int) :
    wrapU64 ((wrapU64 ((wrapU64 T : Int) - wrapU64 x) : Int) + wrapU64 x) = wrapU64 T := by
  apply Int.ofNat_inj.mp
  simp only [wrapU64_cast]
  omega

theorem refreshed_again (r : ServiceItemResponse) (m : Monitor) (t : TodayStatsOfMonitor)
    (a c : Nat) :
    LoadStats.refreshed { LoadStats.refreshed r m t with CurrentUp := a, CurrentDown := c } m t =
      { LoadStats.refreshed r m t with CurrentUp := a, CurrentDown := c } := by
  simp only [LoadStats.refreshed, ServiceItemResponse.mk.injEq, true_and]
  have hu : (r.Up.set 29 t.Up).get 29 0 = t.Up := Array30.get_set_self _ _ _ _ (by decide)
  have hd : (r.Down.set 29 t.Down).get 29 0 = t.Down :=
    Array30.get_set_self _ _ _ _ (by decide)
  have hl : (r.Delay.set 29 t.Delay).get 29 0 = t.Delay :=
    Array30.get_set_self _ _ _ _ (by decide)
  rw [hu, hd]
  exact ⟨wrapU64_refresh_again _ _, wrapU64_refresh_again _ _,
    Array30.set_same _ _ _ 0 hl, Array30.set_same _ _ _ 0 hu, Array30.set_same _ _ _ 0 hd⟩

/-- The response of a registered monitor after `LoadStats`: the body of the first loop
applied to the old response, with the stored window counters. -/
theorem LoadStats_entry (ss ss' : ServiceSentinel) (hresp : ResponseInv ss)
    (hall : ∀ k, mapGet ss'.monthlyStatus k =
        (if k ∈ mapKeys ss.serviceResponseDataStoreCurrentUp then
          Option.map (fun r =>
            { r with CurrentUp := mapGetD ss.serviceResponseDataStoreCurrentUp k 0 })
        else id)
        ((if k ∈ mapKeys ss.serviceResponseDataStoreCurrentDown then
          Option.map (fun r =>
            { r with CurrentDown := mapGetD ss.serviceResponseDataStoreCurrentDown k 0 })
        else id)
        ((if k ∈ mapKeys ss.monitors then
          Option.map (fun r =>
            LoadStats.refreshed r ((mapGet ss.monitors k).getD r.Monitor)
              ((mapGet ss.serviceStatusToday k).getD TodayStatsOfMonitor.zero))
        else id) (mapGet ss.monthlyStatus k))))
    (k : Nat) (m : Monitor) (t : TodayStatsOfMonitor) (r : ServiceItemResponse)
    (hm : mapGet ss.monitors k = some m) (ht : mapGet ss.serviceStatusToday k = some t)
    (hr : mapGet ss.monthlyStatus k = some r) :
    mapGet ss'.monthlyStatus k =
      some { LoadStats.refreshed r m t with
             CurrentUp := mapGetD ss.serviceResponseDataStoreCurrentUp k 0,
             CurrentDown := mapGetD ss.serviceResponseDataStoreCurrentDown k 0 } := by
  have hk : k ∈ mapKeys ss.monitors := by
    rw [mem_mapKeys, hm]; exact Option.some_ne_none _
  obtain ⟨hcu, hcd⟩ := hresp k r hr
  rw [hall k, if_pos hk, hr, hm, ht]
  simp only [Option.map_some', Option.getD_some]
  by_cases h3 : k ∈ mapKeys ss.serviceResponseDataStoreCurrentUp <;>
    by_cases h2 : k ∈ mapKeys ss.serviceResponseDataStoreCurrentDown
  · rw [if_pos h3, if_pos h2]
    rfl
  · rw [if_pos h3, if_neg h2]
    rw [mem_mapKeys, not_not] at h2
    simp only [id, Option.map_some', mapGetD, h2, Option.getD_none]
    rw [← hcd h2]
    rfl
  · rw [if_neg h3, if_pos h2]
    rw [mem_mapKeys, not_not] at h3
    simp only [id, Option.map_some', mapGetD, h3, Option.getD_none]
    rw [← hcu h3]
    rfl
  · rw [if_neg h3, if_neg h2]
    rw [mem_mapKeys, not_not] at h3 h2
    have e1 := hcu h3
    have e2 := hcd h2
    simp only [id, mapGetD, h3, h2, Option.getD_none]
    simp [LoadStats.refreshed, e1, e2]

theorem refreshDay_fixed (s : ServiceSentinel) (k : Nat) (m : Monitor)
    (t : TodayStatsOfMonitor) (r : ServiceItemResponse) (hm : mapGet s.monitors k = some m)
    (ht : mapGet s.serviceStatusToday k = some t) (hr : mapGet s.monthlyStatus k = some r)
    (hfix : LoadStats.refreshed r m t = r) : LoadStats.refreshDay s k = some s := by
  have hset : mapSet s.monthlyStatus k (LoadStats.refreshed r m t) = s.monthlyStatus :=
    mapSet_same _ _ _ (by rw [hfix]; exact hr)
  simp only [LoadStats.refreshDay, hr, hm, ht]
  show some { s with monthlyStatus := mapSet s.monthlyStatus k (LoadStats.refreshed r m t) } =
    some s
  rw [hset]

theorem copyDown_fixed (s : ServiceSentinel) (k : Nat) (r : ServiceItemResponse)
    (hr : mapGet s.monthlyStatus k = some r)
    (hfix : r.CurrentDown = mapGetD s.serviceResponseDataStoreCurrentDown k 0) :
    LoadStats.copyDown s k = some s := by
  have hset : mapSet s.monthlyStatus k
      { r with CurrentDown := mapGetD s.serviceResponseDataStoreCurrentDown k 0 } =
        s.monthlyStatus :=
    mapSet_same _ _ _ (by rw [← hfix]; exact hr)
  simp only [LoadStats.copyDown, hr]
  rw [hset]

theorem copyUp_fixed (s : ServiceSentinel) (k : Nat) (r : ServiceItemResponse)
    (hr : mapGet s.monthlyStatus k = some r)
    (hfix : r.CurrentUp = mapGetD s.serviceResponseDataStoreCurrentUp k 0) :
    LoadStats.copyUp s k = some s := by
  have hset : mapSet s.monthlyStatus k
      { r with CurrentUp := mapGetD s.serviceResponseDataStoreCurrentUp k 0 } =
        s.monthlyStatus :=
    mapSet_same _ _ _ (by rw [← hfix]; exact hr)
  simp only [LoadStats.copyUp, hr]
  rw [hset]

/-- Under the consistency of the maps, `LoadStats` returns, changes nothing but the
monthly responses, and gives every registered monitor the response
`LoadStats.refreshed r m t` with the stored window counters copied in. -/
theorem LoadStats_total (ss : ServiceSentinel) (hinv : SentinelInv ss)
    (hresp : ResponseInv ss) :
    ∃ ss', LoadStats ss = some ss' ∧ MonthlyOnly ss ss' ∧
      ∀ k m t r, mapGet ss.monitors k = some m → mapGet ss.serviceStatusToday k = some t →
        mapGet ss.monthlyStatus k = some r →
        mapGet ss'.monthlyStatus k =
          some { LoadStats.refreshed r m t with
                 CurrentUp := mapGetD ss.serviceResponseDataStoreCurrentUp k 0,
                 CurrentDown := mapGetD ss.serviceResponseDataStoreCurrentDown k 0 } := by
  obtain ⟨ss', hrun, hP, hall⟩ := LoadStats_monthly ss hinv
  exact ⟨ss', hrun, hP, fun k m t r hm ht hr => LoadStats_entry ss ss' hresp hall k m t r hm ht hr⟩

theorem registered_entries (ss : ServiceSentinel) (hinv : SentinelInv ss) (k : Nat)
    (hk : mapGet ss.monitors k ≠ none) :
    ∃ m t r, mapGet ss.monitors k = some m ∧ mapGet ss.serviceStatusToday k = some t ∧
      mapGet ss.monthlyStatus k = some r := by
  obtain ⟨ht, hr, _⟩ := hinv.1 k hk
  obtain ⟨m, hm⟩ := Option.ne_none_iff_exists'.mp hk
  obtain ⟨t, ht⟩ := Option.ne_none_iff_exists'.mp ht
  obtain ⟨r, hr⟩ := Option.ne_none_iff_exists'.mp hr
  exact ⟨m, t, r, hm, ht, hr⟩

/-- After `LoadStats`, a second `LoadStats` returns the state it is given. -/
theorem LoadStats_again (ss ss' : ServiceSentinel) (hinv : SentinelInv ss)
    (hP : MonthlyOnly ss ss')
    (hent : ∀ k m t r, mapGet ss.monitors k = some m → mapGet ss.serviceStatusToday k = some t →
        mapGet ss.monthlyStatus k = some r →
        mapGet ss'.monthlyStatus k =
          some { LoadStats.refreshed r m t with
                 CurrentUp := mapGetD ss.serviceResponseDataStoreCurrentUp k 0,
                 CurrentDown := mapGetD ss.serviceResponseDataStoreCurrentDown k 0 }) :
    LoadStats ss' = some ss' := by
  obtain ⟨hmon, htod, hcu, hcd⟩ := MonthlyOnly_fields ss ss' hP
  have h1 : loopM LoadStats.refreshDay (mapKeys ss'.monitors) ss' = some ss' := by
    apply loopM_fixed
    intro k hk
    rw [hmon, mem_mapKeys] at hk
    obtain ⟨m, t, r, hm, ht, hr⟩ := registered_entries ss hinv k hk
    exact refreshDay_fixed ss' k m t _ (by rw [hmon]; exact hm) (by rw [htod]; exact ht)
      (hent k m t r hm ht hr) (refreshed_again r m t _ _)
  have h2 : loopM LoadStats.copyDown (mapKeys ss'.serviceResponseDataStoreCurrentDown) ss' =
      some ss' := by
    apply loopM_fixed
    intro k hk
    rw [hcd, mem_mapKeys] at hk
    have hreg : mapGet ss.monitors k ≠ none := fun h => hk (hinv.2 k h).2.2.1
    obtain ⟨m, t, r, hm, ht, hr⟩ := registered_entries ss hinv k hreg
    exact copyDown_fixed ss' k _ (hent k m t r hm ht hr) (by rw [hcd])
  have h3 : loopM LoadStats.copyUp (mapKeys ss'.serviceResponseDataStoreCurrentUp) ss' =
      some ss' := by
    apply loopM_fixed
    intro k hk
    rw [hcu, mem_mapKeys] at hk
    have hreg : mapGet ss.monitors k ≠ none := fun h => hk (hinv.2 k h).2.1
    obtain ⟨m, t, r, hm, ht, hr⟩ := registered_entries ss hinv k hreg
    exact copyUp_fixed ss' k _ (hent k m t r hm ht hr) (by rw [hcu])
  simp only [LoadStats, h1, h2, h3]

/-- C13: for every sentinel state that satisfies the consistency of the maps (as every
state after startup does), `LoadStats` returns a state that differs from the old one only
in the monthly responses; for every registered monitor with today counters `t` and old
response `r`, the new response has `up[29] = t.up`, `down[29] = t.down`,
`delay[29] = t.delay` (hence `up[29] + down[29] = t.up + t.down`), `current_up` and
`current_down` equal to the stored window counters, buckets 0..28 unchanged, and
`total_up` / `total_down` changed by exactly `t.up - r.up[29]` / `t.down - r.down[29]` in
`uint64` arithmetic; and `LoadStats` on the returned state returns that same state. -/
theorem LoadStats_refreshes_last_day (ss : ServiceSentinel) (hinv : SentinelInv ss)
    (hresp : ResponseInv ss) :
    ∃ ss', LoadStats ss = some ss' ∧
      { ss' with monthlyStatus := ss.monthlyStatus } = ss ∧
      (∀ k m t r, mapGet ss.monitors k = some m → mapGet ss.serviceStatusToday k = some t →
        mapGet ss.monthlyStatus k = some r →
        ∃ r', mapGet ss'.monthlyStatus k = some r' ∧
          r'.Up.get 29 0 = t.Up ∧ r'.Down.get 29 0 = t.Down ∧ r'.Delay.get 29 0 = t.Delay ∧
          r'.Up.get 29 0 + r'.Down.get 29 0 = t.Up + t.Down ∧
          r'.CurrentUp = mapGetD ss.serviceResponseDataStoreCurrentUp k 0 ∧
          r'.CurrentDown = mapGetD ss.serviceResponseDataStoreCurrentDown k 0 ∧
          (∀ i, i < 29 → r'.Up.get i 0 = r.Up.get i 0 ∧ r'.Down.get i 0 = r.Down.get i 0 ∧
            r'.Delay.get i 0 = r.Delay.get i 0) ∧
          (r'.TotalUp : Int) = ((r.TotalUp : Int) + (t.Up - r.Up.get 29 0)) % 2 ^ 64 ∧
          (r'.TotalDown : Int) = ((r.TotalDown : Int) + (t.Down - r.Down.get 29 0)) % 2 ^ 64 ∧
          r'.Monitor = m) ∧
      (∀ k, mapGet ss.monitors k = none → mapGet ss'.monthlyStatus k = none) ∧
      LoadStats ss' = some ss' := by
  obtain ⟨ss', hrun, hP, hent⟩ := LoadStats_total ss hinv hresp
  refine ⟨ss', hrun, hP.1, ?_, ?_, LoadStats_again ss ss' hinv hP hent⟩
  · intro k m t r hm ht hr
    refine ⟨_, hent k m t r hm ht hr, ?_⟩
    have hu : (r.Up.set 29 t.Up).get 29 0 = t.Up := Array30.get_set_self _ _ _ _ (by decide)
    have hd : (r.Down.set 29 t.Down).get 29 0 = t.Down :=
      Array30.get_set_self _ _ _ _ (by decide)
    have hl : (r.Delay.set 29 t.Delay).get 29 0 = t.Delay :=
      Array30.get_set_self _ _ _ _ (by decide)
    refine ⟨hu, hd, hl, congrArg₂ (fun x y => x + y) hu hd, rfl, rfl, ?_, ?_, ?_, rfl⟩
    · intro i hi
      have hne : 29 ≠ i := by omega
      exact ⟨Array30.get_set_ne _ _ _ _ _ hne, Array30.get_set_ne _ _ _ _ _ hne,
        Array30.get_set_ne _ _ _ _ _ hne⟩
    · simp only [LoadStats.refreshed, wrapU64_cast]
      omega
    · simp only [LoadStats.refreshed, wrapU64_cast]
      omega
  · intro k hk
    rw [hP.2 k]
    exact (hinv.2 k hk).2.2.2

/-! ## Window counters of the monthly responses -/

theorem FreshCounters_register (accepts : String → Bool) (acc : World × List Monitor)
    (m : Monitor) (acc' : World × List Monitor)
    (h : loadMonitorHistory.register accepts acc m = some acc')
    (hinv : FreshCounters acc.1.ss) : FreshCounters acc'.1.ss := by
  unfold loadMonitorHistory.register at h
  simp only at h
  split at h
  · cases h
  · simp only [Option.some.injEq] at h
    subst h
    exact hinv

theorem FreshCounters_initMonthly (ss : ServiceSentinel) (m : Monitor) (ss' : ServiceSentinel)
    (h : loadMonitorHistory.initMonthly ss m = some ss') (hinv : FreshCounters ss) :
    FreshCounters ss' := by
  simp only [loadMonitorHistory.initMonthly, Option.some.injEq] at h
  subst h
  exact mapGet_mapSet_all (fun r : ServiceItemResponse => r.CurrentUp = 0 ∧ r.CurrentDown = 0) _ _ _ hinv ⟨rfl, rfl⟩

theorem FreshCounters_addRow (today : Int) (ss : ServiceSentinel) (mh : MonitorHistory)
    (ss' : ServiceSentinel) (h : loadMonitorHistory.addRow today ss mh = some ss')
    (hinv : FreshCounters ss) : FreshCounters ss' := by
  unfold loadMonitorHistory.addRow at h
  cases hr : mapGet ss.monthlyStatus mh.MonitorID with
  | none => rw [hr] at h; simp at h
  | some r =>
    rw [hr] at h
    simp only at h
    split_ifs at h with hrange hs
    · simp only [Option.some.injEq] at h
      subst h
      exact mapGet_mapSet_all (fun r : ServiceItemResponse => r.CurrentUp = 0 ∧ r.CurrentDown = 0) _ _ _ hinv
        (hinv _ r hr)
    · simp only [Option.some.injEq] at h
      subst h
      exact mapGet_mapSet_all (fun r : ServiceItemResponse => r.CurrentUp = 0 ∧ r.CurrentDown = 0) _ _ _ hinv
        (hinv _ r hr)

theorem FreshCounters_countRow (acc : ServiceSentinel × GoMap ℚ) (mh : MonitorHistory)
    (acc' : ServiceSentinel × GoMap ℚ) (h : NewServiceSentinel.countRow acc mh = some acc')
    (hinv : FreshCounters acc.1) : FreshCounters acc'.1 := by
  unfold NewServiceSentinel.countRow at h
  cases ht : mapGet acc.1.serviceStatusToday mh.MonitorID with
  | none => rw [ht] at h; simp at h
  | some t =>
    cases hr : mapGet acc.1.monthlyStatus mh.MonitorID with
    | none => rw [ht, hr] at h; simp at h
    | some r =>
      rw [ht, hr] at h
      simp only at h
      split_ifs at h
      all_goals
        simp only [Option.some.injEq] at h
        subst h
        exact mapGet_mapSet_all (fun r : ServiceItemResponse => r.CurrentUp = 0 ∧ r.CurrentDown = 0) _ _ _ hinv
          (hinv _ r hr)

theorem FreshCounters_meanDelay (totalDelay : GoMap ℚ) (ss : ServiceSentinel) (id : Nat)
    (ss' : ServiceSentinel) (h : NewServiceSentinel.meanDelay totalDelay ss id = some ss')
    (hinv : FreshCounters ss) : FreshCounters ss' := by
  unfold NewServiceSentinel.meanDelay at h
  cases ht : mapGet ss.serviceStatusToday id with
  | none => rw [ht] at h; simp at h
  | some t =>
    rw [ht] at h
    simp only [Option.some.injEq] at h
    subst h
    exact hinv

theorem FreshCounters_loadMonitorHistory (accepts : String → Bool) (today : Int) (w w' : World)
    (hw : w.ss = ServiceSentinel.empty) (h : loadMonitorHistory accepts today w = some w') :
    FreshCounters w'.ss := by
  unfold loadMonitorHistory at h
  cases h1 : loopM (loadMonitorHistory.register accepts) w.db.monitors (w, []) with
  | none => rw [h1] at h; simp at h
  | some acc =>
    obtain ⟨w1, monitors⟩ := acc
    rw [h1] at h
    simp only at h
    cases h2 : loopM loadMonitorHistory.initMonthly monitors w1.ss with
    | none => rw [h2] at h; simp at h
    | some ss2 =>
      rw [h2] at h
      simp only at h
      split at h
      · cases h
      · rename_i ss3 h3
        simp only [Option.some.injEq] at h
        subst h
        have k1 := loopM_inv _ (fun a : World × List Monitor => FreshCounters a.1.ss)
          (FreshCounters_register accepts) _ _ _ h1
          (by intro k r hk; rw [hw] at hk; simp [ServiceSentinel.empty, mapGet] at hk)
        have k2 := loopM_inv _ FreshCounters FreshCounters_initMonthly _ _ _ h2 k1
        exact loopM_inv _ FreshCounters (FreshCounters_addRow today) _ _ _ h3 k2

theorem FreshCounters_NewServiceSentinel (accepts : String → Bool) (today : Int)
    (cron : CronState) (db : Database) (w : World) (servers : GoMap String)
    (h : NewServiceSentinel accepts today cron db servers = some w) : FreshCounters w.ss := by
  unfold NewServiceSentinel at h
  split at h
  · cases h
  · rename_i w1 h1
    try simp only at h
    split at h
    · cases h
    · rename_i ss2 totalDelay h2
      try simp only at h
      split at h
      · cases h
      · rename_i ss3 h3
        try simp only at h
        split at h
        · cases h
        · simp only [Option.some.injEq] at h
          subst h
          have i1 := FreshCounters_loadMonitorHistory accepts today _ w1 rfl h1
          have i2 := loopM_inv NewServiceSentinel.countRow
            (fun a : ServiceSentinel × GoMap ℚ => FreshCounters a.1) FreshCounters_countRow
            _ _ _ h2 i1
          exact loopM_inv _ FreshCounters (FreshCounters_meanDelay totalDelay) _ _ _ h3 i2

theorem mapGet_mapSet_none {α : Type} (m : GoMap α) (k k' : Nat) (v : α)
    (h : mapGet (mapSet m k v) k' = none) : mapGet m k' = none ∧ k' ≠ k := by
  by_cases hk : k' = k
  · subst hk
    rw [mapGet_mapSet_self] at h
    cases h
  · rw [mapGet_mapSet_ne _ _ _ _ hk] at h
    exact ⟨h, hk⟩

theorem ResponseInv_workerCommit (parseTime : String → Option Int) (now : Int) (w : World)
    (m : Monitor) (t : TodayStatsOfMonitor) (ring : List MonitorHistory) (idx : Int)
    (mh : MonitorHistory) (hinv : ResponseInv w.ss) :
    ResponseInv (workerCommit parseTime now w m t ring idx mh).ss := by
  intro k r hk
  obtain ⟨hu, hd⟩ := hinv k r hk
  exact ⟨fun h => hu (mapGet_mapSet_none _ _ _ _ h).1, fun h => hd (mapGet_mapSet_none _ _ _ _ h).1⟩

theorem ResponseInv_LoadStats (ss ss' : ServiceSentinel) (h : LoadStats ss = some ss')
    (hinv : SentinelInv ss) (hresp : ResponseInv ss) : ResponseInv ss' := by
  obtain ⟨s, hrun, hP, hent⟩ := LoadStats_total ss hinv hresp
  rw [h] at hrun
  cases hrun
  obtain ⟨_, _, hcu, hcd⟩ := MonthlyOnly_fields ss ss' hP
  intro k r hk
  have hreg : mapGet ss.monitors k ≠ none := by
    intro hnone
    have := (hP.2 k).mpr (hinv.2 k hnone).2.2.2
    rw [hk] at this
    cases this
  obtain ⟨m, t, r0, hm, ht, hr⟩ := registered_entries ss hinv k hreg
  rw [hent k m t r0 hm ht hr] at hk
  cases hk
  rw [hcu, hcd]
  exact ⟨fun h => by simp [mapGetD, h], fun h => by simp [mapGetD, h]⟩

theorem ResponseInv_roll (ss : ServiceSentinel) (k : Nat) (ss' : ServiceSentinel)
    (h : refreshMonthlyServiceStatus.roll ss k = some ss') (hinv : ResponseInv ss) :
    ResponseInv ss' := by
  unfold refreshMonthlyServiceStatus.roll at h
  cases hr : mapGet ss.monthlyStatus k with
  | none => rw [hr] at h; simp at h
  | some r =>
    cases ht : mapGet ss.serviceStatusToday k with
    | none => rw [hr, ht] at h; simp at h
    | some t =>
      rw [hr, ht] at h
      simp only [Option.some.injEq] at h
      subst h
      intro k' r' hk'
      constructor
      · intro hnone
        obtain ⟨hnone', hne⟩ := mapGet_mapSet_none _ _ _ _ hnone
        have hk0 : mapGet ss.monthlyStatus k' = some r' := by
          have := hk'
          simp only at this
          rw [mapGet_mapSet_ne _ _ _ _ hne] at this
          exact this
        exact (hinv k' r' hk0).1 hnone'
      · intro hnone
        obtain ⟨hnone', hne⟩ := mapGet_mapSet_none _ _ _ _ hnone
        have hk0 : mapGet ss.monthlyStatus k' = some r' := by
          have := hk'
          simp only at this
          rw [mapGet_mapSet_ne _ _ _ _ hne] at this
          exact this
        exact (hinv k' r' hk0).2 hnone'

theorem ResponseInv_apply (accepts : String → Bool) (parseTime : String → Option Int)
    (w : World) (e : Event) (w' : World) (h : e.apply accepts parseTime w = some w')
    (hsen : SentinelInv w.ss) (hinv : ResponseInv w.ss) : ResponseInv w'.ss := by
  cases e with
  | report now r =>
    rcases workerStep_cases parseTime now w w' r h with ⟨_, hsame⟩ | ⟨m, t, _, _, _, _, _, hw'⟩
    · rw [hsame]; exact hinv
    · rw [hw']; exact ResponseInv_workerCommit _ _ _ _ _ _ _ _ hinv
  | loadStats =>
    simp only [Event.apply, Option.map_eq_some'] at h
    obtain ⟨ss', hls, hw'⟩ := h
    rw [← hw']
    exact ResponseInv_LoadStats _ _ hls hsen hinv
  | dailyRoll =>
    simp only [Event.apply, Option.map_eq_some'] at h
    obtain ⟨ss', hls, hw'⟩ := h
    rw [← hw']
    unfold refreshMonthlyServiceStatus at hls
    cases h1 : LoadStats w.ss with
    | none => rw [h1] at hls; simp at hls
    | some ss1 =>
      rw [h1] at hls
      simp only at hls
      exact loopM_inv _ ResponseInv ResponseInv_roll _ _ _ hls
        (ResponseInv_LoadStats _ _ h1 hsen hinv)
  | monitorUpdate m =>
    simp only [Event.apply, Option.some.injEq] at h
    rw [← h]
    unfold OnMonitorUpdate
    split
    · exact hinv
    · split
      · exact hinv
      · rename_i hnone
        intro k r hk
        by_cases hkid : k = m.ID
        · subst hkid
          have : mapGet (mapSet w.ss.monthlyStatus m.ID
              (ServiceItemResponse.fresh { m with CronJobID := _ })) m.ID = some r := hk
          rw [mapGet_mapSet_self] at this
          cases this
          exact ⟨fun _ => rfl, fun _ => rfl⟩
        · have : mapGet (mapSet w.ss.monthlyStatus m.ID
              (ServiceItemResponse.fresh { m with CronJobID := _ })) k = some r := hk
          rw [mapGet_mapSet_ne _ _ _ _ hkid] at this
          exact hinv k r this
  | monitorDelete id =>
    simp only [Event.apply, OnMonitorDelete] at h
    split at h
    · cases h
    · simp only [Option.some.injEq] at h
      rw [← h]
      intro k r hk
      by_cases hkid : k = id
      · subst hkid
        simp [OnMonitorDelete.purge, mapGet_mapDelete_self] at hk
      · simp only [OnMonitorDelete.purge, mapGet_mapDelete_ne _ _ _ hkid] at hk ⊢
        exact hinv k r hk

/-- Every state reached from startup keeps, in each monthly response whose monitor has
no stored window counter, the counter 0. -/
theorem ResponseInv_of_reachable (accepts : String → Bool) (parseTime : String → Option Int)
    (w : World) (h : Reachable accepts parseTime w) : ResponseInv w.ss := by
  induction h with
  | startup today cron db servers w h =>
    intro k r hk
    obtain ⟨a, b⟩ := FreshCounters_NewServiceSentinel accepts today cron db w servers h k r hk
    exact ⟨fun _ => a, fun _ => b⟩
  | step w w' e hw happ ih =>
    exact ResponseInv_apply accepts parseTime w e w' happ
      (SentinelInv_of_reachable accepts parseTime w hw) ih

theorem reportedWorld_reachable : Reachable acceptAll parseNothing reportedWorld :=
  Reachable.step startedWorld reportedWorld (Event.report 0 (sampleReport 1 true 50))
    startedWorld_reachable (by decide!)

/-- C13 at the state after startup with the sample monitor and one successful report:
`LoadStats` returns, bucket 29 of monitor 1 then holds today's one success, and a second
`LoadStats` returns the same state. -/
theorem LoadStats_refreshes_last_day_witness :
    SentinelInv reportedWorld.ss ∧ ResponseInv reportedWorld.ss ∧
    (LoadStats reportedWorld.ss).map
      (fun s => (mapGet s.monthlyStatus 1).map
        (fun r => (r.Up.get 29 0, r.Down.get 29 0, r.CurrentUp, r.CurrentDown, r.TotalUp))) =
      some (some (1, 0, 1, 0, 1)) ∧
    ∃ ss', LoadStats reportedWorld.ss = some ss' ∧ LoadStats ss' = some ss' :=
  ⟨SentinelInv_of_reachable acceptAll parseNothing reportedWorld reportedWorld_reachable,
    ResponseInv_of_reachable acceptAll parseNothing reportedWorld reportedWorld_reachable,
    by decide!,
    (LoadStats_refreshes_last_day reportedWorld.ss
      (SentinelInv_of_reachable acceptAll parseNothing reportedWorld reportedWorld_reachable)
      (ResponseInv_of_reachable acceptAll parseNothing reportedWorld reportedWorld_reachable)).imp
      (fun _ h => ⟨h.1, h.2.2.2.2⟩)⟩

/-! ## Daily Roll: result -/

theorem getD_tail {α : Type} (l : List α) (i : Nat) (d : α) :
    l.tail.getD i d = l.getD (i + 1) d := by
  cases l with
  | nil => simp
  | cons a l => simp

theorem rolled_vals {α : Type} (l : List α) (d z : α) (h : l.length = 30) :
    (∀ i, i ≤ 28 → ((l.tail ++ [l.getD 29 d]).set 29 z).getD i d = l.getD (i + 1) d) ∧
    ((l.tail ++ [l.getD 29 d]).set 29 z).getD 29 d = z := by
  have hlen : (l.tail ++ [l.getD 29 d]).length = 30 := by simp [h]
  constructor
  · intro i hi
    rw [getD_set_eq, if_neg (by omega), List.getD_eq_getElem?_getD,
      List.getElem?_append_left (by simp [h]; omega), ← List.getD_eq_getElem?_getD, getD_tail]
  · rw [getD_set_eq, if_pos ⟨rfl, by rw [hlen]; decide⟩]

/-- The response written by the Daily Roll: buckets 0..28 hold the old buckets 1..29,
bucket 29 is zero, bucket 0 has left the totals, the window counters and the monitor are
kept. -/
theorem rolled_spec (v : ServiceItemResponse) :
    (∀ i, i ≤ 28 →
      (refreshMonthlyServiceStatus.rolled v).Up.get i 0 = v.Up.get (i + 1) 0 ∧
      (refreshMonthlyServiceStatus.rolled v).Down.get i 0 = v.Down.get (i + 1) 0 ∧
      (refreshMonthlyServiceStatus.rolled v).Delay.get i 0 = v.Delay.get (i + 1) 0) ∧
    (refreshMonthlyServiceStatus.rolled v).Up.get 29 0 = 0 ∧
    (refreshMonthlyServiceStatus.rolled v).Down.get 29 0 = 0 ∧
    (refreshMonthlyServiceStatus.rolled v).Delay.get 29 0 = 0 ∧
    (refreshMonthlyServiceStatus.rolled v).TotalUp =
      wrapU64 ((v.TotalUp : Int) - wrapU64 (v.Up.get 0 0)) ∧
    (refreshMonthlyServiceStatus.rolled v).TotalDown =
      wrapU64 ((v.TotalDown : Int) - wrapU64 (v.Down.get 0 0)) ∧
    (refreshMonthlyServiceStatus.rolled v).CurrentUp = v.CurrentUp ∧
    (refreshMonthlyServiceStatus.rolled v).CurrentDown = v.CurrentDown ∧
    (refreshMonthlyServiceStatus.rolled v).Monitor = v.Monitor := by
  obtain ⟨su, sd, sl, tu, td, cu, cd, mo⟩ := shift_loop v
  obtain ⟨u1, u2⟩ := rolled_vals v.Up.vals 0 0 v.Up.size
  obtain ⟨d1, d2⟩ := rolled_vals v.Down.vals 0 0 v.Down.size
  obtain ⟨l1, l2⟩ := rolled_vals v.Delay.vals 0 0 v.Delay.size
  simp only [refreshMonthlyServiceStatus.rolled, Array30.get, Array30.set, su, sd, sl]
  exact ⟨fun i hi => ⟨u1 i hi, d1 i hi, l1 i hi⟩, u2, d2, l2, tu, td, cu, cd, mo⟩

theorem roll_step (b : ServiceSentinel)
    (htoday : ∀ k, mapGet b.monthlyStatus k ≠ none → mapGet b.serviceStatusToday k ≠ none)
    (s : ServiceSentinel) (k : Nat) (hk : k ∈ mapKeys b.monthlyStatus)
    (hP : (∀ k, mapGet s.monthlyStatus k = none ↔ mapGet b.monthlyStatus k = none) ∧
      (∀ k, mapGet s.serviceStatusToday k = none ↔ mapGet b.serviceStatusToday k = none)) :
    ∃ s', refreshMonthlyServiceStatus.roll s k = some s' ∧
      ((∀ k, mapGet s'.monthlyStatus k = none ↔ mapGet b.monthlyStatus k = none) ∧
        (∀ k, mapGet s'.serviceStatusToday k = none ↔ mapGet b.serviceStatusToday k = none)) ∧
      ∀ k', (mapGet s'.monthlyStatus k', mapGet s'.serviceStatusToday k',
          mapGet s'.serviceResponseDataStoreCurrentUp k',
          mapGet s'.serviceResponseDataStoreCurrentDown k') =
        if k' = k then
          ((mapGet s.monthlyStatus k).map refreshMonthlyServiceStatus.rolled,
            (mapGet s.serviceStatusToday k).map
              (fun _ => ({ Up := 0, Down := 0, Delay := 0 } : TodayStatsOfMonitor)),
            some 0, some 0)
        else (mapGet s.monthlyStatus k', mapGet s.serviceStatusToday k',
          mapGet s.serviceResponseDataStoreCurrentUp k',
          mapGet s.serviceResponseDataStoreCurrentDown k') := by
  rw [mem_mapKeys] at hk
  have hv : mapGet s.monthlyStatus k ≠ none := fun h => hk ((hP.1 k).mp h)
  have ht : mapGet s.serviceStatusToday k ≠ none := fun h => htoday k hk ((hP.2 k).mp h)
  obtain ⟨v, hv'⟩ := Option.ne_none_iff_exists'.mp hv
  obtain ⟨t, ht'⟩ := Option.ne_none_iff_exists'.mp ht
  refine ⟨{ s with
      monthlyStatus := mapSet s.monthlyStatus k (refreshMonthlyServiceStatus.rolled v),
      serviceResponseDataStoreCurrentUp := mapSet s.serviceResponseDataStoreCurrentUp k 0,
      serviceResponseDataStoreCurrentDown := mapSet s.serviceResponseDataStoreCurrentDown k 0,
      serviceStatusToday := mapSet s.serviceStatusToday k { Up := 0, Down := 0, Delay := 0 } },
    ?_, ⟨fun k' => ?_, fun k' => ?_⟩, fun k' => ?_⟩
  · simp only [refreshMonthlyServiceStatus.roll, hv', ht']
    rfl
  · exact (mapGet_set_none_iff _ _ _ _ hv).trans (hP.1 k')
  · exact (mapGet_set_none_iff _ _ _ _ ht).trans (hP.2 k')
  · by_cases h : k' = k
    · subst h
      simp only [mapGet_mapSet_self, if_true, hv', ht', Option.map_some']
    · simp only [mapGet_mapSet_ne _ _ _ _ h, if_neg h]

theorem rolled_after_refresh (v r : ServiceItemResponse) (t : TodayStatsOfMonitor)
    (hU : v.Up = r.Up.set 29 t.Up) (hD : v.Down = r.Down.set 29 t.Down)
    (hL : v.Delay = r.Delay.set 29 t.Delay)
    (hTU : v.TotalUp =
      wrapU64 ((wrapU64 ((r.TotalUp : Int) - wrapU64 (r.Up.get 29 0)) : Int) + wrapU64 t.Up))
    (hTD : v.TotalDown =
      wrapU64 ((wrapU64 ((r.TotalDown : Int) - wrapU64 (r.Down.get 29 0)) : Int) +
        wrapU64 t.Down)) :
    (∀ i, i ≤ 27 →
      (refreshMonthlyServiceStatus.rolled v).Up.get i 0 = r.Up.get (i + 1) 0 ∧
      (refreshMonthlyServiceStatus.rolled v).Down.get i 0 = r.Down.get (i + 1) 0 ∧
      (refreshMonthlyServiceStatus.rolled v).Delay.get i 0 = r.Delay.get (i + 1) 0) ∧
    (refreshMonthlyServiceStatus.rolled v).Up.get 28 0 = t.Up ∧
    (refreshMonthlyServiceStatus.rolled v).Down.get 28 0 = t.Down ∧
    (refreshMonthlyServiceStatus.rolled v).Delay.get 28 0 = t.Delay ∧
    (refreshMonthlyServiceStatus.rolled v).Up.get 29 0 = 0 ∧
    (refreshMonthlyServiceStatus.rolled v).Down.get 29 0 = 0 ∧
    (refreshMonthlyServiceStatus.rolled v).Delay.get 29 0 = 0 ∧
    ((refreshMonthlyServiceStatus.rolled v).TotalUp : Int) =
      (((r.TotalUp : Int) + (t.Up - r.Up.get 29 0)) % 2 ^ 64 - r.Up.get 0 0) % 2 ^ 64 ∧
    ((refreshMonthlyServiceStatus.rolled v).TotalDown : Int) =
      (((r.TotalDown : Int) + (t.Down - r.Down.get 29 0)) % 2 ^ 64 - r.Down.get 0 0) %
        2 ^ 64 := by
  obtain ⟨b1, b2, b3, b4, b5, b6, _, _, _⟩ := rolled_spec v
  have hu : (r.Up.set 29 t.Up).get 29 0 = t.Up := Array30.get_set_self _ _ _ _ (by decide)
  have hd : (r.Down.set 29 t.Down).get 29 0 = t.Down :=
    Array30.get_set_self _ _ _ _ (by decide)
  have hl : (r.Delay.set 29 t.Delay).get 29 0 = t.Delay :=
    Array30.get_set_self _ _ _ _ (by decide)
  have hu0 : (r.Up.set 29 t.Up).get 0 0 = r.Up.get 0 0 :=
    Array30.get_set_ne _ _ _ _ _ (by decide)
  have hd0 : (r.Down.set 29 t.Down).get 0 0 = r.Down.get 0 0 :=
    Array30.get_set_ne _ _ _ _ _ (by decide)
  obtain ⟨c28u, c28d, c28l⟩ := b1 28 (by decide)
  rw [hU, hu] at c28u
  rw [hD, hd] at c28d
  rw [hL, hl] at c28l
  rw [hTU, hU, hu0] at b5
  rw [hTD, hD, hd0] at b6
  refine ⟨?_, c28u, c28d, c28l, b2, b3, b4, ?_, ?_⟩
  · intro i hi
    obtain ⟨x1, x2, x3⟩ := b1 i (by omega)
    have hne : 29 ≠ i + 1 := by omega
    rw [hU, Array30.get_set_ne _ _ _ _ _ hne] at x1
    rw [hD, Array30.get_set_ne _ _ _ _ _ hne] at x2
    rw [hL, Array30.get_set_ne _ _ _ _ _ hne] at x3
    exact ⟨x1, x2, x3⟩
  · rw [b5]
    simp only [wrapU64_cast]
    omega
  · rw [b6]
    simp only [wrapU64_cast]
    omega

/-- The response of a registered monitor after `LoadStats`, as far as the Daily Roll reads
it: buckets and totals are those written by the body of the first loop. -/
theorem LoadStats_buckets (ss : ServiceSentinel) (hinv : SentinelInv ss) :
    ∃ ss', LoadStats ss = some ss' ∧ MonthlyOnly ss ss' ∧
      ∀ k m t r, mapGet ss.monitors k = some m → mapGet ss.serviceStatusToday k = some t →
        mapGet ss.monthlyStatus k = some r →
        ∃ v, mapGet ss'.monthlyStatus k = some v ∧
          v.Up = (LoadStats.refreshed r m t).Up ∧ v.Down = (LoadStats.refreshed r m t).Down ∧
          v.Delay = (LoadStats.refreshed r m t).Delay ∧
          v.TotalUp = (LoadStats.refreshed r m t).TotalUp ∧
          v.TotalDown = (LoadStats.refreshed r m t).TotalDown := by
  obtain ⟨ss', hrun, hP, hall⟩ := LoadStats_monthly ss hinv
  refine ⟨ss', hrun, hP, ?_⟩
  intro k m t r hm ht hr
  have hk : k ∈ mapKeys ss.monitors := by
    rw [mem_mapKeys, hm]; exact Option.some_ne_none _
  rw [hall k, if_pos hk, hr, hm, ht]
  simp only [Option.map_some', Option.getD_some]
  split_ifs <;> exact ⟨_, rfl, rfl, rfl, rfl, rfl, rfl⟩

/-- C12: for every sentinel state that satisfies the consistency of the maps (as every
state after startup does) the Daily Roll returns, and for every registered monitor with
today counters `t = (a, b, d)` and old response `r`: buckets `i` for `0 ≤ i ≤ 27` hold the
old buckets `i + 1`, bucket 28 holds `(a, b, d)`, bucket 29 is `(0, 0, 0)`, today's
counters and the stored `current_up` / `current_down` are 0, and `total_up` / `total_down`
are the totals after folding today's counters (`total + (t.up - r.up[29])`) minus the old
`up[0]` / `down[0]`, in `uint64` arithmetic; so with `a = 10`, `b = 2` and an all-zero
bucket 0, bucket 28 holds 10/2, bucket 29 is zero and the totals are those after the
fold. -/
theorem daily_roll_result (ss : ServiceSentinel) (hinv : SentinelInv ss) :
    ∃ ss', refreshMonthlyServiceStatus ss = some ss' ∧
      ∀ k m t r, mapGet ss.monitors k = some m → mapGet ss.serviceStatusToday k = some t →
        mapGet ss.monthlyStatus k = some r →
        ∃ r', mapGet ss'.monthlyStatus k = some r' ∧
          (∀ i, i ≤ 27 → r'.Up.get i 0 = r.Up.get (i + 1) 0 ∧
            r'.Down.get i 0 = r.Down.get (i + 1) 0 ∧
            r'.Delay.get i 0 = r.Delay.get (i + 1) 0) ∧
          r'.Up.get 28 0 = t.Up ∧ r'.Down.get 28 0 = t.Down ∧ r'.Delay.get 28 0 = t.Delay ∧
          r'.Up.get 29 0 = 0 ∧ r'.Down.get 29 0 = 0 ∧ r'.Delay.get 29 0 = 0 ∧
          mapGet ss'.serviceStatusToday k = some { Up := 0, Down := 0, Delay := 0 } ∧
          mapGet ss'.serviceResponseDataStoreCurrentUp k = some 0 ∧
          mapGet ss'.serviceResponseDataStoreCurrentDown k = some 0 ∧
          (r'.TotalUp : Int) =
            (((r.TotalUp : Int) + (t.Up - r.Up.get 29 0)) % 2 ^ 64 - r.Up.get 0 0) % 2 ^ 64 ∧
          (r'.TotalDown : Int) =
            (((r.TotalDown : Int) + (t.Down - r.Down.get 29 0)) % 2 ^ 64 - r.Down.get 0 0) %
              2 ^ 64 ∧
          (t.Up = 10 → t.Down = 2 → r.Up.get 0 0 = 0 → r.Down.get 0 0 = 0 →
            r'.Up.get 28 0 = 10 ∧ r'.Down.get 28 0 = 2 ∧
            r'.Up.get 29 0 = 0 ∧ r'.Down.get 29 0 = 0 ∧
            (r'.TotalUp : Int) = ((r.TotalUp : Int) + (10 - r.Up.get 29 0)) % 2 ^ 64 ∧
            (r'.TotalDown : Int) = ((r.TotalDown : Int) + (2 - r.Down.get 29 0)) % 2 ^ 64) := by
  obtain ⟨ss1, h1, hP, hent⟩ := LoadStats_buckets ss hinv
  have hinv1 : SentinelInv ss1 :=
    SentinelInv_of_valuesOnly _ _ (LoadStats_valuesOnly _ _ h1) hinv
  obtain ⟨_, htod, _, _⟩ := MonthlyOnly_fields ss ss1 hP
  have htoday : ∀ k, mapGet ss1.monthlyStatus k ≠ none →
      mapGet ss1.serviceStatusToday k ≠ none := by
    intro k hk
    have hreg : mapGet ss1.monitors k ≠ none := fun h => hk (hinv1.2 k h).2.2.2
    exact (hinv1.1 k hreg).1
  obtain ⟨ss2, h2, _, hv⟩ := loopM_keyed refreshMonthlyServiceStatus.roll
    (fun s k => (mapGet s.monthlyStatus k, mapGet s.serviceStatusToday k,
      mapGet s.serviceResponseDataStoreCurrentUp k,
      mapGet s.serviceResponseDataStoreCurrentDown k))
    (fun _ v => (v.1.map refreshMonthlyServiceStatus.rolled,
      v.2.1.map (fun _ => ({ Up := 0, Down := 0, Delay := 0 } : TodayStatsOfMonitor)),
      some 0, some 0))
    (fun s => (∀ k, mapGet s.monthlyStatus k = none ↔ mapGet ss1.monthlyStatus k = none) ∧
      (∀ k, mapGet s.serviceStatusToday k = none ↔ mapGet ss1.serviceStatusToday k = none))
    (mapKeys ss1.monthlyStatus) (fun s k hk hs => roll_step ss1 htoday s k hk hs)
    (mapKeys_nodup _) ss1 ⟨fun _ => Iff.rfl, fun _ => Iff.rfl⟩
  refine ⟨ss2, by simp only [refreshMonthlyServiceStatus, h1]; exact h2, ?_⟩
  intro k m t r hm ht hr
  obtain ⟨v, e, eU, eD, eL, eTU, eTD⟩ := hent k m t r hm ht hr
  have hk : k ∈ mapKeys ss1.monthlyStatus := by
    rw [mem_mapKeys, e]; exact Option.some_ne_none _
  have hvk := hv k
  rw [if_pos hk] at hvk
  simp only [e, htod, ht, Option.map_some', Prod.mk.injEq] at hvk
  obtain ⟨g1, g2, g3, g4⟩ := hvk
  obtain ⟨q1, c28u, c28d, c28l, b2, b3, b4, tu, td⟩ :=
    rolled_after_refresh v r t eU eD eL eTU eTD
  refine ⟨_, g1, q1, c28u, c28d, c28l, b2, b3, b4, g2, g3, g4, tu, td, ?_⟩
  intro ha hb h0u h0d
  rw [ha] at c28u tu
  rw [hb] at c28d td
  rw [h0u] at tu
  rw [h0d] at td
  refine ⟨c28u, c28d, b2, b3, ?_, ?_⟩
  · rw [tu]; omega
  · rw [td]; omega

/-- C12 at the state after startup with the sample monitor and one successful report with
delay 50: the Daily Roll returns; bucket 28 then holds today's `(1, 0, 50)`, bucket 29 and
today's counters are zero, the stored window counters are 0 and `total_up` is 1. -/
theorem daily_roll_result_witness :
    SentinelInv reportedWorld.ss ∧
    (refreshMonthlyServiceStatus reportedWorld.ss).map
      (fun s => (mapGet s.monthlyStatus 1).map
        (fun r => (r.Up.get 28 0, r.Down.get 28 0, r.Delay.get 28 0, r.TotalUp))) =
      some (some (1, 0, 50, 1)) ∧
    (refreshMonthlyServiceStatus reportedWorld.ss).map
      (fun s => (mapGet s.monthlyStatus 1).map
        (fun r => (r.Up.get 29 0, r.Down.get 29 0, r.Delay.get 29 0, r.TotalDown))) =
      some (some (0, 0, 0, 0)) ∧
    (refreshMonthlyServiceStatus reportedWorld.ss).map
      (fun s => ((mapGet s.serviceStatusToday 1).map (fun t => (t.Up, t.Down, t.Delay)),
        mapGet s.serviceResponseDataStoreCurrentUp 1,
        mapGet s.serviceResponseDataStoreCurrentDown 1)) =
      some (some (0, 0, 0), some 0, some 0) ∧
    ∃ ss', refreshMonthlyServiceStatus reportedWorld.ss = some ss' :=
  ⟨SentinelInv_of_reachable acceptAll parseNothing reportedWorld reportedWorld_reachable,
    by decide!, by decide!, by decide!,
    (daily_roll_result reportedWorld.ss
      (SentinelInv_of_reachable acceptAll parseNothing reportedWorld
        reportedWorld_reachable)).imp
      (fun _ h => h.1)⟩

/-! ## SSL cache of the sentinel after an accepted report -/

theorem latencyAlerts_not_changed (m : Monitor) (mh : MonitorHistory) :
    ∀ n ∈ latencyAlerts m mh, isChangedNotification n = false := by
  intro n hn
  unfold latencyAlerts at hn
  split_ifs at hn <;> simp at hn
  all_goals
    first
      | (rcases hn with h | h <;> subst h <;> rfl)
      | (subst hn; rfl)

/-- C18: for every accepted report (the monitor is registered with a non-zero id and the
worker returns) on a monitor whose SSL cache in the sentinel is empty, whose data does
not start with the SSL-error mark and has at least two `|`-separated parts: after the
report the sentinel's SSL cache is the old cache with the entry of the monitor set to the
report's data, so the cache of the monitor reads the report's data; the message of the SSL
step is not "SSL certificate changed"; and no notification dispatched for the report
carries that message, whatever the time parser returns and whatever the time is. -/
theorem workerStep_primes_cache (parseTime : String → Option Int) (now : Int) (w w' : World)
    (r : ReportData) (m : Monitor) (hstep : workerStep parseTime now w r = some w')
    (hm : mapGet w.ss.monitors r.Data.Id = some m) (hid : m.ID ≠ 0)
    (hempty : mapGetD w.ss.sslCertCache r.Data.Id "" = "")
    (hmark : startsWith r.Data.Data sslErrorMark = false)
    (hparts : (splitOn r.Data.Data '|').length > 1) :
    w'.ss.sslCertCache = mapSet w.ss.sslCertCache r.Data.Id r.Data.Data ∧
    mapGetD w'.ss.sslCertCache r.Data.Id "" = r.Data.Data ∧
    (∀ msg, (sslStep parseTime now w.ss.sslCertCache r.Data.Id r.Data.Data).2 = some msg →
      isChangedMessage msg = false) ∧
    ∃ rest, w'.sent = w.sent ++ rest ∧ ∀ n ∈ rest, isChangedNotification n = false := by
  obtain ⟨t, _, hw'⟩ := workerStep_commit parseTime now w w' r m hstep hm hid
  have hcache : w'.ss.sslCertCache =
      (sslStep parseTime now w.ss.sslCertCache r.Data.Id r.Data.Data).1 := by
    rw [hw']; rfl
  have hget : mapGetD (mapSet w.ss.sslCertCache r.Data.Id r.Data.Data) r.Data.Id "" =
      r.Data.Data := by
    simp [mapGetD, mapGet_mapSet_self]
  have hssl : sslStep parseTime now w.ss.sslCertCache r.Data.Id r.Data.Data =
      (mapSet w.ss.sslCertCache r.Data.Id r.Data.Data,
        if (parseTime ((splitOn r.Data.Data '|').getD 1 "")).getD zeroTime < addDays now 7 then
          some (SslMessage.expiring
            ((parseTime ((splitOn r.Data.Data '|').getD 1 "")).getD zeroTime))
        else none) := by
    unfold sslStep
    simp only [hmark, Bool.false_eq_true, if_false, hparts, if_true, hempty, hget, ne_eq,
      not_true_eq_false, false_and]
  have hmsg : ∀ msg, (sslStep parseTime now w.ss.sslCertCache r.Data.Id r.Data.Data).2 =
      some msg → isChangedMessage msg = false := by
    intro msg h
    rw [hssl] at h
    simp only at h
    split_ifs at h
    cases h
    rfl
  refine ⟨by rw [hcache, hssl], by rw [hcache, hssl]; exact hget, hmsg, ?_⟩
  refine ⟨latencyAlerts m (PB2MonitorHistory r.Data) ++
      (statusAlert m w.ss.lastStatus r.Data.Id
        (windowState ((mapGetD w.ss.serviceCurrentStatusData r.Data.Id []).set
          (mapGetD w.ss.serviceCurrentStatusIndex r.Data.Id 0).toNat
          (PB2MonitorHistory r.Data)))).2 ++
      (if (sslStep parseTime now w.ss.sslCertCache r.Data.Id r.Data.Data).2.isSome &&
          m.Notify then
        [Notification.ssl m.NotificationTag m.Name
          ((sslStep parseTime now w.ss.sslCertCache r.Data.Id r.Data.Data).2.getD
            (SslMessage.error ""))]
      else []), ?_, ?_⟩
  · rw [hw']
    simp only [workerCommit, List.append_assoc]
    rfl
  · intro n hn
    rw [List.mem_append, List.mem_append] at hn
    rcases hn with (hn | hn) | hn
    · exact latencyAlerts_not_changed _ _ n hn
    · rw [statusAlert_sent] at hn
      split_ifs at hn
      · rw [List.mem_singleton] at hn
        subst hn
        rfl
      · cases hn
    · split_ifs at hn with hc
      · rw [List.mem_singleton] at hn
        subst hn
        rw [Bool.and_eq_true, Option.isSome_iff_exists] at hc
        obtain ⟨⟨msg, hsome⟩, _⟩ := hc
        rw [hsome]
        exact hmsg msg hsome
      · cases hn

/-- C18 at the first observation `"CN=example|not-a-date"` of the freshly registered sample
monitor: after the report the sentinel's SSL cache holds the report's data for monitor 1,
and the one notification dispatched is the expiry message, not "changed". -/
theorem workerStep_primes_cache_witness :
    workerStep parseNothing sampleNow sampleWorld malformedReport = some primedWorld ∧
    mapGet sampleWorld.ss.monitors malformedReport.Data.Id =
      some { sampleMonitor with CronJobID := 1 } ∧
    ({ sampleMonitor with CronJobID := 1 } : Monitor).ID ≠ 0 ∧
    mapGetD sampleWorld.ss.sslCertCache malformedReport.Data.Id "" = "" ∧
    startsWith malformedReport.Data.Data sslErrorMark = false ∧
    (splitOn malformedReport.Data.Data '|').length > 1 ∧
    primedWorld.ss.sslCertCache = [(1, "CN=example|not-a-date")] ∧
    primedWorld.sent = [Notification.ssl "default" "web" (SslMessage.expiring zeroTime)] ∧
    primedWorld.ss.sslCertCache =
      mapSet sampleWorld.ss.sslCertCache malformedReport.Data.Id malformedReport.Data.Data ∧
    mapGetD primedWorld.ss.sslCertCache malformedReport.Data.Id "" =
      malformedReport.Data.Data :=
  ⟨by decide!, by decide!, by decide, by decide!, by decide!, by decide!, by decide!,
    by decide!,
    (workerStep_primes_cache parseNothing sampleNow sampleWorld primedWorld malformedReport
      { sampleMonitor with CronJobID := 1 } (by decide!) (by decide!) (by decide)
      (by decide!) (by decide!) (by decide!)).1,
    (workerStep_primes_cache parseNothing sampleNow sampleWorld primedWorld malformedReport
      { sampleMonitor with CronJobID := 1 } (by decide!) (by decide!) (by decide)
      (by decide!) (by decide!) (by decide!)).2.1⟩

/-! ## Window counters between a Daily Roll and the next accepted report -/

end Nezha
